import Mathlib

/-!
Swadge firmware: note scheduler, tuner and metronome.

A shallow embedding of
* `components/hdw-buzzer/musical_buzzer_rmt.c` (the two-track note scheduler),
* `main/modes/mode_tunernome.c` (tuner filters, colour mapping, metronome sweep and
  bpm auto-repeat),
* `main/settingsManager.c` (the microphone gain setting),
followed by theorems about the embedded functions.

Conventions: C integers are embedded as `Int`/`Nat`; a store into a fixed-width variable is
written with `toInt32` / `toUInt32` / `toInt16`, an arithmetic right shift of a signed value is
floor division by a power of two.  Pointers to immutable data are embedded by the data they
point to (`Option` for a nullable pointer).  The microsecond clock `esp_timer_get_time()` is an
explicit argument of every function that reads it.
-/

namespace Swadge

/-! ## Machine integers -/

/-- Value stored when an integer expression is converted to `int32_t`. -/
def toInt32 (x : Int) : Int := (x + 2147483648) % 4294967296 - 2147483648

/-- Value stored when an integer expression is converted to `uint32_t`. -/
def toUInt32 (x : Int) : Int := x % 4294967296

/-- Value stored when an integer expression is converted to `int16_t`. -/
def toInt16 (x : Int) : Int := (x + 32768) % 65536 - 32768

/-- Value stored when an integer expression is converted to `uint8_t`. -/
def toUInt8 (x : Int) : Int := x % 256

/-- Arithmetic right shift `x >> n` of a signed value (rounds toward minus infinity). -/
def asr (x : Int) (n : Nat) : Int := x / 2 ^ n

/-- The macro `CLAMP(X, MIN, MAX)` of `mode_tunernome.c`. -/
def CLAMP (x lo hi : Int) : Int := if x > hi then hi else (if x < lo then lo else x)

/-- The macro `ABS(X)` of `mode_tunernome.c`. -/
def ABS (x : Int) : Int := if x < 0 then -x else x

/-- The constant `INT_MIN` of `limits.h` for a 32-bit `int`. -/
def INT_MIN : Int := -2147483648

/-! ## musical_buzzer_rmt.c : data -/

/-- Modelled from the spec: the sentinel pitch of a rest.  The enumeration `noteFrequency_t`
is declared in `musical_buzzer.h`; a pitch is a frequency in Hz and the sentinel is the zero
frequency. -/
def SILENCE : Nat := 0

/-- A note `musicalNote_t`: a pitch (frequency in Hz, or `SILENCE`) and an unsigned
duration in milliseconds. -/
structure musicalNote_t where
  note : Nat
  timeMs : Nat
deriving DecidableEq

/-- A song `song_t`: the loop flag and the notes; the field `numNotes` is the number of
entries of the `notes` array. -/
structure song_t where
  shouldLoop : Bool
  notes : List musicalNote_t
deriving DecidableEq

/-- The field `numNotes` of a song. -/
def song_t.numNotes (s : song_t) : Nat := s.notes.length

/-- The array read `song->notes[i]`; the scheduler evaluates it only under the guard
`i < song->numNotes`. -/
def song_t.noteAt (s : song_t) (i : Nat) : musicalNote_t := s.notes.getD i ⟨SILENCE, 0⟩

/-- The expression `1000 * note.timeMs`: `timeMs` is an unsigned 32-bit field, so the product
is evaluated in unsigned 32-bit arithmetic. -/
def noteDurationUs (n : musicalNote_t) : Int := toUInt32 (1000 * (n.timeMs : Int))

/-- One track `buzzerTrack_t`: a nullable song pointer, the note index and the start time
of the current note. -/
structure buzzerTrack_t where
  song : Option song_t
  note_index : Nat
  start_time : Int
deriving DecidableEq

/-- A pointer `&(song->notes[index])` into a song. -/
structure notePtr where
  song : song_t
  index : Nat
deriving DecidableEq

/-- Dereference of a note pointer; `none` when it points past the last note. -/
def notePtr.deref (p : notePtr) : Option musicalNote_t := p.song.notes[p.index]?

/-- The scheduler `rmt_buzzer_t` (the RMT channel number is omitted). -/
structure rmt_buzzer_t where
  counter_clk_hz : Nat
  bgm : buzzerTrack_t
  sfx : buzzerTrack_t
  playNote : Option notePtr
  stopSong : Bool
  isMuted : Bool
deriving DecidableEq

/-- A mutation of the tone hardware: `rmt_tx_stop`, or `rmt_set_tx_loop_count` followed by
`rmt_write_items` of one item with high time `duration0` and low time `duration1`. -/
inductive rmtOp where
  | tx_stop : rmtOp
  | write_items (duration0 duration1 : Nat) : rmtOp
deriving DecidableEq

/-- The cleared track written by the scheduler when a song ends or on `buzzer_stop`. -/
def emptyTrack : buzzerTrack_t := ⟨none, 0, 0⟩

/-! ## musical_buzzer_rmt.c : functions -/

/-- `buzzer_play_sfx(song)`, with `now` the reading of `esp_timer_get_time()`. -/
def buzzer_play_sfx (b : rmt_buzzer_t) (song : song_t) (now : Int) : rmt_buzzer_t :=
  if b.isMuted then b
  else
    { b with
      sfx := ⟨some song, 0, now⟩
      playNote := some ⟨song, 0⟩
      stopSong := false }

/-- `buzzer_play_bgm(song)`, with `now` the reading of `esp_timer_get_time()`. -/
def buzzer_play_bgm (b : rmt_buzzer_t) (song : song_t) (now : Int) : rmt_buzzer_t :=
  if b.isMuted then b
  else
    let b1 := { b with bgm := ⟨some song, 0, now⟩ }
    if b1.sfx.song = none then
      { b1 with playNote := some ⟨song, 0⟩, stopSong := false }
    else b1

/-- What one call of `buzzer_track_check_next_note` leaves behind: the track, the two
scheduler fields it may write, and its return value. -/
structure trackCheck_t where
  track : buzzerTrack_t
  playNote : Option notePtr
  stopSong : Bool
  active : Bool
deriving DecidableEq

/-- `buzzer_track_check_next_note(track, isActive)`; `cTime` is the reading of
`esp_timer_get_time()` and `playNote`, `stopSong` are the scheduler fields on entry. -/
def buzzer_track_check_next_note (track : buzzerTrack_t) (isActive : Bool) (cTime : Int)
    (playNote : Option notePtr) (stopSong : Bool) : trackCheck_t :=
  match track.song with
  | none => ⟨track, playNote, stopSong, false⟩
  | some song =>
    if track.note_index < song.numNotes then
      if cTime - track.start_time ≥ noteDurationUs (song.noteAt track.note_index) then
        -- Move to the next note
        let idx1 := track.note_index + 1
        -- Loop if we should
        let idx2 := if song.shouldLoop ∧ idx1 = song.numNotes then 0 else idx1
        if idx2 < song.numNotes then
          if isActive then
            ⟨⟨some song, idx2, cTime⟩, some ⟨song, idx2⟩, false, true⟩
          else
            ⟨⟨some song, idx2, cTime⟩, playNote, stopSong, true⟩
        else
          if isActive then
            ⟨⟨none, 0, 0⟩, none, true, false⟩
          else
            ⟨⟨none, 0, 0⟩, playNote, stopSong, false⟩
      else
        ⟨track, playNote, stopSong, true⟩
    else
      ⟨track, playNote, stopSong, false⟩

/-- Modelled from the spec: a duration field of the item type `rmt_item32_t`, which the RMT
driver declares outside the repository.  The tone output starts the wave at the half-period
it is given, so the field holds the number of ticks stored into it. -/
def rmt_item_duration (ticks : Nat) : Nat := ticks

/-- `play_note(notation)`: the hardware mutation for one note, `rmt_tx_stop` for a rest and
otherwise one item whose two durations are `counter_clk_hz / note / 2`. -/
def play_note (counter_clk_hz : Nat) (n : musicalNote_t) : List rmtOp :=
  if n.note = SILENCE then [rmtOp.tx_stop]
  else
    let duration0 := rmt_item_duration (counter_clk_hz / n.note / 2)
    let duration1 := duration0
    [rmtOp.write_items duration0 duration1]

/-- `buzzer_check_next_note()`.  `cSfx` and `cBgm` are the clock readings taken while the
sfx and the bgm track are checked, `idle` says whether `rmt_wait_tx_done` reports the
transmitter idle.  The result is the new scheduler state and the hardware mutations issued,
or `none` when the pending note pointer is dereferenced outside its song. -/
def buzzer_check_next_note (b : rmt_buzzer_t) (cSfx cBgm : Int) (idle : Bool) :
    Option (rmt_buzzer_t × List rmtOp) :=
  if b.isMuted then some (b, [])
  else
    -- Try playing SFX first
    let r1 := buzzer_track_check_next_note b.sfx true cSfx b.playNote b.stopSong
    -- Then play BGM if SFX isn't active
    let r2 := buzzer_track_check_next_note b.bgm (!r1.active) cBgm r1.playNote r1.stopSong
    let b1 : rmt_buzzer_t :=
      { b with sfx := r1.track, bgm := r2.track, playNote := r2.playNote, stopSong := r2.stopSong }
    if b1.playNote.isSome ∨ b1.stopSong = true then
      if idle then
        match b1.playNote with
        | some p =>
          match p.deref with
          | some n => some ({ b1 with playNote := none }, play_note b1.counter_clk_hz n)
          | none => none
        | none =>
          if b1.stopSong then some ({ b1 with stopSong := false }, [rmtOp.tx_stop])
          else some (b1, [])
      else some (b1, [])
    else some (b1, [])

/-- `buzzer_stop()` at its return, that is once `rmt_wait_tx_done` has reported idle. -/
def buzzer_stop (b : rmt_buzzer_t) : rmt_buzzer_t × List rmtOp :=
  if b.isMuted then (b, [])
  else
    ({ b with bgm := ⟨none, 0, 0⟩, sfx := ⟨none, 0, 0⟩, playNote := none, stopSong := false },
      [rmtOp.tx_stop])

/-- The index a track moves to when the note at index `i` of `song` has run out
(specification side: `i + 1`, folded to `0` at the end of a looping song). -/
def nextIndex (song : song_t) (i : Nat) : Nat :=
  if song.shouldLoop = true ∧ i + 1 = song.numNotes then 0 else i + 1

/-- The track a due poll at clock reading `c` leaves behind (specification side). -/
def advancedTrack (song : song_t) (i : Nat) (c : Int) : buzzerTrack_t :=
  if nextIndex song i < song.numNotes then ⟨some song, nextIndex song i, c⟩ else ⟨none, 0, 0⟩

/-- Polls of one track at the clock readings `cs`, oldest first; the result is the track
after the last poll (the track a poll leaves depends neither on `isActive` nor on the pending
note and stop request). -/
def pollTrack (isActive : Bool) (track : buzzerTrack_t) : List Int → buzzerTrack_t
  | [] => track
  | c :: cs =>
    pollTrack isActive (buzzer_track_check_next_note track isActive c none false).track cs

/-! ## mode_tunernome.c : constants and data -/

/-- The constant `TONAL_DIFF_IN_TUNE_DEVIATION`. -/
def TONAL_DIFF_IN_TUNE_DEVIATION : Int := 10

/-- The constant `SENSITIVITY`, the shift of both filters. -/
def SENSITIVITY : Nat := 5

/-- The constant `INITIAL_BPM`. -/
def INITIAL_BPM : Int := 60

/-- The constant `MAX_BPM`. -/
def MAX_BPM : Int := 400

/-- The constant `US_TO_QUIT`. -/
def US_TO_QUIT : Int := 1048576

/-- The constant `METRONOME_CLICK_MS`. -/
def METRONOME_CLICK_MS : Nat := 35

/-- The constant `BPM_CHANGE_FIRST_MS`. -/
def BPM_CHANGE_FIRST_MS : Int := 500

/-- The constant `BPM_CHANGE_FAST_MS`. -/
def BPM_CHANGE_FAST_MS : Int := 2000

/-- The constant `BPM_CHANGE_REPEAT_MS`. -/
def BPM_CHANGE_REPEAT_MS : Int := 50

/-- The enumerator `MAX_GUITAR_MODES` of `tuner_mode_t`; the tuner modes are the numbers
`GUITAR_TUNER = 0`, `VIOLIN_TUNER = 1`, `UKULELE_TUNER = 2`, `SEMITONE_0 = 3` to
`SEMITONE_11 = 14` and `LISTENING = 15`. -/
def MAX_GUITAR_MODES : Int := 16

/-- The enumerator `GUITAR_TUNER` of `tuner_mode_t`. -/
def GUITAR_TUNER : Int := 0

/-- The submode `tnMode`. -/
inductive tnMode where
  | TN_TUNER : tnMode
  | TN_METRONOME : tnMode
deriving DecidableEq

/-- Modelled from the spec: the buttons of `buttonBit_t`, an enumeration declared outside
`mode_tunernome.c`.  Every button is a non-zero bit, so the value `0` stored in
`lastBpmButton` for "no button" is `none : Option buttonBit_t`. -/
inductive buttonBit_t where
  | UP : buttonBit_t
  | DOWN : buttonBit_t
  | LEFT : buttonBit_t
  | RIGHT : buttonBit_t
  | BTN_A : buttonBit_t
  | BTN_B : buttonBit_t
  | START : buttonBit_t
  | SELECT : buttonBit_t
deriving DecidableEq

/-- The fields of a button event `buttonEvt_t` read by the mode. -/
structure buttonEvt_t where
  button : buttonBit_t
  down : Bool
deriving DecidableEq

/-- A time signature `timeSignature`. -/
structure timeSignature where
  top : Int
  bottom : Int
deriving DecidableEq

/-- The table `tSigs`. -/
def tSigs : List timeSignature :=
  [⟨4, 4⟩, ⟨3, 4⟩, ⟨2, 4⟩, ⟨1, 4⟩, ⟨8, 4⟩, ⟨7, 4⟩, ⟨6, 4⟩, ⟨5, 4⟩]

/-- The expression `sizeof(tSigs)`: eight entries of two `uint8_t` fields each. -/
def sizeof_tSigs : Int := 16

/-- Modelled from the spec: the pitch `A_4` of `noteFrequency_t` (declared in
`musical_buzzer.h`), a frequency in Hz; the metronome only needs it to differ from `A_3` and
from `SILENCE`. -/
def A_4 : Nat := 440

/-- Modelled from the spec: the pitch `A_3` of `noteFrequency_t` (declared in
`musical_buzzer.h`), a frequency in Hz. -/
def A_3 : Nat := 220

/-- The song `metronome_primary`. -/
def metronome_primary : song_t := ⟨false, [⟨A_4, METRONOME_CLICK_MS⟩]⟩

/-- The song `metronome_secondary`. -/
def metronome_secondary : song_t := ⟨false, [⟨A_3, METRONOME_CLICK_MS⟩]⟩

/-- The fields of `tunernome_t` that the mode logic reads and writes (display, fonts,
images and the spectral front end are left out; the filter arrays are embedded channel by
channel further down). -/
structure tunernome_t where
  mode : tnMode
  curTunerMode : Int
  lastBpmButton : Option buttonBit_t
  bpmButtonCurChangeUs : Int
  bpmButtonStartUs : Int
  bpmButtonAccumulatedUs : Int
  tSigIdx : Int
  beatCtr : Int
  bpm : Int
  tAccumulatedUs : Int
  isClockwise : Bool
  usPerBeat : Int
  exitTimeStartUs : Int
  exitTimeAccumulatedUs : Int
  exitButtonHeld : Bool
  blinkStartUs : Int
  blinkAccumulatedUs : Int
  isBlinking : Bool
deriving DecidableEq

/-- What one call of `tunernomeMainLoop` leaves behind: the mode state, the song handed to
`buzzer_play_sfx` when the call emitted a tick, and whether `switchToSwadgeMode` was
called. -/
structure mainLoop_t where
  state : tunernome_t
  tick : Option song_t
  quit : Bool
deriving DecidableEq

/-! ## mode_tunernome.c : metronome and buttons -/

/-- `recalcMetronome()`: `usPerBeat = (60 * 1000000) / bpm` with the truncating division of
C; `none` when the divisor is zero. -/
def recalcMetronome (t : tunernome_t) : Option tunernome_t :=
  if t.bpm = 0 then none
  else some { t with usPerBeat := Int.tdiv (60 * 1000000) t.bpm }

/-- `modifyBpm(bpmMod)`: the argument is converted to the parameter type `int16_t`, the sum
is an `int`. -/
def modifyBpm (t : tunernome_t) (bpmMod : Int) : Option tunernome_t :=
  recalcMetronome { t with bpm := CLAMP (toInt32 (t.bpm + toInt16 bpmMod)) 1 MAX_BPM }

/-- `switchToSubmode(newMode)`; the calls to the buzzer, the LEDs and the display are
outside `tunernome_t`. -/
def switchToSubmode (t : tunernome_t) (newMode : tnMode) : Option tunernome_t :=
  match newMode with
  | tnMode.TN_TUNER => some { t with mode := newMode }
  | tnMode.TN_METRONOME =>
    recalcMetronome
      { t with
        mode := newMode
        isClockwise := true
        tSigIdx := 0
        beatCtr := 0
        tAccumulatedUs := 0
        lastBpmButton := none
        bpmButtonCurChangeUs := 0
        bpmButtonStartUs := 0
        bpmButtonAccumulatedUs := 0
        blinkStartUs := 0
        blinkAccumulatedUs := 0
        isBlinking := false }

/-- The zeroed `tunernome_t` returned by `calloc`. -/
def zeroedTunernome : tunernome_t :=
  { mode := tnMode.TN_TUNER, curTunerMode := 0, lastBpmButton := none,
    bpmButtonCurChangeUs := 0, bpmButtonStartUs := 0, bpmButtonAccumulatedUs := 0,
    tSigIdx := 0, beatCtr := 0, bpm := 0, tAccumulatedUs := 0, isClockwise := false,
    usPerBeat := 0, exitTimeStartUs := 0, exitTimeAccumulatedUs := 0, exitButtonHeld := false,
    blinkStartUs := 0, blinkAccumulatedUs := 0, isBlinking := false }

/-- `tunernomeEnterMode(disp)`. -/
def tunernomeEnterMode : Option tunernome_t :=
  (switchToSubmode
    { zeroedTunernome with
      tSigIdx := 0
      beatCtr := 0
      bpm := INITIAL_BPM
      curTunerMode := GUITAR_TUNER }
    tnMode.TN_TUNER).map
    fun t =>
      { t with
        exitTimeStartUs := 0
        exitTimeAccumulatedUs := 0
        exitButtonHeld := false
        blinkStartUs := 0
        blinkAccumulatedUs := 0
        isBlinking := false }

/-- The part of `tunernomeMainLoop` that times the held exit button. -/
def mainLoopExit (t : tunernome_t) (elapsedUs now : Int) : tunernome_t × Bool :=
  if t.exitButtonHeld then
    let t1 :=
      if t.exitTimeAccumulatedUs = 0 then
        { t with exitTimeAccumulatedUs := toUInt32 (now - t.exitTimeStartUs) }
      else
        { t with exitTimeAccumulatedUs := toUInt32 (t.exitTimeAccumulatedUs + elapsedUs) }
    (t1, decide (t1.exitTimeAccumulatedUs ≥ US_TO_QUIT))
  else (t, false)

/-- The part of the metronome case of `tunernomeMainLoop` that times the LED blink. -/
def mainLoopBlink (t : tunernome_t) (elapsedUs now : Int) : tunernome_t :=
  if t.isBlinking then
    if t.blinkAccumulatedUs = 0 then
      { t with blinkAccumulatedUs := toUInt32 (now - t.blinkStartUs) }
    else
      { t with blinkAccumulatedUs := toUInt32 (t.blinkAccumulatedUs + elapsedUs) }
  else t

/-- The sweep of the metronome arm in `tunernomeMainLoop`: the new state and the flag
`shouldBlink`. -/
def mainLoopSweep (t : tunernome_t) (elapsedUs : Int) : tunernome_t × Bool :=
  if t.isClockwise then
    -- Add to tAccumulatedUs
    let t1 := { t with tAccumulatedUs := toInt32 (t.tAccumulatedUs + elapsedUs) }
    if t1.tAccumulatedUs ≥ t1.usPerBeat then
      ({ t1 with
          isClockwise := false
          tAccumulatedUs := toInt32 (t1.usPerBeat - (t1.tAccumulatedUs - t1.usPerBeat)) },
        true)
    else (t1, false)
  else
    -- Subtract from tAccumulatedUs
    let t1 := { t with tAccumulatedUs := toInt32 (t.tAccumulatedUs - elapsedUs) }
    if t1.tAccumulatedUs ≤ 0 then
      ({ t1 with isClockwise := true, tAccumulatedUs := toInt32 (-t1.tAccumulatedUs) }, true)
    else (t1, false)

/-- The beat bookkeeping of `tunernomeMainLoop` when `shouldBlink` is set: the new state and
the song handed to `buzzer_play_sfx`; `none` when `tSigs` is read outside its eight entries
or the numerator read is zero. -/
def mainLoopTick (t : tunernome_t) (now : Int) : Option (tunernome_t × song_t) :=
  match tSigs[t.tSigIdx.toNat]? with
  | none => none
  | some sig =>
    if sig.top = 0 then none
    else
      let t1 := { t with beatCtr := toUInt8 (Int.tmod (t.beatCtr + 1) sig.top) }
      let song := if (0 : Int) = t1.beatCtr then metronome_primary else metronome_secondary
      some ({ t1 with isBlinking := true, blinkStartUs := toUInt32 now, blinkAccumulatedUs := 0 },
        song)

/-- The first half of the auto-repeat block of `tunernomeMainLoop`: the held times of the
tracked bpm button are accumulated. -/
def bpmButtonAccumulate (t : tunernome_t) (elapsedUs now : Int) : tunernome_t :=
  if t.bpmButtonAccumulatedUs = 0 then
    let acc := toUInt32 (now - t.bpmButtonStartUs)
    { t with bpmButtonAccumulatedUs := acc, bpmButtonCurChangeUs := acc }
  else
    { t with
      bpmButtonAccumulatedUs := toUInt32 (t.bpmButtonAccumulatedUs + elapsedUs)
      bpmButtonCurChangeUs := toUInt32 (t.bpmButtonCurChangeUs + elapsedUs) }

/-- The second half of the auto-repeat block of `tunernomeMainLoop`: the button press is
repeated when the held times have passed their thresholds. -/
def bpmButtonRepeat (t : tunernome_t) : Option tunernome_t :=
  if t.bpmButtonAccumulatedUs ≥ BPM_CHANGE_FIRST_MS * 1000 then
    if t.bpmButtonCurChangeUs ≥ BPM_CHANGE_REPEAT_MS * 1000 then
      let mod : Int := if t.bpmButtonAccumulatedUs ≥ BPM_CHANGE_FAST_MS * 1000 then 3 else 1
      let t2 :=
        match t.lastBpmButton with
        | some buttonBit_t.UP => modifyBpm t mod
        | some buttonBit_t.DOWN => modifyBpm t (-mod)
        | _ => some t
      t2.map fun t3 => { t3 with bpmButtonCurChangeUs := 0 }
    else some t
  else some t

/-- The auto-repeat block of `tunernomeMainLoop` for a held bpm button. -/
def mainLoopBpmButton (t : tunernome_t) (elapsedUs now : Int) : Option tunernome_t :=
  if t.lastBpmButton ≠ none then bpmButtonRepeat (bpmButtonAccumulate t elapsedUs now)
  else some t

/-- `tunernomeMainLoop(elapsedUs)`; `now` is the reading of `esp_timer_get_time()` during the
call.  Of the drawing only the read of `tSigs[tSigIdx]` for the text line of the metronome
case is kept: the result is `none` when it falls outside the eight entries of the table. -/
def tunernomeMainLoop (t : tunernome_t) (elapsedUs now : Int) : Option mainLoop_t :=
  let (t0, quit) := mainLoopExit t elapsedUs now
  match t0.mode with
  | tnMode.TN_TUNER => some ⟨t0, none, quit⟩
  | tnMode.TN_METRONOME =>
    -- sprintf(bpmStr, "%d bpm, %d/%d", bpm, tSigs[tSigIdx].top, tSigs[tSigIdx].bottom)
    match tSigs[t0.tSigIdx.toNat]? with
    | none => none
    | some _ =>
      let t1 := mainLoopBlink t0 elapsedUs now
      let (t2, shouldBlink) := mainLoopSweep t1 elapsedUs
      if shouldBlink then
        match mainLoopTick t2 now with
        | none => none
        | some (t3, song) =>
          (mainLoopBpmButton t3 elapsedUs now).map fun t4 => ⟨t4, some song, quit⟩
      else (mainLoopBpmButton t2 elapsedUs now).map fun t4 => ⟨t4, none, quit⟩

/-- `tunernomeButtonCallback(evt)`; `now` is the reading of `esp_timer_get_time()`.  The call
of `incMicGain` acts on the settings store, outside `tunernome_t`. -/
def tunernomeButtonCallback (t : tunernome_t) (evt : buttonEvt_t) (now : Int) :
    Option tunernome_t :=
  if evt.button = buttonBit_t.LEFT then
    if evt.down then
      some { t with exitButtonHeld := true, exitTimeStartUs := toUInt32 now }
    else
      some { t with exitTimeStartUs := 0, exitTimeAccumulatedUs := 0, exitButtonHeld := false }
  else
    match t.mode with
    | tnMode.TN_TUNER =>
      if evt.down then
        match evt.button with
        | buttonBit_t.UP =>
          some { t with curTunerMode := Int.tmod (t.curTunerMode + 1) MAX_GUITAR_MODES }
        | buttonBit_t.DOWN =>
          if (0 : Int) = t.curTunerMode then some { t with curTunerMode := MAX_GUITAR_MODES - 1 }
          else some { t with curTunerMode := t.curTunerMode - 1 }
        | buttonBit_t.BTN_A => some t
        | buttonBit_t.RIGHT => switchToSubmode t tnMode.TN_METRONOME
        | _ => some t
      else some t
    | tnMode.TN_METRONOME =>
      if evt.down then
        match evt.button with
        | buttonBit_t.UP =>
          (modifyBpm t 1).map fun t1 =>
            { t1 with
              lastBpmButton := some evt.button
              bpmButtonStartUs := 0
              bpmButtonCurChangeUs := 0
              bpmButtonAccumulatedUs := 0 }
        | buttonBit_t.DOWN =>
          (modifyBpm t (-1)).map fun t1 =>
            { t1 with
              lastBpmButton := some evt.button
              bpmButtonStartUs := 0
              bpmButtonCurChangeUs := 0
              bpmButtonAccumulatedUs := 0 }
        | buttonBit_t.BTN_A =>
          some { t with tSigIdx := toUInt8 (Int.tmod (t.tSigIdx + 1) sizeof_tSigs) }
        | buttonBit_t.RIGHT => switchToSubmode t tnMode.TN_TUNER
        | _ => some t
      else
        match evt.button with
        | buttonBit_t.UP | buttonBit_t.DOWN =>
          if some evt.button = t.lastBpmButton then
            some { t with
              lastBpmButton := none
              bpmButtonStartUs := 0
              bpmButtonCurChangeUs := 0
              bpmButtonAccumulatedUs := 0 }
          else some t
        | _ => some t

/-! ## mode_tunernome.c : tuner filters and colour mapping -/

/-- An LED colour `led_t`. -/
structure led_t where
  r : Int
  g : Int
  b : Int
deriving DecidableEq

/-- The intensity filter, the same statement in `instrumentTunerMagic` and in the chromatic
branch of `tunernomeSampleHandler`: `filt = (mag + filt) - (filt >> 5)` on a `uint32_t`
accumulator `filt`, with `mag` the `int16_t` returned by `getMagnitude` or
`getSemiMagnitude`. -/
def intensityFilt (mag filt : Int) : Int := toUInt32 ((mag + filt) - asr filt 5)

/-- The difference filter, the same statement in both classifiers:
`filt = (diff + filt) - (filt >> 5)` on an `int32_t` accumulator, with `diff` the `int16_t`
returned by `getDiffAround` or `getSemiDiffAround`. -/
def diffFilt (diff filt : Int) : Int := toInt32 ((diff + filt) - asr filt 5)

/-- The reported intensity: `int16_t intensity = (filt >> SENSITIVITY) - 40`, computed in
unsigned 32-bit arithmetic and stored as `int16_t`, then `CLAMP(intensity, 0, 255)`. -/
def intensityOf (filt : Int) : Int :=
  CLAMP (toInt16 (toUInt32 (asr filt SENSITIVITY - 40))) 0 255

/-- The reported tonal difference:
`int16_t tonalDiff = (filt >> SENSITIVITY) * 200 / (intensity + 1)`, with the product an
`int`, the division truncating and the quotient stored as `int16_t`. -/
def tonalDiffOf (filt intensity : Int) : Int :=
  toInt16 (Int.tdiv (toInt32 (asr filt SENSITIVITY * 200)) (intensity + 1))

/-- The last step of both colour mappings: scale by the intensity and clamp to a byte. -/
def scaleColor (red grn blu intensity : Int) : led_t :=
  let red1 := asr red 3 * asr intensity 3
  let grn1 := asr grn 3 * asr intensity 3
  let blu1 := asr blu 3 * asr intensity 3
  ⟨CLAMP red1 0 255, CLAMP grn1 0 255, CLAMP blu1 0 255⟩

/-- The colour `instrumentTunerMagic` writes for one string, from its `tonalDiff` and
`intensity`. -/
def instrumentTunerColor (tonalDiff intensity : Int) : led_t :=
  if ABS tonalDiff < TONAL_DIFF_IN_TUNE_DEVIATION then
    -- Note is in tune, make it white
    scaleColor 255 255 255 intensity
  else
    if tonalDiff > 0 then
      -- Note too sharp, make it red
      let red := 255
      let blu := 255 - tonalDiff * 15
      let grn := blu
      scaleColor (CLAMP red INT_MIN 255) (CLAMP grn INT_MIN 255) (CLAMP blu INT_MIN 255)
        intensity
    else
      -- Note too flat, make it blue
      let blu := 255
      let red := 255 - (-tonalDiff) * 15
      let grn := red
      scaleColor (CLAMP red INT_MIN 255) (CLAMP grn INT_MIN 255) (CLAMP blu INT_MIN 255)
        intensity

/-- The colour the chromatic branch of `tunernomeSampleHandler` writes, from the
`tonalDiff` and `intensity` of the selected semitone. -/
def semitoneTunerColor (tonalDiff intensity : Int) : led_t :=
  if ABS tonalDiff < TONAL_DIFF_IN_TUNE_DEVIATION then
    -- Note is in tune, make it white
    scaleColor 255 255 255 intensity
  else
    if tonalDiff > 0 then
      -- Note too sharp, make it red
      let red := 255
      let blu := 255 - (tonalDiff - TONAL_DIFF_IN_TUNE_DEVIATION) * 15
      let grn := blu
      scaleColor (CLAMP red INT_MIN 255) (CLAMP grn INT_MIN 255) (CLAMP blu INT_MIN 255)
        intensity
    else
      -- Note too flat, make it blue
      let blu := 255
      let red := 255 - (-(tonalDiff + TONAL_DIFF_IN_TUNE_DEVIATION)) * 15
      let grn := red
      scaleColor (CLAMP red INT_MIN 255) (CLAMP grn INT_MIN 255) (CLAMP blu INT_MIN 255)
        intensity

/-! ## Runs of the mode -/

/-- An input of the mode: a button event or a call of the main loop, each with the clock
reading during the call, or a direct call of `switchToSubmode`. -/
inductive tnInput where
  | button (evt : buttonEvt_t) (now : Int) : tnInput
  | mainLoop (elapsedUs now : Int) : tnInput
  | submode (newMode : tnMode) : tnInput
deriving DecidableEq

/-- One step of the mode; `none` when the step is undefined in C. -/
def tnStep (t : tunernome_t) : tnInput → Option tunernome_t
  | tnInput.button evt now => tunernomeButtonCallback t evt now
  | tnInput.mainLoop elapsedUs now => (tunernomeMainLoop t elapsedUs now).map fun r => r.state
  | tnInput.submode newMode => switchToSubmode t newMode

/-- The states the mode can be in: the state left by `tunernomeEnterMode` and every state a
defined step leads to from such a state. -/
inductive tnReachable : tunernome_t → Prop where
  | enter (t : tunernome_t) (h : tunernomeEnterMode = some t) : tnReachable t
  | step (t t1 : tunernome_t) (i : tnInput) (ht : tnReachable t) (h : tnStep t i = some t1) :
    tnReachable t1

/-- A run of main-loop polls with elapsed time `e` each, the clock readings being `nows`;
the result is the final state and, per poll, whether it emitted a tick. -/
def pollMetronome (e : Int) : tunernome_t → List Int → Option (tunernome_t × List Bool)
  | t, [] => some (t, [])
  | t, now :: nows =>
    match tunernomeMainLoop t e now with
    | none => none
    | some r =>
      match pollMetronome e r.state nows with
      | none => none
      | some (t1, ticks) => some (t1, r.tick.isSome :: ticks)


/-! ## Specification-side helpers for the scheduler -/

/-- The sum of all note durations of a song in microseconds (milliseconds times 1000, over
the integers). -/
def songDurationUs (song : song_t) : Int :=
  (song.notes.map fun n => 1000 * (n.timeMs : Int)).sum

/-- The sum of the durations, in microseconds, of the notes from index `i` on. -/
def remainingUs (song : song_t) (i : Nat) : Int :=
  ((song.notes.drop i).map fun n => 1000 * (n.timeMs : Int)).sum

/-- Invariant of a non-looping track polled at most `g` microseconds apart, `last` being the
latest clock reading: the track has ended, or its current note is not overdue at `last` and
the notes still to play, with `g` of slack each, fit before `deadline`. -/
def trackOnTime (song : song_t) (deadline g last : Int) (tr : buzzerTrack_t) : Prop :=
  tr = ⟨none, 0, 0⟩ ∨
    ∃ i s, tr = ⟨some song, i, s⟩ ∧ i < song.numNotes
      ∧ last ≤ s + noteDurationUs (song.noteAt i)
      ∧ s + remainingUs song i + ((song.numNotes : Int) - i) * g ≤ deadline

/-- A two-note song that does not loop. -/
def twoNoteSong : song_t := ⟨false, [⟨440, 100⟩, ⟨220, 100⟩]⟩

/-- A three-note song that loops. -/
def loopSong : song_t := ⟨true, [⟨880, 50⟩, ⟨660, 50⟩, ⟨SILENCE, 50⟩]⟩

/-- A scheduler with `twoNoteSong` on the sfx track and `loopSong` on the bgm track, both at
their first note, started at clock reading 0. -/
def busyBuzzer : rmt_buzzer_t :=
  ⟨1000000, ⟨some loopSong, 0, 0⟩, ⟨some twoNoteSong, 0, 0⟩, none, false, false⟩

/-! ## Specification-side helpers for the metronome -/

/-- The metronome arm sweeps forward from accumulated time `a` towards the beat length `U`,
no bpm button is tracked and the time signature is the first of the table. -/
def sweepingForward (U a : Int) (m : tunernome_t) : Prop :=
  m.mode = tnMode.TN_METRONOME ∧ m.isClockwise = true ∧ m.lastBpmButton = none
    ∧ m.usPerBeat = U ∧ m.tAccumulatedUs = a ∧ m.tSigIdx = 0

/-- The state `tunernomeEnterMode` leaves: everything zero except `bpm = INITIAL_BPM`. -/
def enteredTunernome : tunernome_t := { zeroedTunernome with bpm := 60 }

/-- The state `switchToSubmode(TN_METRONOME)` leaves when called right after entering the
mode. -/
def metronomeAt60 : tunernome_t :=
  { enteredTunernome with mode := tnMode.TN_METRONOME, isClockwise := true, usPerBeat := 1000000 }

/-- A run of the mode over a list of inputs; `none` as soon as a step is undefined. -/
def tnRun : tunernome_t → List tnInput → Option tunernome_t
  | t, [] => some t
  | t, i :: is =>
    match tnStep t i with
    | none => none
    | some t1 => tnRun t1 is

/-- Clock readings `start + step`, `start + 2 * step`, ..., `start + n * step`. -/
def clockReadings (start step : Int) : Nat → List Int
  | 0 => []
  | n + 1 => (start + step) :: clockReadings (start + step) step n

/-- Invariant of the mode: `bpm` lies in `[1, 400]`, and `usPerBeat` is the beat length of
`bpm` unless the metronome submode has never been entered, in which case it still holds the
zero written by `calloc`. -/
def bpmInvariant (t : tunernome_t) : Prop :=
  (1 ≤ t.bpm ∧ t.bpm ≤ 400) ∧
    (t.usPerBeat = Int.tdiv 60000000 t.bpm
      ∨ (t.mode = tnMode.TN_TUNER ∧ t.usPerBeat = 0 ∧ t.bpm = 60))

/-! ## Specification-side helpers for the bpm auto-repeat -/

/-- The inputs while a button is held: one main-loop call with 50,000 us elapsed per clock
reading. -/
def holdInputs (nows : List Int) : List tnInput := nows.map (tnInput.mainLoop 50000)

/-- The state right after an increment button-down in `metronomeAt60`. -/
def heldAt61 : tunernome_t :=
  { metronomeAt60 with bpm := 61, usPerBeat := 983606, lastBpmButton := some buttonBit_t.UP }

/-- The state `t1` agrees with `t` on the submode, the time-signature index, `bpm` and the
fields of the tracked bpm button. -/
def sameButtons (t t1 : tunernome_t) : Prop :=
  t1.mode = t.mode ∧ t1.tSigIdx = t.tSigIdx ∧ t1.lastBpmButton = t.lastBpmButton
    ∧ t1.bpmButtonStartUs = t.bpmButtonStartUs
    ∧ t1.bpmButtonAccumulatedUs = t.bpmButtonAccumulatedUs
    ∧ t1.bpmButtonCurChangeUs = t.bpmButtonCurChangeUs ∧ t1.bpm = t.bpm

/-! ## Specification-side helpers for the tuner -/

/-- The difference accumulator after the raw differences `rs` (oldest first) have been fed to
a zero-initialised accumulator. -/
def diffAfter (rs : List Int) : Int := rs.foldl (fun filt diff => diffFilt diff filt) 0

/-- The intensity of the specification: `clamp((intensityEMA >> 5) - 40, 0, 255)` over the
integers. -/
def intensitySpec (filt : Int) : Int := max 0 (min 255 (filt / 32 - 40))

/-- The tonal deviation of the specification: `((diffEMA >> 5) * 200) / (intensity + 1)` over
the integers, the shift rounding down and the division truncating toward zero. -/
def tonalDeviationSpec (filt intensity : Int) : Int :=
  Int.tdiv (filt / 32 * 200) (intensity + 1)

/-- The colour of the specification for deviation `d` and intensity `I`, with `q = I >> 3`:
in tune (`|d| < 10`) every channel is `min(255, 31 * q)`; otherwise the dominant channel (red
when sharp, blue when flat) is `min(255, 31 * q)` and the two others are
`min(255, (max(0, 255 - 15 * (|d| - offset)) >> 3) * q)`. -/
def tunerColorRef (offset d I : Int) : led_t :=
  let q := I / 8
  let full := min 255 (31 * q)
  if |d| < 10 then ⟨full, full, full⟩
  else
    let faded := min 255 (max 0 (255 - 15 * (|d| - offset)) / 8 * q)
    if d > 0 then ⟨full, faded, faded⟩ else ⟨faded, faded, full⟩

/-! ## mode_tunernome.c : listening mode -/

/-- The loop of the `LISTENING` case of `tunernomeMainLoop` over the remaining entries of
`tunernome->intensity`, with `semitone` the loop index and the pair `(maxIntensity,
semitoneNum)` the two loop variables. -/
def listeningScan : List Int → Int → Int × Int → Int × Int
  | [], _, st => st
  | x :: xs, semitone, (maxIntensity, semitoneNum) =>
    if x > maxIntensity then listeningScan xs (semitone + 1) (x, semitone)
    else listeningScan xs (semitone + 1) (maxIntensity, semitoneNum)

/-- The value of `semitoneNum` after the loop of the `LISTENING` case, which starts with
`maxIntensity = 100` and `semitoneNum = -1`; `intensity` is the array
`tunernome->intensity`. -/
def listeningSemitone (intensity : List Int) : Int := (listeningScan intensity 0 (100, -1)).2

/-- Twelve channel intensities whose maximum, 200, is held by channels 3 and 4. -/
def sampleIntensities : List Int := [0, 101, 50, 200, 200, 7, 0, 0, 0, 0, 0, 150]

/-! ## Specification-side helpers for the beat counter -/

/-- A run of main-loop calls, each given by its elapsed time and its clock reading; the
result is the final state and, per call, the song handed to `buzzer_play_sfx` when the call
emitted a tick. -/
def pollMain : tunernome_t → List (Int × Int) → Option (tunernome_t × List (Option song_t))
  | t, [] => some (t, [])
  | t, (elapsedUs, now) :: ps =>
    match tunernomeMainLoop t elapsedUs now with
    | none => none
    | some r =>
      match pollMain r.state ps with
      | none => none
      | some (t1, outs) => some (t1, r.tick :: outs)

/-- The number of ticks among the outputs of a run. -/
def tickCount (outs : List (Option song_t)) : Nat := (outs.filter Option.isSome).length

/-- The numerator `tSigs[tSigIdx].top` of the selected time signature (1 outside the
table, where the C expression is undefined). -/
def numeratorOf (t : tunernome_t) : Int := (tSigs.getD t.tSigIdx.toNat ⟨1, 1⟩).top

/-- The state `t1` has the submode, the time-signature index and the beat counter of `t`. -/
def sameBeat (t t1 : tunernome_t) : Prop :=
  t1.mode = t.mode ∧ t1.tSigIdx = t.tSigIdx ∧ t1.beatCtr = t.beatCtr

/-- Six main-loop calls of 500,000 us each, the clock starting at 0. -/
def samplePolls : List (Int × Int) :=
  [(500000, 500000), (500000, 1000000), (500000, 1500000), (500000, 2000000),
    (500000, 2500000), (500000, 3000000)]

/-! ## Specification-side helpers for the scheduler operations -/

/-- The scheduler after the two calls of `buzzer_track_check_next_note` in
`buzzer_check_next_note`, before the hardware is looked at (the unchanged scheduler when
muted). -/
def buzzerAfterTracks (b : rmt_buzzer_t) (cSfx cBgm : Int) : rmt_buzzer_t :=
  if b.isMuted then b
  else
    let r1 := buzzer_track_check_next_note b.sfx true cSfx b.playNote b.stopSong
    let r2 := buzzer_track_check_next_note b.bgm (!r1.active) cBgm r1.playNote r1.stopSong
    { b with sfx := r1.track, bgm := r2.track, playNote := r2.playNote, stopSong := r2.stopSong }

/-- The scheduler left by `buzzer_init`: the zero-initialised global with the mute flag, and
with the counter clock `clk` read from the hardware when not muted. -/
def buzzer_init (clk : Nat) (isMuted : Bool) : rmt_buzzer_t :=
  ⟨if isMuted then 0 else clk, ⟨none, 0, 0⟩, ⟨none, 0, 0⟩, none, false, isMuted⟩

/-- A call of one of the scheduler's entry points, with the clock readings and the hardware
status it meets. -/
inductive buzzerOp where
  | play_sfx (song : song_t) (now : Int) : buzzerOp
  | play_bgm (song : song_t) (now : Int) : buzzerOp
  | check_next_note (cSfx cBgm : Int) (idle : Bool) : buzzerOp
  | stop : buzzerOp
deriving DecidableEq

/-- The songs handed to the scheduler have at least one note. -/
def buzzerOp.hasNotes : buzzerOp → Prop
  | buzzerOp.play_sfx song _ => 1 ≤ song.numNotes
  | buzzerOp.play_bgm song _ => 1 ≤ song.numNotes
  | _ => True

/-- One call of an entry point; `none` when the call is undefined in C. -/
def buzzerStep (b : rmt_buzzer_t) : buzzerOp → Option rmt_buzzer_t
  | buzzerOp.play_sfx song now => some (buzzer_play_sfx b song now)
  | buzzerOp.play_bgm song now => some (buzzer_play_bgm b song now)
  | buzzerOp.check_next_note cSfx cBgm idle =>
    (buzzer_check_next_note b cSfx cBgm idle).map fun r => r.1
  | buzzerOp.stop => some (buzzer_stop b).1

/-- The scheduler states that occur: the state left by `buzzer_init` and every state a
defined call with songs of at least one note leads to from such a state. -/
inductive buzzerReachable : rmt_buzzer_t → Prop where
  | init (clk : Nat) (isMuted : Bool) : buzzerReachable (buzzer_init clk isMuted)
  | step (b b1 : rmt_buzzer_t) (op : buzzerOp) (hb : buzzerReachable b) (hop : op.hasNotes)
    (h : buzzerStep b op = some b1) : buzzerReachable b1

/-- The pending fields are well formed: a pending note points inside its song, and a pending
note and a stop request are not both present. -/
def pendingWellFormed (playNote : Option notePtr) (stopSong : Bool) : Prop :=
  (∀ p, playNote = some p → p.index < p.song.numNotes)
    ∧ ¬ (playNote.isSome = true ∧ stopSong = true)

/-- The scheduler after `buzzer_init` (unmuted) and `buzzer_play_sfx(twoNoteSong)` at clock
reading 0. -/
def sfxStarted : rmt_buzzer_t :=
  ⟨1000000, ⟨none, 0, 0⟩, ⟨some twoNoteSong, 0, 0⟩, some ⟨twoNoteSong, 0⟩, false, false⟩


/-! ## musical_buzzer_rmt.c : the busy-wait of `buzzer_stop` -/

/-- `buzzer_stop()` with its loop `while (ESP_ERR_TIMEOUT == rmt_wait_tx_done(channel, 0))`:
`idle` lists what the successive calls of `rmt_wait_tx_done` report (`true` for idle).  The
result is `none` while every report read so far says busy, that is while the call has not
returned. -/
def buzzer_stop_wait (b : rmt_buzzer_t) : List Bool → Option (rmt_buzzer_t × List rmtOp)
  | [] => if b.isMuted then some (b, []) else none
  | idle :: rest =>
    if b.isMuted then some (b, [])
    else if idle then
      some ({ b with bgm := ⟨none, 0, 0⟩, sfx := ⟨none, 0, 0⟩, playNote := none,
                     stopSong := false },
        [rmtOp.tx_stop])
    else buzzer_stop_wait b rest

/-! ## Specification-side helpers for the tracked bpm button -/

/-- The state `t1` agrees with `t` on the submode, the time-signature index, the fields of
the tracked bpm button, `bpm` and `usPerBeat`. -/
def sameTempo (t t1 : tunernome_t) : Prop := sameButtons t t1 ∧ t1.usPerBeat = t.usPerBeat

/-- The sign of a bpm button: `+1` for `UP`, `-1` for any other button. -/
def bpmSign (btn : buttonBit_t) : Int := if btn = buttonBit_t.UP then 1 else -1

/-- The size of an auto-repeat change for the total held time `total`: 3 from 2,000,000 us
on, 1 before. -/
def bpmStepSize (total : Int) : Int := if total ≥ 2000000 then 3 else 1

/-! ## Specification-side helpers for the sweep of the metronome arm -/

/-- The state `t1` agrees with `t` on the submode, the time-signature index, the tracked bpm
button, `bpm`, `usPerBeat` and the position and direction of the arm. -/
def sameSweep (t t1 : tunernome_t) : Prop :=
  t1.mode = t.mode ∧ t1.tSigIdx = t.tSigIdx ∧ t1.lastBpmButton = t.lastBpmButton
    ∧ t1.bpm = t.bpm ∧ t1.usPerBeat = t.usPerBeat
    ∧ t1.tAccumulatedUs = t.tAccumulatedUs ∧ t1.isClockwise = t.isClockwise

/-- The sum of the elapsed times of a list of main-loop calls. -/
def elapsedUs (polls : List (Int × Int)) : Int := (polls.map Prod.fst).sum

/-- The metronome with beat length `U` has emitted `k` ticks and is `o` microseconds into the
current beat: it runs without a tracked bpm button, the arm sweeps forward after an even number
of ticks and backward after an odd number, and its position is `o` going forward and `U - o`
going backward. -/
def sweepPhase (U : Int) (k : Nat) (o : Int) (t : tunernome_t) : Prop :=
  t.mode = tnMode.TN_METRONOME ∧ (0 ≤ t.tSigIdx ∧ t.tSigIdx < 8) ∧ t.lastBpmButton = none
    ∧ t.usPerBeat = U ∧ (0 ≤ o ∧ o < U)
    ∧ t.isClockwise = decide (k % 2 = 0)
    ∧ t.tAccumulatedUs = (if t.isClockwise then o else U - o)

/-! ## mode_tunernome.c : the chromatic branch of the sample handler -/

/-- The constant `NUM_SEMITONES`, the length of the arrays `tonalDiff` and `intensity`. -/
def NUM_SEMITONES : Nat := 12

/-- The enumerator `VIOLIN_TUNER` of `tuner_mode_t`. -/
def VIOLIN_TUNER : Int := 1

/-- The enumerator `UKULELE_TUNER` of `tuner_mode_t`. -/
def UKULELE_TUNER : Int := 2

/-- The enumerator `SEMITONE_0` of `tuner_mode_t`. -/
def SEMITONE_0 : Int := 3

/-- The enumerator `SEMITONE_11` of `tuner_mode_t`. -/
def SEMITONE_11 : Int := 14

/-- The enumerator `LISTENING` of `tuner_mode_t`. -/
def LISTENING : Int := 15

/-- Whether the `switch` on `curTunerMode` in `tunernomeSampleHandler` takes the chromatic
branch: the cases `SEMITONE_0` to `SEMITONE_11`, `LISTENING` and `default`, that is every mode
but the three instrument tuners and `MAX_GUITAR_MODES`. -/
def takesChromaticBranch (curTunerMode : Int) : Bool :=
  !(decide (curTunerMode = GUITAR_TUNER) || decide (curTunerMode = VIOLIN_TUNER)
    || decide (curTunerMode = UKULELE_TUNER) || decide (curTunerMode = MAX_GUITAR_MODES))

/-- The index `curTunerMode - SEMITONE_0` with which the chromatic branch reads the arrays
`tonalDiff` and `intensity`. -/
def chromaticIndex (curTunerMode : Int) : Int := curTunerMode - SEMITONE_0

/-- The array read `a[i]` of a C array embedded as a list; `none` outside the array. -/
def readArray (a : List Int) (i : Int) : Option Int := if i < 0 then none else a[i.toNat]?

/-- The colour the chromatic branch of `tunernomeSampleHandler` computes for the selected
channel from the arrays `tonalDiff` and `intensity` filled by its loop; `none` when one of the
two arrays is read outside its bounds. -/
def chromaticBranchColor (curTunerMode : Int) (tonalDiff intensity : List Int) :
    Option led_t :=
  match readArray tonalDiff (chromaticIndex curTunerMode),
      readArray intensity (chromaticIndex curTunerMode) with
  | some d, some i => some (semitoneTunerColor d i)
  | _, _ => none

/-! ## Sample runs of the mode -/

/-- `n` presses of the time-signature button at clock reading `now`. -/
def timeSignaturePresses (n : Nat) (now : Int) : List tnInput :=
  List.replicate n (tnInput.button ⟨buttonBit_t.BTN_A, true⟩ now)

/-- Twenty main-loop calls of 50,000 us, then one press and release of the increment button,
then one main-loop call of 10,000 us. -/
def pressAfterFirstBeat : List tnInput :=
  holdInputs (clockReadings 0 50000 20)
    ++ [tnInput.button ⟨buttonBit_t.UP, true⟩ 1002000,
        tnInput.button ⟨buttonBit_t.UP, false⟩ 1004000,
        tnInput.mainLoop 10000 1010000]

/-! ## mode_tunernome.c : the folded bins of the chromatic tuner -/

/-- The constant `CHROMATIC_OFFSET`. -/
def CHROMATIC_OFFSET : Int := 6

/-- Value stored when an integer expression is converted to `uint16_t`. -/
def toUInt16 (x : Int) : Int := x % 65536

/-- The index with which `getSemiMagnitude(idx)` reads `folded_bins`: the argument is
converted to the parameter type `int16_t`, then `FIXBPERO` is added once when it is negative
and subtracted once when it exceeds `FIXBPERO - 1`.  The bin count `FIXBPERO` is declared by the
spectral front end, outside the repository, and is a parameter here. -/
def getSemiMagnitudeIndex (FIXBPERO : Int) (idx : Int) : Int :=
  let idx0 := toInt16 idx
  let idx1 := if idx0 < 0 then toInt16 (idx0 + FIXBPERO) else idx0
  if idx1 > FIXBPERO - 1 then toInt16 (idx1 - FIXBPERO) else idx1

/-- The two indices with which `getSemiDiffAround(idx)` reads `folded_bins`, through
`getSemiMagnitude(idx + 1)` and `getSemiMagnitude(idx - 1)`; the argument is converted to the
parameter type `uint16_t`. -/
def getSemiDiffAroundIndices (FIXBPERO : Int) (idx : Int) : Int × Int :=
  (getSemiMagnitudeIndex FIXBPERO (toUInt16 idx + 1),
    getSemiMagnitudeIndex FIXBPERO (toUInt16 idx - 1))

/-- The bins the chromatic branch of `tunernomeSampleHandler` reads for the channel
`semitone`: the bin of `getSemiMagnitude(semitoneIdx + CHROMATIC_OFFSET)` and the two bins of
`getSemiDiffAround(semitoneIdx + CHROMATIC_OFFSET)`, with `uint8_t semitoneIdx = semitone * 2`. -/
def semitoneBins (FIXBPERO : Int) (semitone : Int) : Int × Int × Int :=
  let semitoneIdx := toUInt8 (semitone * 2)
  (getSemiMagnitudeIndex FIXBPERO (semitoneIdx + CHROMATIC_OFFSET),
    getSemiDiffAroundIndices FIXBPERO (semitoneIdx + CHROMATIC_OFFSET))

/-! ## settingsManager.c : microphone gain -/

/-- The constant `MAX_MIC_GAIN`. -/
def MAX_MIC_GAIN : Int := 9

/-- Modelled from the spec: `readNvs32(KEY_MIC, &val)` of the persisted key-value store, which
lives outside the repository.  The store is embedded by the value held under the key, `none`
when the key does not exist; the read returns that value, `none` standing for the return value
`false`. -/
def readNvs32 (store : Option Int) : Option Int := store

/-- Modelled from the spec: `writeNvs32(KEY_MIC, val)` of the persisted key-value store.  The
flag `ok` says whether the store accepts the write; the result is the new store and the return
value. -/
def writeNvs32 (store : Option Int) (ok : Bool) (val : Int) : Option Int × Bool :=
  if ok then (some val, true) else (store, false)

/-- `getMicGain()`: the value read, or the default 5, which is then written; `okDefault` says
whether that write is accepted.  The result is the gain and the new store. -/
def getMicGain (store : Option Int) (okDefault : Bool) : Int × Option Int :=
  match readNvs32 store with
  | some micGain => (micGain, store)
  | none => (5, (writeNvs32 store okDefault 5).1)

/-- `incMicGain()`: the new store and the return value. -/
def incMicGain (store : Option Int) (okDefault ok : Bool) : Option Int × Bool :=
  let r := getMicGain store okDefault
  let newGain := toUInt8 (Int.tmod (toInt32 (r.1 + 1)) (MAX_MIC_GAIN + 1))
  writeNvs32 r.2 ok newGain

/-- `decMicGain()`: the new store and the return value. -/
def decMicGain (store : Option Int) (okDefault ok : Bool) : Option Int × Bool :=
  let r := getMicGain store okDefault
  let newGain := toUInt8 r.1
  let newGain1 := if newGain = 0 then MAX_MIC_GAIN else newGain - 1
  writeNvs32 r.2 ok newGain1

/-- The table `micVols` of `getMicAmplitude`. -/
def micVols : List Int := [26, 51, 77, 102, 128, 153, 179, 204, 230, 255]

/-- `getMicAmplitude()`: the entry `micVols[getMicGain()]`, `none` when the index is outside
the table, and the new store. -/
def getMicAmplitude (store : Option Int) (okDefault : Bool) : Option Int × Option Int :=
  let r := getMicGain store okDefault
  (readArray micVols r.1, r.2)

/-- A call of one of the gain functions, with the answers of the store to its writes. -/
inductive micOp where
  | inc (okDefault ok : Bool) : micOp
  | dec (okDefault ok : Bool) : micOp
  | amplitude (okDefault : Bool) : micOp
deriving DecidableEq

/-- The store after one call. -/
def micStep (store : Option Int) : micOp → Option Int
  | micOp.inc okDefault ok => (incMicGain store okDefault ok).1
  | micOp.dec okDefault ok => (decMicGain store okDefault ok).1
  | micOp.amplitude okDefault => (getMicAmplitude store okDefault).2

/-- The store after a list of calls, oldest first. -/
def micRun (store : Option Int) (ops : List micOp) : Option Int := ops.foldl micStep store

/-- The store holds no gain yet (so that the default 5 is used) or a gain in 0..9. -/
def micGainValid (store : Option Int) : Prop :=
  ∀ g, store = some g → 0 ≤ g ∧ g ≤ 9

/-! ## Specification-side helpers for runs of the scheduler -/

/-- A run of calls of the scheduler's entry points, oldest first; `none` as soon as a call is
undefined in C. -/
def buzzerRun : rmt_buzzer_t → List buzzerOp → Option rmt_buzzer_t
  | b, [] => some b
  | b, op :: ops =>
    match buzzerStep b op with
    | none => none
    | some b1 => buzzerRun b1 ops

/-- A track is empty (no song, index 0, start time 0) or holds a song with its note index
below the song's note count. -/
def trackWellFormed (tr : buzzerTrack_t) : Prop :=
  tr = ⟨none, 0, 0⟩ ∨ ∃ song, tr.song = some song ∧ tr.note_index < song.numNotes

/-- A pending note and a stop request are both present. -/
def noteAndStop (playNote : Option notePtr) (stopSong : Bool) : Prop :=
  playNote.isSome = true ∧ stopSong = true

/-- A scheduler whose sfx track plays the last note of `twoNoteSong`, started at 100,000 us
and lasting until 200,000 us, while the bgm track plays the first note of `loopSong`, started
at 180,000 us and lasting until 230,000 us. -/
def sfxAtLastNote : rmt_buzzer_t :=
  ⟨1000000, ⟨some loopSong, 0, 180000⟩, ⟨some twoNoteSong, 1, 100000⟩, none, false, false⟩

/-! ## Specification-side helpers for the filters -/

/-- The intensity accumulator after the raw magnitudes `ms` (oldest first) have been fed to a
zero-initialised accumulator. -/
def intensityAfter (ms : List Int) : Int := ms.foldl (fun filt mag => intensityFilt mag filt) 0

/-! ## Theorems: the note scheduler -/

theorem track_check_due (song : song_t) (i : Nat) (t c : Int) (isActive : Bool)
    (p : Option notePtr) (st : Bool)
    (hi : i < song.numNotes) (hd : c - t ≥ noteDurationUs (song.noteAt i)) :
    (buzzer_track_check_next_note ⟨some song, i, t⟩ isActive c p st).track
      = advancedTrack song i c := by
  unfold buzzer_track_check_next_note advancedTrack nextIndex
  simp only [hi, hd, if_true, ge_iff_le]
  by_cases h1 : song.shouldLoop = true ∧ i + 1 = song.numNotes
  · have h0 : 0 < song.numNotes := by omega
    simp [h1, h0]
    cases isActive <;> simp
  · simp only [h1, if_false]
    by_cases h2 : i + 1 < song.numNotes
    · simp [h2]; cases isActive <;> simp
    · simp [h2]; cases isActive <;> simp

theorem noteAt_deref (song : song_t) (i : Nat) (hi : i < song.numNotes) :
    notePtr.deref ⟨song, i⟩ = some (song.noteAt i) := by
  unfold notePtr.deref song_t.noteAt
  unfold song_t.numNotes at hi
  simp [List.getD, List.getElem?_eq_getElem hi]

theorem track_check_empty (isActive : Bool) (c : Int) (p : Option notePtr) (st : Bool) :
    buzzer_track_check_next_note ⟨none, 0, 0⟩ isActive c p st = ⟨⟨none, 0, 0⟩, p, st, false⟩ :=
  rfl

theorem poll_without_sfx (b : rmt_buzzer_t) (s2 : song_t) (i2 : Nat) (t2 cSfx cBgm : Int)
    (hm : b.isMuted = false) (hbgm : b.bgm = ⟨some s2, i2, t2⟩) (hi2 : i2 < s2.numNotes)
    (hd2 : cBgm - t2 ≥ noteDurationUs (s2.noteAt i2)) :
    (buzzer_check_next_note { b with sfx := ⟨none, 0, 0⟩ } cSfx cBgm true).map
        (fun r => r.1.bgm) = some (advancedTrack s2 i2 cBgm) := by
  by_cases hn : nextIndex s2 i2 < s2.numNotes
  · have hx : buzzer_track_check_next_note ⟨some s2, i2, t2⟩ true cBgm b.playNote b.stopSong
        = ⟨⟨some s2, nextIndex s2 i2, cBgm⟩, some ⟨s2, nextIndex s2 i2⟩, false, true⟩ := by
      unfold nextIndex at hn ⊢
      unfold buzzer_track_check_next_note
      simp only [hi2, hd2, if_true, ge_iff_le]
      simp [hn]
    unfold buzzer_check_next_note
    simp [hm, hbgm, hx, track_check_empty, noteAt_deref s2 _ hn, advancedTrack, hn]
  · have hx : buzzer_track_check_next_note ⟨some s2, i2, t2⟩ true cBgm b.playNote b.stopSong
        = ⟨⟨none, 0, 0⟩, none, true, false⟩ := by
      unfold nextIndex at hn
      unfold buzzer_track_check_next_note
      simp only [hi2, hd2, if_true, ge_iff_le]
      simp [hn]
    unfold buzzer_check_next_note
    simp [hm, hbgm, hx, track_check_empty, advancedTrack, hn]

/-- C1. When both tracks hold songs, the current note of each has run its full duration at
the clock reading taken for it, and the sfx track's next index is valid, one call of
`buzzer_check_next_note` with idle hardware issues exactly the hardware mutation of the sfx
track's new note, and leaves the bgm track advanced exactly as a poll would leave it when the
bgm track is the active one and when no sfx is playing at all.  The mutation is spelled out:
for a rest the one operation `rmt_tx_stop`, otherwise the one write of an item whose two
durations are `counter_clk_hz / note / 2` for the frequency of the sfx track's new note. -/
theorem sfx_note_written_bgm_still_advances (b : rmt_buzzer_t) (s1 s2 : song_t) (i1 i2 : Nat)
    (t1 t2 cSfx cBgm : Int)
    (hm : b.isMuted = false)
    (hsfx : b.sfx = ⟨some s1, i1, t1⟩) (hbgm : b.bgm = ⟨some s2, i2, t2⟩)
    (hi1 : i1 < s1.numNotes) (hi2 : i2 < s2.numNotes)
    (hd1 : cSfx - t1 ≥ noteDurationUs (s1.noteAt i1))
    (hd2 : cBgm - t2 ≥ noteDurationUs (s2.noteAt i2))
    (hnext : nextIndex s1 i1 < s1.numNotes) :
    ∃ b1 : rmt_buzzer_t,
      buzzer_check_next_note b cSfx cBgm true
          = some (b1, play_note b.counter_clk_hz (s1.noteAt (nextIndex s1 i1)))
        ∧ (play_note b.counter_clk_hz (s1.noteAt (nextIndex s1 i1))).length = 1
        ∧ b1.sfx = ⟨some s1, nextIndex s1 i1, cSfx⟩
        ∧ b1.bgm = advancedTrack s2 i2 cBgm
        ∧ b1.bgm = (buzzer_track_check_next_note b.bgm true cBgm b.playNote b.stopSong).track
        ∧ (buzzer_check_next_note { b with sfx := ⟨none, 0, 0⟩ } cSfx cBgm true).map
            (fun r => r.1.bgm) = some b1.bgm
        ∧ b1.playNote = none ∧ b1.stopSong = false
        ∧ (buzzer_check_next_note b cSfx cBgm true).map (fun r => r.2)
            = some (if (s1.noteAt (nextIndex s1 i1)).note = SILENCE then [rmtOp.tx_stop]
                else [rmtOp.write_items
                  (b.counter_clk_hz / (s1.noteAt (nextIndex s1 i1)).note / 2)
                  (b.counter_clk_hz / (s1.noteAt (nextIndex s1 i1)).note / 2)]) := by
  have hr1 : buzzer_track_check_next_note b.sfx true cSfx b.playNote b.stopSong
      = ⟨⟨some s1, nextIndex s1 i1, cSfx⟩, some ⟨s1, nextIndex s1 i1⟩, false, true⟩ := by
    rw [hsfx]
    unfold nextIndex at hnext ⊢
    unfold buzzer_track_check_next_note
    simp only [hi1, hd1, if_true, ge_iff_le]
    simp [hnext]
  have hr2 : buzzer_track_check_next_note b.bgm false cBgm (some ⟨s1, nextIndex s1 i1⟩) false
      = ⟨advancedTrack s2 i2 cBgm, some ⟨s1, nextIndex s1 i1⟩, false,
          decide (nextIndex s2 i2 < s2.numNotes)⟩ := by
    rw [hbgm]
    unfold advancedTrack nextIndex
    unfold buzzer_track_check_next_note
    simp only [hi2, hd2, if_true, ge_iff_le]
    by_cases h2 : (if s2.shouldLoop = true ∧ i2 + 1 = s2.numNotes then 0 else i2 + 1)
        < s2.numNotes
    · simp [h2]
    · simp [h2]
  have hcall : buzzer_check_next_note b cSfx cBgm true
      = some ({ b with sfx := ⟨some s1, nextIndex s1 i1, cSfx⟩,
                       bgm := advancedTrack s2 i2 cBgm, playNote := none, stopSong := false },
          play_note b.counter_clk_hz (s1.noteAt (nextIndex s1 i1))) := by
    unfold buzzer_check_next_note
    simp [hm, hr1, hr2, noteAt_deref s1 _ hnext]
  refine ⟨{ b with sfx := ⟨some s1, nextIndex s1 i1, cSfx⟩, bgm := advancedTrack s2 i2 cBgm,
                   playNote := none, stopSong := false }, hcall, ?_, rfl, rfl, ?_, ?_, rfl, rfl,
    ?_⟩
  rotate_left 3
  · rw [hcall]
    unfold play_note rmt_item_duration
    split_ifs <;> rfl
  · unfold play_note
    split_ifs <;> rfl
  · rw [hbgm]
    exact (track_check_due s2 i2 t2 cBgm true b.playNote b.stopSong hi2 hd2).symm
  · exact poll_without_sfx b s2 i2 t2 cSfx cBgm hm hbgm hi2 hd2

/-- Witness for C1: `busyBuzzer` polled at clock readings 100000 and 100001; the sfx track
moves to its 220 Hz note, written at the 1 MHz counter clock as one item of twice 2272
ticks. -/
theorem sfx_note_written_bgm_still_advances_witness :
    busyBuzzer.isMuted = false
      ∧ busyBuzzer.sfx = ⟨some twoNoteSong, 0, 0⟩ ∧ busyBuzzer.bgm = ⟨some loopSong, 0, 0⟩
      ∧ 0 < twoNoteSong.numNotes ∧ 0 < loopSong.numNotes
      ∧ (100000 : Int) - 0 ≥ noteDurationUs (twoNoteSong.noteAt 0)
      ∧ (100001 : Int) - 0 ≥ noteDurationUs (loopSong.noteAt 0)
      ∧ nextIndex twoNoteSong 0 < twoNoteSong.numNotes
      ∧ ∃ b1 : rmt_buzzer_t,
        buzzer_check_next_note busyBuzzer 100000 100001 true
            = some (b1, play_note busyBuzzer.counter_clk_hz
                (twoNoteSong.noteAt (nextIndex twoNoteSong 0)))
          ∧ (play_note busyBuzzer.counter_clk_hz
                (twoNoteSong.noteAt (nextIndex twoNoteSong 0))).length = 1
          ∧ b1.sfx = ⟨some twoNoteSong, nextIndex twoNoteSong 0, 100000⟩
          ∧ b1.bgm = advancedTrack loopSong 0 100001
          ∧ b1.bgm = (buzzer_track_check_next_note busyBuzzer.bgm true 100001
              busyBuzzer.playNote busyBuzzer.stopSong).track
          ∧ (buzzer_check_next_note { busyBuzzer with sfx := ⟨none, 0, 0⟩ } 100000 100001
              true).map (fun r => r.1.bgm) = some b1.bgm
          ∧ b1.playNote = none ∧ b1.stopSong = false
          ∧ (buzzer_check_next_note busyBuzzer 100000 100001 true).map (fun r => r.2)
              = some (if (twoNoteSong.noteAt (nextIndex twoNoteSong 0)).note = SILENCE
                  then [rmtOp.tx_stop]
                  else [rmtOp.write_items
                    (busyBuzzer.counter_clk_hz
                      / (twoNoteSong.noteAt (nextIndex twoNoteSong 0)).note / 2)
                    (busyBuzzer.counter_clk_hz
                      / (twoNoteSong.noteAt (nextIndex twoNoteSong 0)).note / 2)])
          ∧ (buzzer_check_next_note busyBuzzer 100000 100001 true).map (fun r => r.2)
              = some [rmtOp.write_items 2272 2272] :=
  ⟨rfl, rfl, rfl, by decide, by decide, by decide, by decide, by decide,
    (sfx_note_written_bgm_still_advances busyBuzzer twoNoteSong loopSong 0 0 0 0 100000 100001
      rfl rfl rfl (by decide) (by decide) (by decide) (by decide) (by decide)).imp
      fun _ h => ⟨h.1, h.2.1, h.2.2.1, h.2.2.2.1, h.2.2.2.2.1, h.2.2.2.2.2.1, h.2.2.2.2.2.2.1,
        h.2.2.2.2.2.2.2.1, h.2.2.2.2.2.2.2.2, by decide⟩⟩

theorem noteDurationUs_nonneg (n : musicalNote_t) : 0 ≤ noteDurationUs n := by
  unfold noteDurationUs toUInt32; omega

theorem noteDurationUs_le (n : musicalNote_t) : noteDurationUs n ≤ 1000 * (n.timeMs : Int) := by
  unfold noteDurationUs toUInt32; omega

theorem remainingUs_nonneg (song : song_t) (i : Nat) : 0 ≤ remainingUs song i := by
  unfold remainingUs
  apply List.sum_nonneg
  intro x hx
  simp only [List.mem_map] at hx
  obtain ⟨n, _, rfl⟩ := hx
  positivity

theorem noteAt_eq_getElem (song : song_t) (i : Nat) (hi : i < song.notes.length) :
    song.noteAt i = song.notes[i] := by
  unfold song_t.noteAt
  simp [List.getD, List.getElem?_eq_getElem hi]

theorem remainingUs_succ (song : song_t) (i : Nat) (hi : i < song.numNotes) :
    remainingUs song i = 1000 * ((song.noteAt i).timeMs : Int) + remainingUs song (i + 1) := by
  unfold song_t.numNotes at hi
  unfold remainingUs
  rw [List.drop_eq_getElem_cons hi, List.map_cons, List.sum_cons, noteAt_eq_getElem song i hi]

theorem remainingUs_zero (song : song_t) : remainingUs song 0 = songDurationUs song := by
  unfold remainingUs songDurationUs; simp

theorem trackOnTime_step (song : song_t) (deadline g last c : Int) (tr : buzzerTrack_t)
    (isActive : Bool) (p : Option notePtr) (st : Bool)
    (hloop : song.shouldLoop = false) (hc : c ≤ last + g)
    (h : trackOnTime song deadline g last tr) :
    trackOnTime song deadline g c (buzzer_track_check_next_note tr isActive c p st).track := by
  rcases h with h | ⟨i, s, rfl, hi, hlast, hdl⟩
  · subst h
    left
    simp [buzzer_track_check_next_note]
  · by_cases hd : c - s ≥ noteDurationUs (song.noteAt i)
    · rw [track_check_due song i s c isActive p st hi hd]
      unfold advancedTrack nextIndex
      simp only [hloop, Bool.false_eq_true, false_and, if_false]
      by_cases h2 : i + 1 < song.numNotes
      · right
        refine ⟨i + 1, c, by simp [h2], h2, ?_, ?_⟩
        · have := noteDurationUs_nonneg (song.noteAt (i + 1)); omega
        · have h3 := remainingUs_succ song i hi
          have h4 := noteDurationUs_le (song.noteAt i)
          push_cast
          nlinarith
      · left; simp [h2]
    · right
      refine ⟨i, s, ?_, hi, by omega, hdl⟩
      unfold buzzer_track_check_next_note
      simp [hi, hd]

theorem trackOnTime_poll (song : song_t) (deadline g : Int) (isActive : Bool)
    (hloop : song.shouldLoop = false) (cs : List Int) :
    ∀ (last : Int) (tr : buzzerTrack_t), List.Chain (fun a b => b ≤ a + g) last cs →
      trackOnTime song deadline g last tr →
      trackOnTime song deadline g ((last :: cs).getLast (List.cons_ne_nil _ _))
        (pollTrack isActive tr cs) := by
  induction cs with
  | nil => intro last tr _ h; simpa [pollTrack] using h
  | cons c cs ih =>
    intro last tr hch h
    rw [List.chain_cons] at hch
    have h1 := trackOnTime_step song deadline g last c tr isActive none false hloop hch.1 h
    have h2 := ih c _ hch.2 h1
    simpa [pollTrack, List.getLast_cons] using h2

theorem track_check_track_indep (tr : buzzerTrack_t) (isActive : Bool) (c : Int)
    (p : Option notePtr) (st : Bool) :
    (buzzer_track_check_next_note tr isActive c p st).track
      = (buzzer_track_check_next_note tr isActive c none false).track := by
  unfold buzzer_track_check_next_note
  cases tr.song with
  | none => rfl
  | some song =>
    simp only
    split_ifs <;> rfl

theorem track_check_active_song (tr : buzzerTrack_t) (isActive : Bool) (c : Int)
    (p : Option notePtr) (st : Bool)
    (h : (buzzer_track_check_next_note tr isActive c p st).track.song = none) :
    (buzzer_track_check_next_note tr isActive c p st).active = false := by
  unfold buzzer_track_check_next_note at h ⊢
  cases hs : tr.song with
  | none => simp
  | some song =>
    simp only [hs] at h ⊢
    split_ifs at h ⊢ <;> simp_all

theorem pollTrack_append (isActive : Bool) (cs : List Int) (c : Int) :
    ∀ tr : buzzerTrack_t, pollTrack isActive tr (cs ++ [c])
      = (buzzer_track_check_next_note (pollTrack isActive tr cs) isActive c none false).track := by
  induction cs with
  | nil => intro tr; simp [pollTrack]
  | cons a cs ih => intro tr; simp [pollTrack, ih]

/-- C3 (amended). A non-looping song with N >= 1 notes is started on a track at clock time
`t0` and polled at clock readings `cs ++ [c]`, each at most `g > 0` microseconds after the
previous one (the first at most `g` after `t0`).  A poll advances the track by at most one
note and restarts the note clock at the poll's reading, so after any poll whose clock reading
is at least `t0` + the sum of all note durations (milliseconds x 1000) + `N * g`, the track
reports not active and holds no song reference, with note index 0 and start time 0. -/
theorem nonlooping_track_ends (song : song_t) (t0 g : Int) (cs : List Int) (c : Int)
    (isActive : Bool) (p : Option notePtr) (st : Bool)
    (hloop : song.shouldLoop = false) (hN : 1 ≤ song.numNotes) (hg : 0 < g)
    (hch : List.Chain (fun a b => b ≤ a + g) t0 (cs ++ [c]))
    (hc : c ≥ t0 + songDurationUs song + (song.numNotes : Int) * g) :
    (buzzer_track_check_next_note (pollTrack isActive ⟨some song, 0, t0⟩ cs) isActive c p st).track
        = ⟨none, 0, 0⟩
      ∧ (buzzer_track_check_next_note (pollTrack isActive ⟨some song, 0, t0⟩ cs) isActive c p
          st).active = false := by
  have h0 : trackOnTime song (t0 + songDurationUs song + (song.numNotes : Int) * g) g t0
      ⟨some song, 0, t0⟩ := by
    right
    refine ⟨0, t0, rfl, hN, ?_, ?_⟩
    · have := noteDurationUs_nonneg (song.noteAt 0); omega
    · rw [remainingUs_zero]; simp
  have h1 := trackOnTime_poll song _ g isActive hloop (cs ++ [c]) t0 _ hch h0
  have hlast : (t0 :: (cs ++ [c])).getLast (List.cons_ne_nil _ _) = c := by
    simp
  rw [hlast, pollTrack_append] at h1
  have htr : (buzzer_track_check_next_note (pollTrack isActive ⟨some song, 0, t0⟩ cs) isActive c
      p st).track = ⟨none, 0, 0⟩ := by
    rw [track_check_track_indep]
    rcases h1 with h1 | ⟨i, s, _, hi, hlast, hdl⟩
    · exact h1
    · exfalso
      have h3 := remainingUs_succ song i hi
      have h4 := noteDurationUs_le (song.noteAt i)
      have h5 := remainingUs_nonneg song (i + 1)
      have h6 : (1 : Int) ≤ (song.numNotes : Int) - i := by omega
      nlinarith
  exact ⟨htr, track_check_active_song _ _ _ _ _ (by rw [htr])⟩
/-- Counterexample to C3 as stated: a two-note song whose notes last 100 ms each, started at
clock reading 0 and polled once at 200000 (the sum of its durations), is still active at
index 1 after that poll. -/
theorem nonlooping_track_coarse_poll_counterexample :
    twoNoteSong.shouldLoop = false ∧ 1 ≤ twoNoteSong.numNotes
      ∧ (200000 : Int) ≥ 0 + songDurationUs twoNoteSong
      ∧ (buzzer_track_check_next_note ⟨some twoNoteSong, 0, 0⟩ true 200000 none false).active
          = true
      ∧ (buzzer_track_check_next_note ⟨some twoNoteSong, 0, 0⟩ true 200000 none false).track
          = ⟨some twoNoteSong, 1, 200000⟩ := by
  decide

/-- Witness for C3 (amended): `twoNoteSong` polled every 50,000 us up to 300,000 us. -/
theorem nonlooping_track_ends_witness :
    twoNoteSong.shouldLoop = false ∧ 1 ≤ twoNoteSong.numNotes ∧ (0 : Int) < 50000
      ∧ List.Chain (fun a b : Int => b ≤ a + 50000) 0
          ([50000, 100000, 150000, 200000, 250000] ++ [300000])
      ∧ (300000 : Int) ≥ 0 + songDurationUs twoNoteSong + (twoNoteSong.numNotes : Int) * 50000
      ∧ (buzzer_track_check_next_note
            (pollTrack true ⟨some twoNoteSong, 0, 0⟩ [50000, 100000, 150000, 200000, 250000])
            true 300000 none false).track = ⟨none, 0, 0⟩
      ∧ (buzzer_track_check_next_note
            (pollTrack true ⟨some twoNoteSong, 0, 0⟩ [50000, 100000, 150000, 200000, 250000])
            true 300000 none false).active = false :=
  ⟨rfl, by decide, by decide, by simp, by decide,
    nonlooping_track_ends twoNoteSong 0 50000 [50000, 100000, 150000, 200000, 250000] 300000
      true none false rfl (by decide) (by decide) (by simp) (by decide)⟩

theorem nextIndex_looping (song : song_t) (i : Nat) (hloop : song.shouldLoop = true)
    (hi : i < song.numNotes) : nextIndex song i = (i + 1) % song.numNotes := by
  unfold nextIndex
  by_cases h : i + 1 = song.numNotes
  · simp [hloop, h]
  · simp [h, Nat.mod_eq_of_lt (show i + 1 < song.numNotes by omega)]

theorem pollTrack_looping (song : song_t) (isActive : Bool) (hloop : song.shouldLoop = true)
    (cs : List Int) :
    ∀ (i : Nat) (t : Int), i < song.numNotes →
      ∃ j s, pollTrack isActive ⟨some song, i, t⟩ cs = ⟨some song, j, s⟩ ∧ j < song.numNotes := by
  induction cs with
  | nil => intro i t hi; exact ⟨i, t, rfl, hi⟩
  | cons c cs ih =>
    intro i t hi
    by_cases hd : c - t ≥ noteDurationUs (song.noteAt i)
    · have h1 := track_check_due song i t c isActive none false hi hd
      have hn : nextIndex song i < song.numNotes := by
        rw [nextIndex_looping song i hloop hi]; exact Nat.mod_lt _ (by omega)
      unfold advancedTrack at h1
      rw [if_pos hn] at h1
      simp only [pollTrack, h1]
      exact ih _ _ hn
    · have h1 : (buzzer_track_check_next_note ⟨some song, i, t⟩ isActive c none false).track
          = ⟨some song, i, t⟩ := by
        unfold buzzer_track_check_next_note; simp [hi, hd]
      simp only [pollTrack, h1]
      exact ih _ _ hi

/-- C4. For a looping song with N >= 1 notes and a track at index `i < N`: a poll at which
the current note's duration has elapsed moves the index to `(i + 1) mod N` (to 0 after note
`N - 1`) and restarts the note clock, a poll before that leaves the track unchanged, every
poll reports the track active, and after any sequence of polls the track still holds its song
at a valid index. -/
theorem looping_track_wraps (song : song_t) (i : Nat) (t c : Int) (isActive : Bool)
    (p : Option notePtr) (st : Bool)
    (hloop : song.shouldLoop = true) (hi : i < song.numNotes) :
    (c - t ≥ noteDurationUs (song.noteAt i) →
        (buzzer_track_check_next_note ⟨some song, i, t⟩ isActive c p st).track
          = ⟨some song, (i + 1) % song.numNotes, c⟩)
      ∧ (¬ c - t ≥ noteDurationUs (song.noteAt i) →
        (buzzer_track_check_next_note ⟨some song, i, t⟩ isActive c p st).track
          = ⟨some song, i, t⟩)
      ∧ (buzzer_track_check_next_note ⟨some song, i, t⟩ isActive c p st).active = true
      ∧ ∀ cs : List Int, ∃ j s,
          pollTrack isActive ⟨some song, i, t⟩ cs = ⟨some song, j, s⟩ ∧ j < song.numNotes := by
  have hmod := nextIndex_looping song i hloop hi
  have hn : nextIndex song i < song.numNotes := by
    rw [hmod]; exact Nat.mod_lt _ (by omega)
  refine ⟨?_, ?_, ?_, fun cs => pollTrack_looping song isActive hloop cs i t hi⟩
  · intro hd
    rw [track_check_due song i t c isActive p st hi hd]
    unfold advancedTrack
    rw [if_pos hn, hmod]
  · intro hd
    unfold buzzer_track_check_next_note; simp [hi, hd]
  · unfold nextIndex at hn
    unfold buzzer_track_check_next_note
    simp only [hi, if_true]
    split_ifs <;> simp_all

/-- Witness for C4: the last note of `loopSong`, due at clock reading 60000. -/
theorem looping_track_wraps_witness :
    loopSong.shouldLoop = true ∧ 2 < loopSong.numNotes
      ∧ (((60000 : Int) - 0 ≥ noteDurationUs (loopSong.noteAt 2) →
        (buzzer_track_check_next_note ⟨some loopSong, 2, 0⟩ true 60000 none false).track
          = ⟨some loopSong, (2 + 1) % loopSong.numNotes, 60000⟩)
      ∧ (¬ (60000 : Int) - 0 ≥ noteDurationUs (loopSong.noteAt 2) →
        (buzzer_track_check_next_note ⟨some loopSong, 2, 0⟩ true 60000 none false).track
          = ⟨some loopSong, 2, 0⟩)
      ∧ (buzzer_track_check_next_note ⟨some loopSong, 2, 0⟩ true 60000 none false).active = true
      ∧ ∀ cs : List Int, ∃ j s,
          pollTrack true ⟨some loopSong, 2, 0⟩ cs = ⟨some loopSong, j, s⟩
            ∧ j < loopSong.numNotes) :=
  ⟨rfl, by decide, looping_track_wraps loopSong 2 0 60000 true none false rfl (by decide)⟩

/-! ## Theorems: the metronome -/

theorem toInt32_of_range (x : Int) (h1 : -2147483648 ≤ x) (h2 : x < 2147483648) :
    toInt32 x = x := by
  unfold toInt32; omega

theorem mainLoopExit_fields (t : tunernome_t) (e now : Int) :
    (mainLoopExit t e now).1 =
      { t with exitTimeAccumulatedUs := (mainLoopExit t e now).1.exitTimeAccumulatedUs } := by
  unfold mainLoopExit
  split_ifs <;> rfl

theorem mainLoopExit_tSigs_read (t : tunernome_t) (e now : Int)
    (hsig : 0 ≤ t.tSigIdx ∧ t.tSigIdx < 8) :
    ∃ sig, tSigs[(mainLoopExit t e now).1.tSigIdx.toNat]? = some sig := by
  obtain ⟨h0, h8⟩ := hsig
  have hi : (mainLoopExit t e now).1.tSigIdx = t.tSigIdx := by rw [mainLoopExit_fields]
  rw [hi]
  have hcases : t.tSigIdx = 0 ∨ t.tSigIdx = 1 ∨ t.tSigIdx = 2 ∨ t.tSigIdx = 3 ∨ t.tSigIdx = 4
      ∨ t.tSigIdx = 5 ∨ t.tSigIdx = 6 ∨ t.tSigIdx = 7 := by omega
  rcases hcases with h | h | h | h | h | h | h | h <;> simp [h, tSigs]

theorem mainLoopBlink_fields (t : tunernome_t) (e now : Int) :
    mainLoopBlink t e now =
      { t with blinkAccumulatedUs := (mainLoopBlink t e now).blinkAccumulatedUs } := by
  unfold mainLoopBlink
  split_ifs <;> rfl

theorem mainLoop_forward_no_tick (U a e now : Int) (m : tunernome_t)
    (hm : sweepingForward U a m) (ha : 0 ≤ a) (he : 0 < e) (hlt : a + e < U)
    (hU : U < 2147483648) :
    ∃ r, tunernomeMainLoop m e now = some r ∧ r.tick = none
      ∧ sweepingForward U (a + e) r.state := by
  obtain ⟨h1, h2, h3, h4, h5, h6⟩ := hm
  have hx := mainLoopExit_fields m e now
  have hq : mainLoopExit m e now = ((mainLoopExit m e now).1, (mainLoopExit m e now).2) := rfl
  unfold tunernomeMainLoop
  rw [hq, hx]
  simp only [h1]
  rw [mainLoopBlink_fields]
  have h32 : toInt32 (a + e) = a + e := toInt32_of_range _ (by omega) (by omega)
  simp [mainLoopSweep, h2, h3, h4, h5, h32, mainLoopBpmButton, not_le.mpr hlt, sweepingForward, h1, h6,
    tSigs]

theorem mainLoop_forward_tick (U a e now : Int) (m : tunernome_t)
    (hm : sweepingForward U a m) (ha : 0 ≤ a) (he : 0 < e) (heq : a + e = U)
    (hU : U < 2147483648) :
    ∃ r, tunernomeMainLoop m e now = some r ∧ r.tick.isSome = true
      ∧ r.state.isClockwise = false ∧ r.state.tAccumulatedUs = U := by
  obtain ⟨h1, h2, h3, h4, h5, h6⟩ := hm
  have hx := mainLoopExit_fields m e now
  have hq : mainLoopExit m e now = ((mainLoopExit m e now).1, (mainLoopExit m e now).2) := rfl
  unfold tunernomeMainLoop
  rw [hq, hx]
  simp only [h1]
  rw [mainLoopBlink_fields]
  have h32 : toInt32 (a + e) = a + e := toInt32_of_range _ (by omega) (by omega)
  have h33 : toInt32 U = U := toInt32_of_range _ (by omega) (by omega)
  simp [mainLoopSweep, h2, h3, h4, h5, h32, mainLoopBpmButton, heq, h33, mainLoopTick, h6,
    tSigs]

theorem pollMetronome_first_beat (U e : Int) (he : 0 < e) (hU : U < 2147483648)
    (nows : List Int) :
    ∀ (a : Int) (m : tunernome_t), sweepingForward U a m → 0 ≤ a →
      a + (nows.length : Int) * e = U → 1 ≤ nows.length →
      ∃ m1, pollMetronome e m nows
          = some (m1, List.replicate (nows.length - 1) false ++ [true])
        ∧ m1.isClockwise = false ∧ m1.tAccumulatedUs = U := by
  induction nows with
  | nil => intro a m _ _ _ h; simp at h
  | cons now nows ih =>
    intro a m hm ha hsum _
    rcases Nat.eq_zero_or_pos nows.length with h0 | hpos
    · have hnil : nows = [] := List.length_eq_zero.mp h0
      subst hnil
      obtain ⟨r, hr, htick, hcw, hacc⟩ :=
        mainLoop_forward_tick U a e now m hm ha he (by simpa using hsum) hU
      refine ⟨r.state, ?_, hcw, hacc⟩
      simp [pollMetronome, hr, htick]
    · have hlen : ((now :: nows).length : Int) = (nows.length : Int) + 1 := by simp
      rw [hlen] at hsum
      have hlt : a + e < U := by
        have : (1 : Int) ≤ (nows.length : Int) := by exact_mod_cast hpos
        nlinarith
      obtain ⟨r, hr, htick, hsw⟩ := mainLoop_forward_no_tick U a e now m hm ha he hlt hU
      obtain ⟨m1, hm1, hcw, hacc⟩ := ih (a + e) r.state hsw (by omega) (by linarith) hpos
      refine ⟨m1, ?_, hcw, hacc⟩
      simp only [pollMetronome, hr, hm1, htick, Option.isSome_none, List.length_cons,
        Nat.add_sub_cancel]
      have : nows.length = (nows.length - 1) + 1 := by omega
      conv_rhs => rw [this, List.replicate_succ]
      simp

theorem switchToSubmode_metronome (t m : tunernome_t)
    (h : switchToSubmode t tnMode.TN_METRONOME = some m) :
    t.bpm ≠ 0 ∧ sweepingForward (Int.tdiv 60000000 t.bpm) 0 m := by
  unfold switchToSubmode recalcMetronome at h
  simp only at h
  split_ifs at h with hb
  simp only [Option.some.injEq] at h
  subst h
  exact ⟨hb, by simp [sweepingForward]⟩

theorem usPerBeat_bounds (b : Int) (h1 : 1 ≤ b) (h2 : b ≤ 400) :
    Int.tdiv 60000000 b = 60000000 / b ∧ 150000 ≤ (60000000 : Int) / b
      ∧ (60000000 : Int) / b ≤ 60000000 := by
  refine ⟨Int.tdiv_eq_ediv (by norm_num) (by omega), ?_, ?_⟩
  · apply Int.le_ediv_of_mul_le (by omega)
    nlinarith
  · exact Int.ediv_le_self _ (by norm_num)

/-- C2. From the state set by `switchToSubmode(TN_METRONOME)` with bpm in [1, 400] (for
bpm = 60, `usPerBeat = 1,000,000`): for every poll size `e > 0` that divides `usPerBeat`, the
first `usPerBeat / e` main-loop polls are all defined and emit exactly one tick, at the last
of them.  Ten polls of 100,000 us and twenty polls of 50,000 us at bpm = 60 are instances. -/
theorem metronome_first_tick_at_last_poll (t m : tunernome_t) (e : Int) (nows : List Int)
    (hbpm : 1 ≤ t.bpm ∧ t.bpm ≤ 400)
    (hm : switchToSubmode t tnMode.TN_METRONOME = some m)
    (he : 0 < e) (hdiv : e ∣ m.usPerBeat)
    (hlen : (nows.length : Int) = m.usPerBeat / e) :
    (t.bpm = 60 → m.usPerBeat = 1000000)
      ∧ ∃ m1, pollMetronome e m nows
          = some (m1, List.replicate (nows.length - 1) false ++ [true]) := by
  obtain ⟨_, hsw⟩ := switchToSubmode_metronome t m hm
  have hU : m.usPerBeat = Int.tdiv 60000000 t.bpm := hsw.2.2.2.1
  obtain ⟨hq, hlo, hhi⟩ := usPerBeat_bounds t.bpm hbpm.1 hbpm.2
  rw [hq] at hU hsw
  constructor
  · intro h60
    rw [hU, h60]
    norm_num
  · have hmul : (nows.length : Int) * e = m.usPerBeat := by
      rw [hlen]; exact Int.ediv_mul_cancel hdiv
    have hlen1 : 1 ≤ nows.length := by
      rcases Nat.eq_zero_or_pos nows.length with h0 | h0
      · rw [h0] at hmul; simp at hmul; omega
      · exact h0
    obtain ⟨m1, hm1, _, _⟩ := pollMetronome_first_beat (60000000 / t.bpm) e he (by omega) nows 0 m
      hsw (le_refl _) (by rw [hmul, hU]; simp) hlen1
    exact ⟨m1, hm1⟩

/-- Witness for C2: from bpm = 60, ten polls of 100,000 us and twenty polls of 50,000 us. -/
theorem metronome_first_tick_at_last_poll_witness :
    (1 ≤ enteredTunernome.bpm ∧ enteredTunernome.bpm ≤ 400)
      ∧ switchToSubmode enteredTunernome tnMode.TN_METRONOME = some metronomeAt60
      ∧ ((enteredTunernome.bpm = 60 → metronomeAt60.usPerBeat = 1000000)
        ∧ ∃ m1, pollMetronome 100000 metronomeAt60 (clockReadings 7000000 100000 10)
            = some (m1, List.replicate ((clockReadings 7000000 100000 10).length - 1) false
                ++ [true]))
      ∧ ((enteredTunernome.bpm = 60 → metronomeAt60.usPerBeat = 1000000)
        ∧ ∃ m1, pollMetronome 50000 metronomeAt60 (clockReadings 7000000 50000 20)
            = some (m1, List.replicate ((clockReadings 7000000 50000 20).length - 1) false
                ++ [true])) :=
  ⟨by decide, by decide,
    metronome_first_tick_at_last_poll enteredTunernome metronomeAt60 100000
      (clockReadings 7000000 100000 10) (by decide) (by decide) (by decide) (by decide)
      (by decide),
    metronome_first_tick_at_last_poll enteredTunernome metronomeAt60 50000
      (clockReadings 7000000 50000 20) (by decide) (by decide) (by decide) (by decide)
      (by decide)⟩

/-! ## Theorems: the tuner filters -/

theorem intensityFilt_fixed (M : Int) (h0 : 0 ≤ M) (h1 : M ≤ 32767) :
    intensityFilt M (32 * M) = 32 * M := by
  unfold intensityFilt toUInt32 asr
  norm_num
  omega

theorem intensityFilt_climbs (M x : Int) (h1 : M ≤ 32767) (hx0 : 0 ≤ x)
    (hx : x < 32 * M) :
    x < intensityFilt M x ∧ intensityFilt M x ≤ 32 * M := by
  have hq : x / 32 ≤ M - 1 := by omega
  have hq0 : 0 ≤ x / 32 := by omega
  have hlo : 0 ≤ M + x - x / 32 := by omega
  have hhi : M + x - x / 32 < 4294967296 := by omega
  unfold intensityFilt toUInt32 asr
  norm_num
  rw [Int.emod_eq_of_lt hlo hhi]
  omega

theorem intensityFilt_reaches (M : Int) (h1 : M ≤ 32767) (n : Nat) :
    ∀ x : Int, 0 ≤ x → x ≤ 32 * M → 32 * M - x ≤ n →
      ∃ k : Nat, (intensityFilt M)^[k] x = 32 * M := by
  induction n with
  | zero =>
    intro x _ hx hn
    exact ⟨0, by simp; omega⟩
  | succ n ih =>
    intro x hx0 hx hn
    rcases eq_or_lt_of_le hx with heq | hlt
    · exact ⟨0, by simpa using heq⟩
    · obtain ⟨hgt, hle⟩ := intensityFilt_climbs M x h1 hx0 hlt
      obtain ⟨k, hk⟩ := ih (intensityFilt M x) (by omega) hle (by push_cast at hn; omega)
      exact ⟨k + 1, by rw [Function.iterate_succ_apply]; exact hk⟩

theorem intensityFilt_stays (M : Int) (h0 : 0 ≤ M) (h1 : M ≤ 32767) (j : Nat) :
    (intensityFilt M)^[j] (32 * M) = 32 * M := by
  induction j with
  | zero => rfl
  | succ j ih => rw [Function.iterate_succ_apply, intensityFilt_fixed M h0 h1, ih]

/-- C5. For every constant raw magnitude `M` with `0 <= M <= 32767` fed to a zero-initialised
intensity accumulator, the repeated update `filt = (M + filt) - (filt >> 5)` reaches `32 * M`
after finitely many updates and equals `32 * M` after every later update. -/
theorem intensity_filter_converges (M : Int) (h0 : 0 ≤ M) (h1 : M ≤ 32767) :
    ∃ n : Nat, ∀ k : Nat, n ≤ k → (intensityFilt M)^[k] 0 = 32 * M := by
  obtain ⟨n, hn⟩ := intensityFilt_reaches M h1 (32 * M).toNat 0 (le_refl _) (by omega)
    (by rw [Int.toNat_of_nonneg (by omega)]; omega)
  refine ⟨n, fun k hk => ?_⟩
  obtain ⟨j, rfl⟩ := Nat.exists_eq_add_of_le hk
  rw [Nat.add_comm, Function.iterate_add_apply, hn, intensityFilt_stays M h0 h1]

/-- Witness for C5: the constant magnitude 3. -/
theorem intensity_filter_converges_witness :
    (0 : Int) ≤ 3 ∧ (3 : Int) ≤ 32767
      ∧ ∃ n : Nat, ∀ k : Nat, n ≤ k → (intensityFilt 3)^[k] 0 = 32 * 3 :=
  ⟨by decide, by decide, intensity_filter_converges 3 (by decide) (by decide)⟩


/-! ## Theorems: bpm and beat length -/

theorem CLAMP_eq_max_min (x lo hi : Int) (h : lo ≤ hi) : CLAMP x lo hi = max lo (min hi x) := by
  unfold CLAMP
  split_ifs <;> omega

theorem CLAMP_bounds (x lo hi : Int) (h : lo ≤ hi) : lo ≤ CLAMP x lo hi ∧ CLAMP x lo hi ≤ hi := by
  unfold CLAMP
  split_ifs <;> omega

/-- C7. For every bpm in [1, 400] and every signed 16-bit `bpmMod`, `modifyBpm(bpmMod)` is
defined, leaves `bpm = clamp(bpm + bpmMod, 1, 400)` and `usPerBeat = 60,000,000 div` the new
bpm (truncating division, which here equals flooring division) and changes nothing else; from
bpm = 60, `modifyBpm(+1)` gives bpm = 61 and `usPerBeat = 983606`. -/
theorem modifyBpm_clamps_and_recalculates (t : tunernome_t) (bpmMod : Int)
    (h1 : 1 ≤ t.bpm) (h2 : t.bpm ≤ 400) (h3 : -32768 ≤ bpmMod) (h4 : bpmMod ≤ 32767) :
    modifyBpm t bpmMod
        = some { t with
            bpm := max 1 (min 400 (t.bpm + bpmMod))
            usPerBeat := 60000000 / max 1 (min 400 (t.bpm + bpmMod)) }
      ∧ (60000000 : Int) / max 1 (min 400 (t.bpm + bpmMod))
          = Int.tdiv 60000000 (max 1 (min 400 (t.bpm + bpmMod)))
      ∧ (t.bpm = 60 → bpmMod = 1 →
          modifyBpm t bpmMod = some { t with bpm := 61, usPerBeat := 983606 }) := by
  have hc := CLAMP_eq_max_min (t.bpm + bpmMod) 1 400 (by norm_num)
  have hb := CLAMP_bounds (t.bpm + bpmMod) 1 400 (by norm_num)
  rw [hc] at hb
  have hq := (usPerBeat_bounds _ hb.1 hb.2).1
  have h16 : toInt16 bpmMod = bpmMod := by unfold toInt16; omega
  have h32 : toInt32 (t.bpm + bpmMod) = t.bpm + bpmMod := toInt32_of_range _ (by omega) (by omega)
  have hmain : modifyBpm t bpmMod
        = some { t with
            bpm := max 1 (min 400 (t.bpm + bpmMod))
            usPerBeat := 60000000 / max 1 (min 400 (t.bpm + bpmMod)) } := by
    unfold modifyBpm recalcMetronome MAX_BPM
    simp only [h16, h32, hc]
    rw [if_neg (by omega)]
    norm_num
    exact hq
  refine ⟨hmain, hq.symm, ?_⟩
  intro h60 hmod
  rw [hmain, h60, hmod]
  norm_num

/-- Witness for C7: `modifyBpm(+1)` from bpm = 60. -/
theorem modifyBpm_clamps_and_recalculates_witness :
    (1 : Int) ≤ metronomeAt60.bpm ∧ metronomeAt60.bpm ≤ 400 ∧ (-32768 : Int) ≤ 1
      ∧ (1 : Int) ≤ 32767
      ∧ (modifyBpm metronomeAt60 1
          = some { metronomeAt60 with
              bpm := max 1 (min 400 (metronomeAt60.bpm + 1))
              usPerBeat := 60000000 / max 1 (min 400 (metronomeAt60.bpm + 1)) }
        ∧ (60000000 : Int) / max 1 (min 400 (metronomeAt60.bpm + 1))
            = Int.tdiv 60000000 (max 1 (min 400 (metronomeAt60.bpm + 1)))
        ∧ (metronomeAt60.bpm = 60 → (1 : Int) = 1 →
            modifyBpm metronomeAt60 1
              = some { metronomeAt60 with bpm := 61, usPerBeat := 983606 })) :=
  ⟨by decide, by decide, by decide, by decide,
    modifyBpm_clamps_and_recalculates metronomeAt60 1 (by decide) (by decide) (by decide)
      (by decide)⟩

theorem recalcMetronome_some (t t1 : tunernome_t) (h : recalcMetronome t = some t1) :
    t1 = { t with usPerBeat := Int.tdiv 60000000 t.bpm } := by
  unfold recalcMetronome at h
  split_ifs at h
  simp only [Option.some.injEq] at h
  rw [← h]
  norm_num

theorem modifyBpm_invariant (t t1 : tunernome_t) (x : Int) (h : modifyBpm t x = some t1) :
    bpmInvariant t1 := by
  unfold modifyBpm at h
  have h1 := recalcMetronome_some _ _ h
  have hb := CLAMP_bounds (toInt32 (t.bpm + toInt16 x)) 1 MAX_BPM (by decide)
  subst h1
  exact ⟨hb, Or.inl rfl⟩

theorem switchToSubmode_invariant (t t1 : tunernome_t) (newMode : tnMode)
    (h : switchToSubmode t newMode = some t1) (ht : bpmInvariant t) : bpmInvariant t1 := by
  cases newMode with
  | TN_TUNER =>
    simp only [switchToSubmode, Option.some.injEq] at h
    subst h
    obtain ⟨hb, hu | ⟨_, hu, h60⟩⟩ := ht
    · exact ⟨hb, Or.inl hu⟩
    · exact ⟨hb, Or.inr ⟨rfl, hu, h60⟩⟩
  | TN_METRONOME =>
    simp only [switchToSubmode] at h
    have h1 := recalcMetronome_some _ _ h
    subst h1
    exact ⟨ht.1, Or.inl rfl⟩

theorem bpmInvariant_congr (t t1 : tunernome_t) (hb : t1.bpm = t.bpm)
    (hu : t1.usPerBeat = t.usPerBeat) (hm : t1.mode = t.mode) (ht : bpmInvariant t) :
    bpmInvariant t1 := by
  unfold bpmInvariant at ht ⊢
  rw [hb, hu, hm]
  exact ht

theorem bpmButtonRepeat_invariant (t t1 : tunernome_t)
    (h : bpmButtonRepeat t = some t1) (ht : bpmInvariant t) : bpmInvariant t1 := by
  unfold bpmButtonRepeat at h
  by_cases h1 : t.bpmButtonAccumulatedUs ≥ BPM_CHANGE_FIRST_MS * 1000
  · by_cases h2 : t.bpmButtonCurChangeUs ≥ BPM_CHANGE_REPEAT_MS * 1000
    · rw [if_pos h1, if_pos h2] at h
      simp only [Option.map_eq_some'] at h
      obtain ⟨t3, h3, rfl⟩ := h
      split at h3
      · exact bpmInvariant_congr _ t3 rfl rfl rfl (modifyBpm_invariant _ _ _ h3)
      · exact bpmInvariant_congr _ t3 rfl rfl rfl (modifyBpm_invariant _ _ _ h3)
      · simp only [Option.some.injEq] at h3; subst h3; exact ht
    · rw [if_pos h1, if_neg h2] at h
      simp only [Option.some.injEq] at h; subst h; exact ht
  · rw [if_neg h1] at h
    simp only [Option.some.injEq] at h; subst h; exact ht

theorem bpmButtonAccumulate_fields (t : tunernome_t) (e now : Int) :
    bpmButtonAccumulate t e now =
      { t with
        bpmButtonAccumulatedUs := (bpmButtonAccumulate t e now).bpmButtonAccumulatedUs
        bpmButtonCurChangeUs := (bpmButtonAccumulate t e now).bpmButtonCurChangeUs } := by
  unfold bpmButtonAccumulate
  split_ifs <;> rfl

theorem mainLoopBpmButton_invariant (t t1 : tunernome_t) (e now : Int)
    (h : mainLoopBpmButton t e now = some t1) (ht : bpmInvariant t) : bpmInvariant t1 := by
  unfold mainLoopBpmButton at h
  split_ifs at h
  · refine bpmButtonRepeat_invariant _ _ h ?_
    rw [bpmButtonAccumulate_fields]
    exact bpmInvariant_congr _ t rfl rfl rfl ht
  · simp only [Option.some.injEq] at h; subst h; exact ht

theorem mainLoopSweep_fields (t : tunernome_t) (e : Int) :
    (mainLoopSweep t e).1 =
      { t with
        tAccumulatedUs := (mainLoopSweep t e).1.tAccumulatedUs
        isClockwise := (mainLoopSweep t e).1.isClockwise } := by
  unfold mainLoopSweep
  dsimp only
  split_ifs <;> rfl

theorem mainLoopTick_fields (t t1 : tunernome_t) (now : Int) (song : song_t)
    (h : mainLoopTick t now = some (t1, song)) :
    t1 = { t with
      beatCtr := t1.beatCtr
      isBlinking := true
      blinkStartUs := toUInt32 now
      blinkAccumulatedUs := 0 } := by
  unfold mainLoopTick at h
  split at h
  · simp at h
  · split_ifs at h
    simp only [Option.some.injEq, Prod.mk.injEq] at h
    rw [← h.1]

theorem tunernomeMainLoop_invariant (t : tunernome_t) (r : mainLoop_t) (e now : Int)
    (h : tunernomeMainLoop t e now = some r) (ht : bpmInvariant t) : bpmInvariant r.state := by
  have hx := mainLoopExit_fields t e now
  have hq : mainLoopExit t e now = ((mainLoopExit t e now).1, (mainLoopExit t e now).2) := rfl
  have h0 : bpmInvariant (mainLoopExit t e now).1 := by
    rw [hx]; exact bpmInvariant_congr _ t rfl rfl rfl ht
  unfold tunernomeMainLoop at h
  rw [hq] at h
  simp only at h
  split at h
  · simp only [Option.some.injEq] at h; subst h; exact h0
  · split at h
    · simp at h
    · have h1 : bpmInvariant (mainLoopBlink (mainLoopExit t e now).1 e now) := by
        rw [mainLoopBlink_fields]; exact bpmInvariant_congr _ _ rfl rfl rfl h0
      have h2 : bpmInvariant (mainLoopSweep (mainLoopBlink (mainLoopExit t e now).1 e now) e).1 := by
        rw [mainLoopSweep_fields]; exact bpmInvariant_congr _ _ rfl rfl rfl h1
      have hq2 : mainLoopSweep (mainLoopBlink (mainLoopExit t e now).1 e now) e
          = ((mainLoopSweep (mainLoopBlink (mainLoopExit t e now).1 e now) e).1,
             (mainLoopSweep (mainLoopBlink (mainLoopExit t e now).1 e now) e).2) := rfl
      rw [hq2] at h
      simp only at h
      split_ifs at h
      · split at h
        · simp at h
        · rename_i t3 song h3
          have h4 := mainLoopTick_fields _ _ _ _ h3
          have h5 : bpmInvariant t3 := by
            rw [h4]; exact bpmInvariant_congr _ _ rfl rfl rfl h2
          simp only [Option.map_eq_some'] at h
          obtain ⟨t4, h6, rfl⟩ := h
          exact mainLoopBpmButton_invariant _ _ _ _ h6 h5
      · simp only [Option.map_eq_some'] at h
        obtain ⟨t4, h6, rfl⟩ := h
        exact mainLoopBpmButton_invariant _ _ _ _ h6 h2
theorem tunernomeButtonCallback_invariant (t t1 : tunernome_t) (evt : buttonEvt_t) (now : Int)
    (h : tunernomeButtonCallback t evt now = some t1) (ht : bpmInvariant t) :
    bpmInvariant t1 := by
  unfold tunernomeButtonCallback at h
  by_cases hl : evt.button = buttonBit_t.LEFT
  · rw [if_pos hl] at h
    split_ifs at h <;>
      (simp only [Option.some.injEq] at h; subst h; exact bpmInvariant_congr t _ rfl rfl rfl ht)
  · rw [if_neg hl] at h
    cases hmode : t.mode with
    | TN_TUNER =>
      simp only [hmode] at h
      by_cases hd : evt.down = true
      · rw [if_pos hd] at h
        split at h
        · simp only [Option.some.injEq] at h; subst h
          exact bpmInvariant_congr t _ rfl rfl hmode.symm ht
        · split_ifs at h <;>
            (simp only [Option.some.injEq] at h; subst h
             exact bpmInvariant_congr t _ rfl rfl hmode.symm ht)
        · simp only [Option.some.injEq] at h; subst h; exact ht
        · exact switchToSubmode_invariant _ _ _ h ht
        · simp only [Option.some.injEq] at h; subst h; exact ht
      · rw [if_neg hd] at h
        simp only [Option.some.injEq] at h; subst h; exact ht
    | TN_METRONOME =>
      simp only [hmode] at h
      by_cases hd : evt.down = true
      · rw [if_pos hd] at h
        split at h
        · simp only [Option.map_eq_some'] at h
          obtain ⟨t3, h3, rfl⟩ := h
          exact bpmInvariant_congr _ t3 rfl rfl rfl (modifyBpm_invariant _ _ _ h3)
        · simp only [Option.map_eq_some'] at h
          obtain ⟨t3, h3, rfl⟩ := h
          exact bpmInvariant_congr _ t3 rfl rfl rfl (modifyBpm_invariant _ _ _ h3)
        · simp only [Option.some.injEq] at h; subst h
          exact bpmInvariant_congr t _ rfl rfl hmode.symm ht
        · exact switchToSubmode_invariant _ _ _ h ht
        · simp only [Option.some.injEq] at h; subst h; exact ht
      · rw [if_neg hd] at h
        split at h
        · split_ifs at h
          · simp only [Option.some.injEq] at h; subst h
            exact bpmInvariant_congr t _ rfl rfl hmode.symm ht
          · simp only [Option.some.injEq] at h; subst h; exact ht
        · split_ifs at h
          · simp only [Option.some.injEq] at h; subst h
            exact bpmInvariant_congr t _ rfl rfl hmode.symm ht
          · simp only [Option.some.injEq] at h; subst h; exact ht
        · simp only [Option.some.injEq] at h; subst h; exact ht

theorem tnStep_invariant (t t1 : tunernome_t) (i : tnInput) (h : tnStep t i = some t1)
    (ht : bpmInvariant t) : bpmInvariant t1 := by
  cases i with
  | button evt now => exact tunernomeButtonCallback_invariant t t1 evt now h ht
  | mainLoop e now =>
    simp only [tnStep, Option.map_eq_some'] at h
    obtain ⟨r, hr, rfl⟩ := h
    exact tunernomeMainLoop_invariant t r e now hr ht
  | submode newMode => exact switchToSubmode_invariant t t1 newMode h ht

theorem tunernomeEnterMode_eq : tunernomeEnterMode = some enteredTunernome := by decide

theorem tnReachable_invariant (t : tunernome_t) (h : tnReachable t) : bpmInvariant t := by
  induction h with
  | enter t h =>
    rw [tunernomeEnterMode_eq] at h
    simp only [Option.some.injEq] at h
    subst h
    exact ⟨by decide, Or.inr (by decide)⟩
  | step t t1 i _ h ih => exact tnStep_invariant t t1 i h ih

/-- C9. In every state reachable from `tunernomeEnterMode` by button events, submode switches
and main-loop polls, `1 <= bpm <= 400`; so `bpm` is not zero and `recalcMetronome` is defined
(its division has a non-zero divisor). -/
theorem reachable_bpm_in_range (t : tunernome_t) (h : tnReachable t) :
    1 ≤ t.bpm ∧ t.bpm ≤ 400 ∧ t.bpm ≠ 0 ∧ (recalcMetronome t).isSome = true := by
  have hb := (tnReachable_invariant t h).1
  refine ⟨hb.1, hb.2, by omega, ?_⟩
  unfold recalcMetronome
  rw [if_neg (by omega)]
  rfl

/-- Witness for C9: the metronome state entered right after `tunernomeEnterMode`. -/
theorem reachable_bpm_in_range_witness :
    tnReachable metronomeAt60
      ∧ (1 ≤ metronomeAt60.bpm ∧ metronomeAt60.bpm ≤ 400 ∧ metronomeAt60.bpm ≠ 0
        ∧ (recalcMetronome metronomeAt60).isSome = true) :=
  ⟨tnReachable.step enteredTunernome metronomeAt60
      (tnInput.button ⟨buttonBit_t.RIGHT, true⟩ 5000000)
      (tnReachable.enter _ (by decide)) (by decide),
    reachable_bpm_in_range metronomeAt60
      (tnReachable.step enteredTunernome metronomeAt60
      (tnInput.button ⟨buttonBit_t.RIGHT, true⟩ 5000000)
      (tnReachable.enter _ (by decide)) (by decide))⟩

/-! ## Theorems: the bpm auto-repeat -/

theorem mainLoopTick_defined (t : tunernome_t) (now : Int)
    (hsig : 0 ≤ t.tSigIdx ∧ t.tSigIdx < 8) :
    ∃ t1 song, mainLoopTick t now = some (t1, song) := by
  obtain ⟨h0, h8⟩ := hsig
  unfold mainLoopTick
  have hcases : t.tSigIdx = 0 ∨ t.tSigIdx = 1 ∨ t.tSigIdx = 2 ∨ t.tSigIdx = 3 ∨ t.tSigIdx = 4
      ∨ t.tSigIdx = 5 ∨ t.tSigIdx = 6 ∨ t.tSigIdx = 7 := by omega
  rcases hcases with h | h | h | h | h | h | h | h <;> simp [h, tSigs]

/-- C6. The increment button goes down in `metronomeAt60` (bpm 60) at clock reading
10,000,000 us and is held while the main loop is polled twenty times with 50,000 us elapsed,
the clock advancing 50,000 us per poll.  The button-down leaves `bpm = 61` and records the
press time 0, not the clock reading, so the first poll measures a held time of 10,050,000 us,
past the 2000 ms threshold, and applies a change of 3 at once (`bpm = 64`); every later poll
does the same and the hold ends at `bpm = 121`, where one immediate change and ten repeats of
+1 give 71.  The rest of the path counts as described: when the clock reading at the press is
2^32, so that the recorded 0 is the press time as the 32-bit subtraction sees it, a first poll
20,000 us after the press ends at 71, and a first poll exactly 50,000 us after the press ends
at 72, the 500 ms threshold being inclusive. -/
theorem bpm_hold_one_second_overshoots :
    (metronomeAt60.mode = tnMode.TN_METRONOME ∧ metronomeAt60.bpm = 60
        ∧ metronomeAt60.bpm + 11 ≤ 400)
      ∧ tunernomeButtonCallback metronomeAt60 ⟨buttonBit_t.UP, true⟩ 10000000 = some heldAt61
      ∧ heldAt61.bpm = 61 ∧ heldAt61.bpmButtonStartUs = 0
      ∧ (holdInputs (clockReadings 10000000 50000 20)).length = 20
      ∧ (tnRun heldAt61 (holdInputs (clockReadings 10000000 50000 1))).map (fun t => t.bpm)
          = some 64
      ∧ (tnRun heldAt61 (holdInputs (clockReadings 10000000 50000 10))).map (fun t => t.bpm)
          = some 91
      ∧ (tnRun heldAt61 (holdInputs (clockReadings 10000000 50000 20))).map (fun t => t.bpm)
          = some 121
      ∧ tunernomeButtonCallback metronomeAt60 ⟨buttonBit_t.UP, true⟩ 4294967296 = some heldAt61
      ∧ (tnRun heldAt61
          (holdInputs ((4294967296 + 20000) :: clockReadings (4294967296 + 20000) 50000 19))).map
            (fun t => t.bpm) = some 71
      ∧ (tnRun heldAt61 (holdInputs (clockReadings 4294967296 50000 20))).map (fun t => t.bpm)
          = some 72 := by
  decide


/-! ## Theorems: the colour mapping -/

/-- C10. For every intensity and every deviation `d` with `10 <= d <= 32767`, the colour
produced for `tonalDiff = -d` is the colour produced for `tonalDiff = +d` with red and blue
exchanged, both for the mapping of `instrumentTunerMagic` and for the chromatic mapping of
`tunernomeSampleHandler`. -/
theorem sharp_flat_colors_mirror (intensity d : Int) (hd : 10 ≤ d ∧ d ≤ 32767) :
    (instrumentTunerColor (-d) intensity
        = ⟨(instrumentTunerColor d intensity).b, (instrumentTunerColor d intensity).g,
            (instrumentTunerColor d intensity).r⟩)
      ∧ (semitoneTunerColor (-d) intensity
        = ⟨(semitoneTunerColor d intensity).b, (semitoneTunerColor d intensity).g,
            (semitoneTunerColor d intensity).r⟩) := by
  have h1 : ¬ ABS d < TONAL_DIFF_IN_TUNE_DEVIATION := by
    unfold ABS TONAL_DIFF_IN_TUNE_DEVIATION; split_ifs <;> omega
  have h2 : ¬ ABS (-d) < TONAL_DIFF_IN_TUNE_DEVIATION := by
    unfold ABS TONAL_DIFF_IN_TUNE_DEVIATION; split_ifs <;> omega
  have h3 : d > 0 := by omega
  have h4 : ¬ (-d > 0) := by omega
  constructor
  · unfold instrumentTunerColor
    rw [if_neg h1, if_neg h2, if_pos h3, if_neg h4]
    simp only [scaleColor, neg_neg]
  · unfold semitoneTunerColor
    rw [if_neg h1, if_neg h2, if_pos h3, if_neg h4]
    simp only [scaleColor]
    have : -(-d + TONAL_DIFF_IN_TUNE_DEVIATION) = d - TONAL_DIFF_IN_TUNE_DEVIATION := by ring
    rw [this]

/-- Witness for C10: deviation 12 at intensity 200. -/
theorem sharp_flat_colors_mirror_witness :
    ((10 : Int) ≤ 12 ∧ (12 : Int) ≤ 32767)
      ∧ ((instrumentTunerColor (-12) 200
          = ⟨(instrumentTunerColor 12 200).b, (instrumentTunerColor 12 200).g,
              (instrumentTunerColor 12 200).r⟩)
        ∧ (semitoneTunerColor (-12) 200
          = ⟨(semitoneTunerColor 12 200).b, (semitoneTunerColor 12 200).g,
              (semitoneTunerColor 12 200).r⟩)) :=
  ⟨by decide, sharp_flat_colors_mirror 200 12 (by decide)⟩

/-! ## Theorems: intensity and tonal deviation -/

theorem toInt16_of_range (x : Int) (h1 : -32768 ≤ x) (h2 : x ≤ 32767) : toInt16 x = x := by
  unfold toInt16; omega

/-- C11 (amended). For every value `filt` of the unsigned 32-bit intensity accumulator the
reported intensity is the clamp to [0, 255] of `(filt >> 5) - 40` reduced to a signed 16-bit
value; hence it equals `clamp((filt >> 5) - 40, 0, 255)` over the integers whenever
`(filt >> 5) - 40 <= 32767`, in particular for every `filt < 1,049,856`. -/
theorem intensity_is_clamp_when_in_int16 (filt : Int) (h0 : 0 ≤ filt) (h1 : filt < 4294967296) :
    intensityOf filt = max 0 (min 255 (toInt16 (filt / 32 - 40)))
      ∧ (filt / 32 - 40 ≤ 32767 → intensityOf filt = intensitySpec filt)
      ∧ (filt < 1049856 → intensityOf filt = intensitySpec filt) := by
  have hbase : intensityOf filt = max 0 (min 255 (toInt16 (filt / 32 - 40))) := by
    unfold intensityOf
    rw [CLAMP_eq_max_min _ 0 255 (by norm_num)]
    have : toInt16 (toUInt32 (asr filt SENSITIVITY - 40)) = toInt16 (filt / 32 - 40) := by
      unfold toInt16 toUInt32 asr SENSITIVITY
      norm_num
      omega
    rw [this]
  have hin : filt / 32 - 40 ≤ 32767 → intensityOf filt = intensitySpec filt := by
    intro h
    rw [hbase, toInt16_of_range _ (by omega) h]
    rfl
  exact ⟨hbase, hin, fun h => hin (by omega)⟩

/-- Counterexample to C11 as stated: for the accumulator value 1,049,856 the difference
`(filt >> 5) - 40` is 32768, which is stored as the 16-bit value -32768 and clamped to 0,
while the clamp over the integers is 255; the same happens for the accumulator value
4,294,967,295, which one update with the raw magnitude -1 produces from 0. -/
theorem intensity_int16_wrap_counterexample :
    (0 : Int) ≤ 1049856 ∧ (1049856 : Int) < 4294967296
      ∧ intensityOf 1049856 = 0 ∧ intensitySpec 1049856 = 255
      ∧ intensityFilt (-1) 0 = 4294967295
      ∧ intensityOf 4294967295 = 0 ∧ intensitySpec 4294967295 = 255 := by
  decide

/-- Witness for C11 (amended): the accumulator value 3200, with intensity 60. -/
theorem intensity_is_clamp_when_in_int16_witness :
    (0 : Int) ≤ 3200 ∧ (3200 : Int) < 4294967296
      ∧ (intensityOf 3200 = max 0 (min 255 (toInt16 (3200 / 32 - 40)))
        ∧ ((3200 : Int) / 32 - 40 ≤ 32767 → intensityOf 3200 = intensitySpec 3200)
        ∧ ((3200 : Int) < 1049856 → intensityOf 3200 = intensitySpec 3200)) :=
  ⟨by decide, by decide, intensity_is_clamp_when_in_int16 3200 (by decide) (by decide)⟩

theorem diffFilt_bounds (diff filt : Int) (hd : -32768 ≤ diff ∧ diff ≤ 32767)
    (hf : -1048576 ≤ filt ∧ filt ≤ 1048575) :
    -1048576 ≤ diffFilt diff filt ∧ diffFilt diff filt ≤ 1048575 := by
  have h : toInt32 (diff + filt - asr filt 5) = diff + filt - filt / 32 := by
    unfold asr
    norm_num
    exact toInt32_of_range _ (by omega) (by omega)
  unfold diffFilt
  rw [h]
  omega

theorem foldl_diffFilt_bounds (rs : List Int) :
    ∀ filt : Int, (∀ r ∈ rs, -32768 ≤ r ∧ r ≤ 32767) → (-1048576 ≤ filt ∧ filt ≤ 1048575) →
      -1048576 ≤ rs.foldl (fun f diff => diffFilt diff f) filt
        ∧ rs.foldl (fun f diff => diffFilt diff f) filt ≤ 1048575 := by
  induction rs with
  | nil => intro filt _ h; simpa using h
  | cons r rs ih =>
    intro filt hr hf
    simp only [List.foldl_cons]
    exact ih _ (fun x hx => hr x (List.mem_cons_of_mem _ hx))
      (diffFilt_bounds r filt (hr r (List.mem_cons_self _ _)) hf)

theorem diffAfter_bounds (rs : List Int) (hr : ∀ r ∈ rs, -32768 ≤ r ∧ r ≤ 32767) :
    -1048576 ≤ diffAfter rs ∧ diffAfter rs ≤ 1048575 :=
  foldl_diffFilt_bounds rs 0 hr (by norm_num)

/-- C12 (amended). For every difference accumulator reached from 0 by updates with signed
16-bit raw differences and every intensity in [0, 255] (so the divisor `intensity + 1` is
positive), the reported tonal deviation is `((diffEMA >> 5) * 200) / (intensity + 1)`, with an
arithmetic shift and a truncating division, reduced to a signed 16-bit value; hence it equals
that quotient over the integers whenever the quotient lies in [-32768, 32767]. -/
theorem tonal_deviation_is_quotient_mod_int16 (rs : List Int) (intensity : Int)
    (hr : ∀ r ∈ rs, -32768 ≤ r ∧ r ≤ 32767) (hi : 0 ≤ intensity ∧ intensity ≤ 255) :
    tonalDiffOf (diffAfter rs) intensity
        = toInt16 (tonalDeviationSpec (diffAfter rs) intensity)
      ∧ (-32768 ≤ tonalDeviationSpec (diffAfter rs) intensity
          ∧ tonalDeviationSpec (diffAfter rs) intensity ≤ 32767 →
        tonalDiffOf (diffAfter rs) intensity = tonalDeviationSpec (diffAfter rs) intensity)
      ∧ 0 < intensity + 1 := by
  obtain ⟨hlo, hhi⟩ := diffAfter_bounds rs hr
  have hbase : tonalDiffOf (diffAfter rs) intensity
      = toInt16 (tonalDeviationSpec (diffAfter rs) intensity) := by
    unfold tonalDiffOf tonalDeviationSpec asr SENSITIVITY
    norm_num
    rw [toInt32_of_range _ (by omega) (by omega)]
  exact ⟨hbase, fun h => by rw [hbase, toInt16_of_range _ h.1 h.2], by omega⟩

/-- Counterexample to C12 as stated: one update with the raw difference 6400 leaves the
accumulator at 6400; with intensity 0 the quotient over the integers is 40000, and the
reported value is 40000 - 65536 = -25536. -/
theorem tonal_deviation_int16_wrap_counterexample :
    (∀ r ∈ [(6400 : Int)], -32768 ≤ r ∧ r ≤ 32767) ∧ diffAfter [6400] = 6400
      ∧ tonalDeviationSpec (diffAfter [6400]) 0 = 40000
      ∧ tonalDiffOf (diffAfter [6400]) 0 = -25536 := by
  refine ⟨by simp, by decide, by decide, by decide⟩

/-- Witness for C12 (amended): the raw differences -300 and 200 with intensity 50. -/
theorem tonal_deviation_is_quotient_mod_int16_witness :
    (∀ r ∈ [(-300 : Int), 200], -32768 ≤ r ∧ r ≤ 32767) ∧ ((0 : Int) ≤ 50 ∧ (50 : Int) ≤ 255)
      ∧ (tonalDiffOf (diffAfter [-300, 200]) 50
          = toInt16 (tonalDeviationSpec (diffAfter [-300, 200]) 50)
        ∧ (-32768 ≤ tonalDeviationSpec (diffAfter [-300, 200]) 50
            ∧ tonalDeviationSpec (diffAfter [-300, 200]) 50 ≤ 32767 →
          tonalDiffOf (diffAfter [-300, 200]) 50
            = tonalDeviationSpec (diffAfter [-300, 200]) 50)
        ∧ (0 : Int) < 50 + 1) :=
  ⟨by simp, by decide,
    tonal_deviation_is_quotient_mod_int16 [-300, 200] 50 (by simp) (by decide)⟩


/-! ## Theorems: the colour mappings against the reference -/

theorem scale_full (q : Int) (hq : 0 ≤ q) :
    CLAMP (asr 255 3 * q) 0 255 = min 255 (31 * q) := by
  have h : asr 255 3 = 31 := by decide
  rw [h, CLAMP_eq_max_min _ 0 255 (by norm_num)]
  omega

theorem scale_faded (x q : Int) (hq : 0 ≤ q) (hx1 : -2147483648 ≤ x) (hx2 : x ≤ 255) :
    CLAMP (asr (CLAMP x INT_MIN 255) 3 * q) 0 255 = min 255 (max 0 x / 8 * q) := by
  have hc : CLAMP x INT_MIN 255 = x := by
    unfold CLAMP INT_MIN; split_ifs <;> omega
  have ha : asr x 3 = x / 8 := by unfold asr; norm_num
  rw [hc, ha, CLAMP_eq_max_min _ 0 255 (by norm_num)]
  rcases le_or_lt 0 x with h | h
  · have h1 : 0 ≤ x / 8 := by omega
    have h2 : 0 ≤ x / 8 * q := mul_nonneg h1 hq
    rw [max_eq_right h]
    omega
  · have h1 : x / 8 ≤ 0 := by omega
    have h2 : x / 8 * q ≤ 0 := mul_nonpos_of_nonpos_of_nonneg h1 hq
    rw [max_eq_left (le_of_lt h)]
    simp
    omega

theorem tunerColor_matches_ref (offset d I : Int) (hoff : offset = 0 ∨ offset = 10)
    (hd : -32768 ≤ d ∧ d ≤ 32767) (hi : 0 ≤ I ∧ I ≤ 255) :
    (if ABS d < TONAL_DIFF_IN_TUNE_DEVIATION then scaleColor 255 255 255 I
      else if d > 0 then
        scaleColor (CLAMP 255 INT_MIN 255) (CLAMP (255 - (d - offset) * 15) INT_MIN 255)
          (CLAMP (255 - (d - offset) * 15) INT_MIN 255) I
      else
        scaleColor (CLAMP (255 - (-(d + offset)) * 15) INT_MIN 255)
          (CLAMP (255 - (-(d + offset)) * 15) INT_MIN 255) (CLAMP 255 INT_MIN 255) I)
      = tunerColorRef offset d I := by
  have hq : 0 ≤ asr I 3 := by unfold asr; norm_num; omega
  have hq8 : asr I 3 = I / 8 := by unfold asr; norm_num
  have habs : ABS d = |d| := by
    unfold ABS
    split_ifs with h
    · exact (abs_of_neg h).symm
    · exact (abs_of_nonneg (by omega)).symm
  unfold tunerColorRef
  rw [habs]
  unfold TONAL_DIFF_IN_TUNE_DEVIATION
  by_cases ht : |d| < 10
  · simp only [ht, if_true]
    unfold scaleColor
    dsimp only
    rw [scale_full _ hq, hq8]
  · simp only [ht, if_false]
    by_cases hpos : d > 0
    · have hab : |d| = d := abs_of_pos hpos
      rw [hab] at ht ⊢
      simp only [hpos, if_true]
      unfold scaleColor
      dsimp only
      have h255 : CLAMP 255 INT_MIN 255 = 255 := by decide
      rw [h255, scale_full _ hq, scale_faded _ _ hq (by rcases hoff with h | h <;> omega)
        (by rcases hoff with h | h <;> omega), hq8]
      have : 255 - (d - offset) * 15 = 255 - 15 * (d - offset) := by ring
      rw [this]
    · have hneg : d < 0 := by
        rcases lt_trichotomy d 0 with h | h | h
        · exact h
        · rw [h] at ht; simp at ht
        · exact absurd h hpos
      have hab : |d| = -d := abs_of_neg hneg
      rw [hab] at ht ⊢
      simp only [hpos, if_false]
      unfold scaleColor
      dsimp only
      have h255 : CLAMP 255 INT_MIN 255 = 255 := by decide
      rw [h255, scale_full _ hq, scale_faded _ _ hq (by rcases hoff with h | h <;> omega)
        (by rcases hoff with h | h <;> omega), hq8]
      have : 255 - -(d + offset) * 15 = 255 - 15 * (-d - offset) := by ring
      rw [this]

/-- C13. For every signed 16-bit deviation `d` and every intensity `I` in [0, 255], with
`q = I >> 3`, the colour of `instrumentTunerMagic` is the reference colour: `min(255, 31 * q)`
on every channel when `|d| < 10`; otherwise `min(255, 31 * q)` on the dominant channel (red
for `d > 0`, blue for `d < 0`) and `min(255, (max(0, 255 - 15 * |d|) >> 3) * q)` on the two
others.  So clamping the fall-off at 0 before the shift gives what the code's clamp after the
multiplication gives. -/
theorem instrument_color_matches_reference (d I : Int)
    (hd : -32768 ≤ d ∧ d ≤ 32767) (hi : 0 ≤ I ∧ I ≤ 255) :
    instrumentTunerColor d I = tunerColorRef 0 d I := by
  have h := tunerColor_matches_ref 0 d I (Or.inl rfl) hd hi
  simp only [sub_zero, add_zero] at h
  rw [← h]
  unfold instrumentTunerColor
  rfl

/-- Witness for C13: deviation 12 at intensity 200. -/
theorem instrument_color_matches_reference_witness :
    ((-32768 : Int) ≤ 12 ∧ (12 : Int) ≤ 32767) ∧ ((0 : Int) ≤ 200 ∧ (200 : Int) ≤ 255)
      ∧ instrumentTunerColor 12 200 = tunerColorRef 0 12 200 :=
  ⟨by decide, by decide, instrument_color_matches_reference 12 200 (by decide) (by decide)⟩

/-- C14 (amended). For every signed 16-bit deviation `d` and every intensity `I` in [0, 255]
the chromatic mapping of `tunernomeSampleHandler` is the reference colour whose two
non-dominant channels fall off as `255 - 15 * (|d| - 10)` before the shift; it produces the
colour of `instrumentTunerMagic` when `|d| < 10`. -/
theorem semitone_color_matches_shifted_reference (d I : Int)
    (hd : -32768 ≤ d ∧ d ≤ 32767) (hi : 0 ≤ I ∧ I ≤ 255) :
    semitoneTunerColor d I = tunerColorRef 10 d I
      ∧ (|d| < 10 → semitoneTunerColor d I = instrumentTunerColor d I) := by
  have h := tunerColor_matches_ref 10 d I (Or.inr rfl) hd hi
  have h1 : semitoneTunerColor d I = tunerColorRef 10 d I := by
    rw [← h]
    unfold semitoneTunerColor TONAL_DIFF_IN_TUNE_DEVIATION
    rfl
  have h0 := tunerColor_matches_ref 0 d I (Or.inl rfl) hd hi
  simp only [sub_zero, add_zero] at h0
  have h2 : instrumentTunerColor d I = tunerColorRef 0 d I := by
    rw [← h0]
    unfold instrumentTunerColor
    rfl
  refine ⟨h1, fun ht => ?_⟩
  rw [h1, h2]
  unfold tunerColorRef
  simp only [ht, if_true]

/-- Counterexample to C14 as stated: at deviation 12 and intensity 200 the chromatic mapping
gives (255, 255, 255), from the fall-off `255 - 15 * 2 = 225`, while the mapping of
`instrumentTunerMagic` gives (255, 225, 225), from the fall-off `255 - 15 * 12 = 75`. -/
theorem semitone_color_differs_counterexample :
    semitoneTunerColor 12 200 = ⟨255, 255, 255⟩
      ∧ instrumentTunerColor 12 200 = ⟨255, 225, 225⟩
      ∧ tunerColorRef 0 12 200 = ⟨255, 225, 225⟩
      ∧ semitoneTunerColor 12 200 ≠ instrumentTunerColor 12 200 := by
  decide

/-- Witness for C14 (amended): deviation -20 at intensity 200. -/
theorem semitone_color_matches_shifted_reference_witness :
    ((-32768 : Int) ≤ -20 ∧ (-20 : Int) ≤ 32767) ∧ ((0 : Int) ≤ 200 ∧ (200 : Int) ≤ 255)
      ∧ (semitoneTunerColor (-20) 200 = tunerColorRef 10 (-20) 200
        ∧ (|(-20 : Int)| < 10 → semitoneTunerColor (-20) 200 = instrumentTunerColor (-20) 200)) :=
  ⟨by decide, by decide,
    semitone_color_matches_shifted_reference (-20) 200 (by decide) (by decide)⟩


/-! ## Theorems: listening mode -/

theorem listeningScan_spec (xs : List Int) :
    ∀ (s m n : Int),
      (listeningScan xs s (m, n) = (m, n) ∧ ∀ x ∈ xs, x ≤ m)
        ∨ ∃ (j : Nat) (v : Int), listeningScan xs s (m, n) = (v, s + j) ∧ xs[j]? = some v
            ∧ m < v ∧ (∀ x ∈ xs, x ≤ v) ∧ ∀ i : Nat, i < j → ∀ u, xs[i]? = some u → u < v := by
  induction xs with
  | nil => intro s m n; left; exact ⟨rfl, by simp⟩
  | cons x rest ih =>
    intro s m n
    by_cases hx : x > m
    · have hstep : listeningScan (x :: rest) s (m, n) = listeningScan rest (s + 1) (x, s) := by
        simp [listeningScan, hx]
      rw [hstep]
      right
      rcases ih (s + 1) x s with ⟨heq, hall⟩ | ⟨j, v, heq, hj, hlt, hall, hbefore⟩
      · refine ⟨0, x, by simpa using heq, by simp, hx, ?_, ?_⟩
        · intro y hy
          rcases List.mem_cons.mp hy with h | h
          · omega
          · exact hall y h
        · intro i hi; omega
      · refine ⟨j + 1, v, ?_, by simpa using hj, by omega, ?_, ?_⟩
        · rw [heq]; push_cast; congr 1; ring
        · intro y hy
          rcases List.mem_cons.mp hy with h | h
          · omega
          · exact hall y h
        · intro i hi u hu
          cases i with
          | zero => simp at hu; omega
          | succ i => exact hbefore i (by omega) u (by simpa using hu)
    · have hstep : listeningScan (x :: rest) s (m, n) = listeningScan rest (s + 1) (m, n) := by
        simp [listeningScan, hx]
      rw [hstep]
      rcases ih (s + 1) m n with ⟨heq, hall⟩ | ⟨j, v, heq, hj, hlt, hall, hbefore⟩
      · left
        refine ⟨heq, ?_⟩
        intro y hy
        rcases List.mem_cons.mp hy with h | h
        · omega
        · exact hall y h
      · right
        refine ⟨j + 1, v, ?_, by simpa using hj, hlt, ?_, ?_⟩
        · rw [heq]; push_cast; congr 1; ring
        · intro y hy
          rcases List.mem_cons.mp hy with h | h
          · omega
          · exact hall y h
        · intro i hi u hu
          cases i with
          | zero => simp at hu; omega
          | succ i => exact hbefore i (by omega) u (by simpa using hu)

/-- C15. For every array of 12 channel intensities the loop of the `LISTENING` case leaves
`semitoneNum = -1` exactly when no intensity exceeds 100; otherwise it leaves an index `j`
below 12 whose intensity exceeds 100, is the maximum over all channels, and is strictly
greater than the intensity of every channel before `j` (the lowest index holding the
maximum). -/
theorem listening_selects_first_maximum (intensity : List Int) (hlen : intensity.length = 12) :
    (listeningSemitone intensity = -1 ↔ ∀ x ∈ intensity, x ≤ 100)
      ∧ (listeningSemitone intensity ≠ -1 →
          ∃ (j : Nat) (v : Int), j < 12 ∧ listeningSemitone intensity = j
            ∧ intensity[j]? = some v ∧ 100 < v ∧ (∀ x ∈ intensity, x ≤ v)
            ∧ ∀ i : Nat, i < j → ∀ u, intensity[i]? = some u → u < v) := by
  unfold listeningSemitone
  rcases listeningScan_spec intensity 0 100 (-1) with
    ⟨heq, hall⟩ | ⟨j, v, heq, hj, hlt, hall, hbefore⟩
  · rw [heq]
    exact ⟨⟨fun _ => hall, fun _ => rfl⟩, fun h => absurd rfl h⟩
  · rw [heq]
    have hjlt : j < 12 := by
      rw [← hlen]
      exact (List.getElem?_eq_some_iff.mp hj).1
    refine ⟨⟨fun h => ?_, fun h => ?_⟩, fun _ => ⟨j, v, hjlt, by simp, hj, hlt, hall, hbefore⟩⟩
    · simp at h
    · have := h v (List.getElem?_mem hj)
      omega

/-- Witness for C15: in `sampleIntensities` the maximum 200 is held by channels 3 and 4. -/
theorem listening_selects_first_maximum_witness :
    sampleIntensities.length = 12 ∧ listeningSemitone sampleIntensities = 3
      ∧ ((listeningSemitone sampleIntensities = -1 ↔ ∀ x ∈ sampleIntensities, x ≤ 100)
        ∧ (listeningSemitone sampleIntensities ≠ -1 →
            ∃ (j : Nat) (v : Int), j < 12 ∧ listeningSemitone sampleIntensities = j
              ∧ sampleIntensities[j]? = some v ∧ 100 < v ∧ (∀ x ∈ sampleIntensities, x ≤ v)
              ∧ ∀ i : Nat, i < j → ∀ u, sampleIntensities[i]? = some u → u < v)) :=
  ⟨by decide, by decide, listening_selects_first_maximum sampleIntensities (by decide)⟩


/-! ## Theorems: the beat counter -/

theorem modifyBpm_some (t : tunernome_t) (x : Int) :
    modifyBpm t x = some { t with
      bpm := CLAMP (toInt32 (t.bpm + toInt16 x)) 1 MAX_BPM
      usPerBeat := Int.tdiv 60000000 (CLAMP (toInt32 (t.bpm + toInt16 x)) 1 MAX_BPM) } := by
  have hb := CLAMP_bounds (toInt32 (t.bpm + toInt16 x)) 1 MAX_BPM (by decide)
  unfold modifyBpm recalcMetronome
  simp only
  rw [if_neg (by omega)]
  norm_num

theorem bpmButtonRepeat_beat (t : tunernome_t) :
    ∃ t4, bpmButtonRepeat t = some t4 ∧ sameBeat t t4 := by
  unfold bpmButtonRepeat
  by_cases h1 : t.bpmButtonAccumulatedUs ≥ BPM_CHANGE_FIRST_MS * 1000
  · by_cases h2 : t.bpmButtonCurChangeUs ≥ BPM_CHANGE_REPEAT_MS * 1000
    · rw [if_pos h1, if_pos h2]
      dsimp only
      rcases hlb : t.lastBpmButton with _ | btn
      · simp [sameBeat]
      · cases btn <;> simp [modifyBpm_some, sameBeat]
    · rw [if_pos h1, if_neg h2]; exact ⟨_, rfl, rfl, rfl, rfl⟩
  · rw [if_neg h1]; exact ⟨_, rfl, rfl, rfl, rfl⟩

theorem mainLoopBpmButton_beat (t : tunernome_t) (e now : Int) :
    ∃ t4, mainLoopBpmButton t e now = some t4 ∧ sameBeat t t4 := by
  unfold mainLoopBpmButton
  split_ifs
  · obtain ⟨t4, h4, hs⟩ := bpmButtonRepeat_beat (bpmButtonAccumulate t e now)
    refine ⟨t4, h4, ?_⟩
    rw [bpmButtonAccumulate_fields] at hs
    exact hs
  · exact ⟨t, rfl, rfl, rfl, rfl⟩

theorem mainLoopTick_beat (t : tunernome_t) (now : Int)
    (hsig : 0 ≤ t.tSigIdx ∧ t.tSigIdx < 8) :
    ∃ t1, mainLoopTick t now
        = some (t1, if (0 : Int) = t1.beatCtr then metronome_primary else metronome_secondary)
      ∧ t1.mode = t.mode ∧ t1.tSigIdx = t.tSigIdx
      ∧ t1.beatCtr = toUInt8 (Int.tmod (t.beatCtr + 1) (numeratorOf t)) := by
  obtain ⟨h0, h8⟩ := hsig
  unfold mainLoopTick numeratorOf
  have hcases : t.tSigIdx = 0 ∨ t.tSigIdx = 1 ∨ t.tSigIdx = 2 ∨ t.tSigIdx = 3 ∨ t.tSigIdx = 4
      ∨ t.tSigIdx = 5 ∨ t.tSigIdx = 6 ∨ t.tSigIdx = 7 := by omega
  rcases hcases with h | h | h | h | h | h | h | h <;>
    (simp [h, tSigs]; exact ⟨_, ⟨rfl, rfl⟩, rfl, rfl, rfl⟩)

theorem mainLoop_metronome_beat (t : tunernome_t) (e now : Int)
    (hmode : t.mode = tnMode.TN_METRONOME) (hsig : 0 ≤ t.tSigIdx ∧ t.tSigIdx < 8) :
    ∃ r, tunernomeMainLoop t e now = some r ∧ r.state.mode = t.mode
      ∧ r.state.tSigIdx = t.tSigIdx
      ∧ ((r.tick = none ∧ r.state.beatCtr = t.beatCtr)
        ∨ (r.state.beatCtr = toUInt8 (Int.tmod (t.beatCtr + 1) (numeratorOf t))
          ∧ r.tick = some (if (0 : Int) = r.state.beatCtr then metronome_primary
              else metronome_secondary))) := by
  have hx := mainLoopExit_fields t e now
  have hq : mainLoopExit t e now = ((mainLoopExit t e now).1, (mainLoopExit t e now).2) := rfl
  have hq2 : mainLoopSweep (mainLoopBlink (mainLoopExit t e now).1 e now) e
      = ((mainLoopSweep (mainLoopBlink (mainLoopExit t e now).1 e now) e).1,
         (mainLoopSweep (mainLoopBlink (mainLoopExit t e now).1 e now) e).2) := rfl
  have h0 : sameBeat t (mainLoopExit t e now).1 := by
    rw [hx]; exact ⟨rfl, rfl, rfl⟩
  have h1 : sameBeat t (mainLoopBlink (mainLoopExit t e now).1 e now) := by
    rw [mainLoopBlink_fields]; exact h0
  have h2 : sameBeat t (mainLoopSweep (mainLoopBlink (mainLoopExit t e now).1 e now) e).1 := by
    rw [mainLoopSweep_fields]; exact h1
  have hm0 : (mainLoopExit t e now).1.mode = tnMode.TN_METRONOME := by rw [h0.1, hmode]
  obtain ⟨sig0, hs0⟩ := mainLoopExit_tSigs_read t e now hsig
  unfold tunernomeMainLoop
  rw [hq]
  simp only [hm0, hs0]
  rw [hq2]
  simp only
  by_cases hb : (mainLoopSweep (mainLoopBlink (mainLoopExit t e now).1 e now) e).2 = true
  · rw [if_pos hb]
    obtain ⟨t3, h3, hm3, hs3, hb3⟩ := mainLoopTick_beat
      (mainLoopSweep (mainLoopBlink (mainLoopExit t e now).1 e now) e).1 now
      (by rw [h2.2.1]; exact hsig)
    obtain ⟨t4, h4, hm4, hs4, hb4⟩ := mainLoopBpmButton_beat t3 e now
    rw [h3]
    simp only [h4, Option.map_some']
    refine ⟨_, rfl, ?_, ?_, Or.inr ⟨?_, ?_⟩⟩
    · show t4.mode = t.mode
      rw [hm4, hm3, h2.1]
    · show t4.tSigIdx = t.tSigIdx
      rw [hs4, hs3, h2.2.1]
    · show t4.beatCtr = _
      rw [hb4, hb3, h2.2.2]
      unfold numeratorOf
      rw [h2.2.1]
    · show some _ = some _
      rw [hb4]
  · rw [if_neg hb]
    obtain ⟨t4, h4, hm4, hs4, hb4⟩ := mainLoopBpmButton_beat
      (mainLoopSweep (mainLoopBlink (mainLoopExit t e now).1 e now) e).1 e now
    simp only [h4, Option.map_some']
    refine ⟨_, rfl, ?_, ?_, Or.inl ⟨rfl, ?_⟩⟩
    · show t4.mode = t.mode
      rw [hm4, h2.1]
    · show t4.tSigIdx = t.tSigIdx
      rw [hs4, h2.2.1]
    · show t4.beatCtr = t.beatCtr
      rw [hb4, h2.2.2]

theorem numeratorOf_range (t : tunernome_t) (hsig : 0 ≤ t.tSigIdx ∧ t.tSigIdx < 8) :
    1 ≤ numeratorOf t ∧ numeratorOf t ≤ 8 := by
  obtain ⟨h0, h8⟩ := hsig
  unfold numeratorOf
  have hcases : t.tSigIdx = 0 ∨ t.tSigIdx = 1 ∨ t.tSigIdx = 2 ∨ t.tSigIdx = 3 ∨ t.tSigIdx = 4
      ∨ t.tSigIdx = 5 ∨ t.tSigIdx = 6 ∨ t.tSigIdx = 7 := by omega
  rcases hcases with h | h | h | h | h | h | h | h <;> simp [h, tSigs]

theorem beat_succ (n : Int) (c : Nat) (hn : 1 ≤ n ∧ n ≤ 8) :
    toUInt8 (Int.tmod ((c : Int) % n + 1) n) = ((c + 1 : Nat) : Int) % n := by
  have h0 : 0 ≤ (c : Int) % n := Int.emod_nonneg _ (by omega)
  have h1 : Int.tmod ((c : Int) % n + 1) n = ((c : Int) % n + 1) % n :=
    Int.tmod_eq_emod (by omega) (by omega)
  rw [h1, Int.emod_add_emod]
  have h2 : 0 ≤ ((c : Int) + 1) % n := Int.emod_nonneg _ (by omega)
  have h3 : ((c : Int) + 1) % n < n := Int.emod_lt_of_pos _ (by omega)
  unfold toUInt8
  push_cast
  omega

theorem pollMain_beat (n : Int) (polls : List (Int × Int)) :
    ∀ (c : Nat) (t : tunernome_t), t.mode = tnMode.TN_METRONOME →
      (0 ≤ t.tSigIdx ∧ t.tSigIdx < 8) → numeratorOf t = n → t.beatCtr = (c : Int) % n →
      ∃ t1 outs, pollMain t polls = some (t1, outs) ∧ outs.length = polls.length
        ∧ t1.beatCtr = ((c + tickCount outs : Nat) : Int) % n
        ∧ ∀ (j : Nat) (song : song_t), outs[j]? = some (some song) →
            song = if ((c + tickCount (outs.take (j + 1)) : Nat) : Int) % n = 0
              then metronome_primary else metronome_secondary := by
  induction polls with
  | nil =>
    intro c t _ _ _ hb
    exact ⟨t, [], rfl, rfl, by simpa [tickCount] using hb, by simp⟩
  | cons p ps ih =>
    intro c t hmode hsig hn hb
    obtain ⟨e, now⟩ := p
    have hrange := numeratorOf_range t hsig
    rw [hn] at hrange
    obtain ⟨r, hr, hm, hs, htick⟩ := mainLoop_metronome_beat t e now hmode hsig
    have hn1 : numeratorOf r.state = n := by
      rw [← hn]; unfold numeratorOf; rw [hs]
    rcases htick with ⟨hnone, hsame⟩ | ⟨hbeat, hsome⟩
    · obtain ⟨t1, outs, hrun, hlen, hb1, hsongs⟩ :=
        ih c r.state (by rw [hm, hmode]) (by rw [hs]; exact hsig) hn1 (by rw [hsame, hb])
      refine ⟨t1, none :: outs, ?_, by simp [hlen], ?_, ?_⟩
      · simp only [pollMain, hr, hrun, hnone]
      · simpa [tickCount] using hb1
      · intro j song hj
        cases j with
        | zero => simp at hj
        | succ j =>
          have := hsongs j song (by simpa using hj)
          simpa [tickCount] using this
    · have hb2 : r.state.beatCtr = ((c + 1 : Nat) : Int) % n := by
        rw [hbeat, hn, hb]; exact beat_succ n c hrange
      obtain ⟨t1, outs, hrun, hlen, hb1, hsongs⟩ :=
        ih (c + 1) r.state (by rw [hm, hmode]) (by rw [hs]; exact hsig) hn1 hb2
      refine ⟨t1, r.tick :: outs, ?_, by simp [hlen], ?_, ?_⟩
      · simp only [pollMain, hr, hrun]
      · have hc : tickCount (r.tick :: outs) = tickCount outs + 1 := by
          simp [tickCount, hsome]
        rw [hc, hb1]
        congr 2
        omega
      · intro j song hj
        cases j with
        | zero =>
          have hc : tickCount ((r.tick :: outs).take (0 + 1)) = 1 := by
            simp [tickCount, hsome]
          rw [hc, ← hb2]
          simp only [List.getElem?_cons_zero, hsome, Option.some.injEq] at hj
          rw [← hj]
          by_cases hz : (0 : Int) = r.state.beatCtr
          · rw [if_pos hz, if_pos hz.symm]
          · rw [if_neg hz, if_neg (fun h => hz h.symm)]
        | succ j =>
          have := hsongs j song (by simpa using hj)
          have hc : tickCount ((r.tick :: outs).take (j + 1 + 1))
              = tickCount (outs.take (j + 1)) + 1 := by
            simp [tickCount, hsome]
          rw [hc]
          have he : c + (tickCount (outs.take (j + 1)) + 1)
              = c + 1 + tickCount (outs.take (j + 1)) := by omega
          rw [he]
          exact this

/-- C16. In the metronome submode with the time-signature index inside the table, numerator
`n = tSigs[tSigIdx].top`, and `beatCtr = 0`: every run of main-loop calls is defined, after it
`beatCtr = k mod n` with `k` the number of ticks of the run, and the `k`-th tick hands
`metronome_primary` to the buzzer when `n` divides `k` and `metronome_secondary` otherwise;
the two songs are different. -/
theorem beat_index_counts_ticks_mod_numerator (t : tunernome_t) (polls : List (Int × Int))
    (hmode : t.mode = tnMode.TN_METRONOME) (hsig : 0 ≤ t.tSigIdx ∧ t.tSigIdx < 8)
    (hbeat : t.beatCtr = 0) :
    metronome_primary ≠ metronome_secondary
      ∧ ∃ t1 outs, pollMain t polls = some (t1, outs) ∧ outs.length = polls.length
        ∧ t1.beatCtr = (tickCount outs : Int) % numeratorOf t
        ∧ ∀ (j : Nat) (song : song_t), outs[j]? = some (some song) →
            song = if (tickCount (outs.take (j + 1)) : Int) % numeratorOf t = 0
              then metronome_primary else metronome_secondary := by
  refine ⟨by decide, ?_⟩
  obtain ⟨t1, outs, hrun, hlen, hb, hsongs⟩ :=
    pollMain_beat (numeratorOf t) polls 0 t hmode hsig rfl (by simpa using hbeat)
  refine ⟨t1, outs, hrun, hlen, by simpa using hb, ?_⟩
  intro j song hj
  simpa using hsongs j song hj

/-- Witness for C16: six calls of 500,000 us from the metronome state at 60 bpm in 4/4. -/
theorem beat_index_counts_ticks_mod_numerator_witness :
    metronomeAt60.mode = tnMode.TN_METRONOME
      ∧ (0 ≤ metronomeAt60.tSigIdx ∧ metronomeAt60.tSigIdx < 8)
      ∧ metronomeAt60.beatCtr = 0
      ∧ (metronome_primary ≠ metronome_secondary
        ∧ ∃ t1 outs, pollMain metronomeAt60 samplePolls = some (t1, outs)
          ∧ outs.length = samplePolls.length
          ∧ t1.beatCtr = (tickCount outs : Int) % numeratorOf metronomeAt60
          ∧ ∀ (j : Nat) (song : song_t), outs[j]? = some (some song) →
              song = if (tickCount (outs.take (j + 1)) : Int) % numeratorOf metronomeAt60 = 0
                then metronome_primary else metronome_secondary) :=
  ⟨rfl, by decide, rfl,
    beat_index_counts_ticks_mod_numerator metronomeAt60 samplePolls rfl (by decide) rfl⟩


/-! ## Theorems: polls and the hardware -/

theorem check_next_note_unmuted (b : rmt_buzzer_t) (cSfx cBgm : Int) (idle : Bool)
    (hm : b.isMuted = false) :
    buzzer_check_next_note b cSfx cBgm idle =
      if (buzzerAfterTracks b cSfx cBgm).playNote.isSome
          ∨ (buzzerAfterTracks b cSfx cBgm).stopSong = true then
        if idle then
          match (buzzerAfterTracks b cSfx cBgm).playNote with
          | some p =>
            match p.deref with
            | some n =>
              some ({ buzzerAfterTracks b cSfx cBgm with playNote := none },
                play_note (buzzerAfterTracks b cSfx cBgm).counter_clk_hz n)
            | none => none
          | none =>
            if (buzzerAfterTracks b cSfx cBgm).stopSong then
              some ({ buzzerAfterTracks b cSfx cBgm with stopSong := false }, [rmtOp.tx_stop])
            else some (buzzerAfterTracks b cSfx cBgm, [])
        else some (buzzerAfterTracks b cSfx cBgm, [])
      else some (buzzerAfterTracks b cSfx cBgm, []) := by
  unfold buzzer_check_next_note buzzerAfterTracks
  simp only [hm, Bool.false_eq_true, if_false]

theorem check_next_note_muted (b : rmt_buzzer_t) (cSfx cBgm : Int) (idle : Bool)
    (hm : b.isMuted = true) : buzzer_check_next_note b cSfx cBgm idle = some (b, []) := by
  unfold buzzer_check_next_note
  simp [hm]

theorem play_note_length (clk : Nat) (n : musicalNote_t) : (play_note clk n).length = 1 := by
  unfold play_note
  split_ifs <;> rfl

/-- C17. For every scheduler state, clock readings and hardware status, a defined call of
`buzzer_check_next_note` issues at most one hardware operation (one `rmt_tx_stop` or one start
of a repeating wave), and it issues none, leaving the state of the two track checks, when
after both track checks there is neither a pending note nor a stop request.  The call is
undefined only when unmuted, with idle hardware, and the pending note after the track checks
points outside its song. -/
theorem poll_issues_at_most_one_mutation (b : rmt_buzzer_t) (cSfx cBgm : Int) (idle : Bool) :
    (∀ b1 ops, buzzer_check_next_note b cSfx cBgm idle = some (b1, ops) → ops.length ≤ 1)
      ∧ ((buzzerAfterTracks b cSfx cBgm).playNote = none
          ∧ (buzzerAfterTracks b cSfx cBgm).stopSong = false →
        buzzer_check_next_note b cSfx cBgm idle = some (buzzerAfterTracks b cSfx cBgm, []))
      ∧ (buzzer_check_next_note b cSfx cBgm idle = none ↔
          b.isMuted = false ∧ idle = true
            ∧ ∃ p, (buzzerAfterTracks b cSfx cBgm).playNote = some p ∧ p.deref = none) := by
  cases hm : b.isMuted with
  | true =>
    have hmu := check_next_note_muted b cSfx cBgm idle hm
    have hat : buzzerAfterTracks b cSfx cBgm = b := by unfold buzzerAfterTracks; simp [hm]
    rw [hmu, hat]
    refine ⟨?_, fun _ => rfl, ?_⟩
    · intro b1 ops h
      simp only [Option.some.injEq, Prod.mk.injEq] at h
      rw [← h.2]; simp
    · simp
  | false =>
    rw [check_next_note_unmuted b cSfx cBgm idle hm]
    generalize buzzerAfterTracks b cSfx cBgm = a
    rcases hp : a.playNote with _ | p
    · cases hs : a.stopSong <;> cases idle <;> simp
    · cases hd : p.deref with
      | none => cases idle <;> simp [hd]
      | some n =>
        cases idle
        · simp
        · simp [hd, play_note_length]

/-- Witness for C17: `busyBuzzer` polled at 100,000 us with idle hardware. -/
theorem poll_issues_at_most_one_mutation_witness :
    (∀ b1 ops, buzzer_check_next_note busyBuzzer 100000 100000 true = some (b1, ops) →
        ops.length ≤ 1)
      ∧ ((buzzerAfterTracks busyBuzzer 100000 100000).playNote = none
          ∧ (buzzerAfterTracks busyBuzzer 100000 100000).stopSong = false →
        buzzer_check_next_note busyBuzzer 100000 100000 true
          = some (buzzerAfterTracks busyBuzzer 100000 100000, []))
      ∧ (buzzer_check_next_note busyBuzzer 100000 100000 true = none ↔
          busyBuzzer.isMuted = false ∧ true = true
            ∧ ∃ p, (buzzerAfterTracks busyBuzzer 100000 100000).playNote = some p
              ∧ p.deref = none) :=
  poll_issues_at_most_one_mutation busyBuzzer 100000 100000 true

theorem track_check_pending (tr : buzzerTrack_t) (isActive : Bool) (c : Int)
    (p : Option notePtr) (st : Bool) (h : pendingWellFormed p st) :
    pendingWellFormed (buzzer_track_check_next_note tr isActive c p st).playNote
      (buzzer_track_check_next_note tr isActive c p st).stopSong := by
  unfold buzzer_track_check_next_note
  cases hs : tr.song with
  | none => exact h
  | some song =>
    dsimp only
    by_cases h1 : tr.note_index < song.numNotes
    · by_cases h2 : c - tr.start_time ≥ noteDurationUs (song.noteAt tr.note_index)
      · rw [if_pos h1, if_pos h2]
        generalize (if song.shouldLoop = true ∧ tr.note_index + 1 = song.numNotes then 0
          else tr.note_index + 1) = idx2
        by_cases h3 : idx2 < song.numNotes
        · rw [if_pos h3]
          cases isActive
          · exact h
          · refine ⟨?_, by simp⟩
            intro q hq
            simp only [if_true, Option.some.injEq] at hq
            rw [← hq]
            exact h3
        · rw [if_neg h3]
          cases isActive
          · exact h
          · exact ⟨by simp, by simp⟩
      · rw [if_pos h1, if_neg h2]; exact h
    · rw [if_neg h1]; exact h

theorem afterTracks_pending (b : rmt_buzzer_t) (cSfx cBgm : Int)
    (h : pendingWellFormed b.playNote b.stopSong) :
    pendingWellFormed (buzzerAfterTracks b cSfx cBgm).playNote
      (buzzerAfterTracks b cSfx cBgm).stopSong := by
  unfold buzzerAfterTracks
  split_ifs
  · exact h
  · exact track_check_pending _ _ _ _ _ (track_check_pending _ _ _ _ _ h)

theorem check_next_note_idle (b : rmt_buzzer_t) (cSfx cBgm : Int)
    (h : pendingWellFormed b.playNote b.stopSong) :
    ∃ b1 ops, buzzer_check_next_note b cSfx cBgm true = some (b1, ops)
      ∧ (b.isMuted = false →
          b1 = { buzzerAfterTracks b cSfx cBgm with playNote := none, stopSong := false })
      ∧ pendingWellFormed b1.playNote b1.stopSong := by
  cases hm : b.isMuted with
  | true =>
    rw [check_next_note_muted b cSfx cBgm true hm]
    exact ⟨b, [], rfl, by simp, h⟩
  | false =>
    have ha := afterTracks_pending b cSfx cBgm h
    rw [check_next_note_unmuted b cSfx cBgm true hm]
    revert ha
    generalize buzzerAfterTracks b cSfx cBgm = a
    intro ha
    rcases hp : a.playNote with _ | p
    · cases hs : a.stopSong
      · refine ⟨a, [], by simp [hs], fun _ => ?_, ?_⟩
        · cases a; simp_all
        · rw [hp, hs]; exact ⟨by simp, by simp⟩
      · refine ⟨{ a with stopSong := false }, [rmtOp.tx_stop], by simp [hs], fun _ => ?_, ?_⟩
        · cases a; simp_all
        · show pendingWellFormed a.playNote false
          rw [hp]; exact ⟨by simp, by simp⟩
    · have hidx := ha.1 p hp
      have hst : a.stopSong = false := by
        cases hs : a.stopSong
        · rfl
        · exact absurd ⟨by rw [hp]; rfl, hs⟩ ha.2
      have hd : p.deref = some (p.song.noteAt p.index) := noteAt_deref p.song p.index hidx
      refine ⟨{ a with playNote := none }, play_note a.counter_clk_hz (p.song.noteAt p.index),
        by simp [hd], fun _ => ?_, ?_⟩
      · cases a; simp_all
      · show pendingWellFormed none a.stopSong
        exact ⟨by simp, by simp⟩

theorem check_next_note_busy (b : rmt_buzzer_t) (cSfx cBgm : Int) :
    buzzer_check_next_note b cSfx cBgm false = some (buzzerAfterTracks b cSfx cBgm, []) := by
  cases hm : b.isMuted with
  | true =>
    rw [check_next_note_muted b cSfx cBgm false hm]
    unfold buzzerAfterTracks; simp [hm]
  | false =>
    rw [check_next_note_unmuted b cSfx cBgm false hm]
    simp

theorem buzzerStep_pending (b b1 : rmt_buzzer_t) (op : buzzerOp) (hop : op.hasNotes)
    (h : buzzerStep b op = some b1) (hb : pendingWellFormed b.playNote b.stopSong) :
    pendingWellFormed b1.playNote b1.stopSong := by
  cases op with
  | play_sfx song now =>
    simp only [buzzerStep, Option.some.injEq] at h
    subst h
    unfold buzzer_play_sfx
    split_ifs
    · exact hb
    · refine ⟨?_, by simp⟩
      intro p hp
      simp only [Option.some.injEq] at hp
      rw [← hp]
      exact hop
  | play_bgm song now =>
    simp only [buzzerStep, Option.some.injEq] at h
    subst h
    unfold buzzer_play_bgm
    by_cases hm : b.isMuted = true
    · rw [if_pos hm]; exact hb
    · rw [if_neg hm]
      dsimp only
      by_cases hs : b.sfx.song = none
      · rw [if_pos hs]
        refine ⟨?_, by simp⟩
        intro p hp
        simp only [Option.some.injEq] at hp
        rw [← hp]
        exact hop
      · rw [if_neg hs]; exact hb
  | check_next_note cSfx cBgm idle =>
    simp only [buzzerStep, Option.map_eq_some'] at h
    obtain ⟨r, hr, rfl⟩ := h
    cases idle with
    | true =>
      obtain ⟨b2, ops, h2, _, hw⟩ := check_next_note_idle b cSfx cBgm hb
      rw [h2] at hr
      simp only [Option.some.injEq] at hr
      rw [← hr]; exact hw
    | false =>
      rw [check_next_note_busy] at hr
      simp only [Option.some.injEq] at hr
      rw [← hr]; exact afterTracks_pending b cSfx cBgm hb
  | stop =>
    simp only [buzzerStep, Option.some.injEq] at h
    subst h
    unfold buzzer_stop
    split_ifs
    · exact hb
    · exact ⟨by simp, by simp⟩

theorem buzzerReachable_pending (b : rmt_buzzer_t) (h : buzzerReachable b) :
    pendingWellFormed b.playNote b.stopSong := by
  induction h with
  | init clk isMuted => exact ⟨by simp [buzzer_init], by simp [buzzer_init]⟩
  | step b b1 op _ hop h ih => exact buzzerStep_pending b b1 op hop h ih

theorem buzzerStep_muted (b b1 : rmt_buzzer_t) (op : buzzerOp)
    (h : buzzerStep b op = some b1) (hm : b.isMuted = true) : b1 = b := by
  cases op with
  | play_sfx song now =>
    simp only [buzzerStep, Option.some.injEq] at h
    rw [← h]; unfold buzzer_play_sfx; rw [if_pos hm]
  | play_bgm song now =>
    simp only [buzzerStep, Option.some.injEq] at h
    rw [← h]; unfold buzzer_play_bgm; rw [if_pos hm]
  | check_next_note cSfx cBgm idle =>
    simp only [buzzerStep, check_next_note_muted b cSfx cBgm idle hm, Option.map_some',
      Option.some.injEq] at h
    exact h.symm
  | stop =>
    simp only [buzzerStep, Option.some.injEq] at h
    rw [← h]; unfold buzzer_stop; rw [if_pos hm]

theorem buzzerAfterTracks_isMuted (b : rmt_buzzer_t) (cSfx cBgm : Int) :
    (buzzerAfterTracks b cSfx cBgm).isMuted = b.isMuted := by
  unfold buzzerAfterTracks
  split_ifs <;> rfl

theorem buzzerStep_isMuted (b b1 : rmt_buzzer_t) (op : buzzerOp)
    (h : buzzerStep b op = some b1) : b1.isMuted = b.isMuted := by
  cases hm : b.isMuted with
  | true => rw [buzzerStep_muted b b1 op h hm, hm]
  | false =>
    cases op with
    | play_sfx song now =>
      simp only [buzzerStep, Option.some.injEq] at h
      rw [← h]; unfold buzzer_play_sfx; simp [hm]
    | play_bgm song now =>
      simp only [buzzerStep, Option.some.injEq] at h
      rw [← h]; unfold buzzer_play_bgm
      simp only [hm, Bool.false_eq_true, if_false]
      split_ifs <;> rfl
    | check_next_note cSfx cBgm idle =>
      simp only [buzzerStep, Option.map_eq_some'] at h
      obtain ⟨⟨r1, ops⟩, hr, rfl⟩ := h
      have ha := buzzerAfterTracks_isMuted b cSfx cBgm
      rw [check_next_note_unmuted b cSfx cBgm idle hm] at hr
      revert hr ha
      generalize buzzerAfterTracks b cSfx cBgm = a
      intro hr ha
      rw [hm] at ha
      show r1.isMuted = false
      rcases hp : a.playNote with _ | p
      · cases hs : a.stopSong <;> cases idle <;> simp [hp, hs] at hr <;>
          (rw [← hr.1]; exact ha)
      · cases hd : p.deref with
        | none =>
          cases idle
          · simp [hp] at hr; rw [← hr.1]; exact ha
          · simp [hp, hd] at hr
        | some n =>
          cases idle <;> simp [hp, hd] at hr <;> (rw [← hr.1]; exact ha)
    | stop =>
      simp only [buzzerStep, Option.some.injEq] at h
      rw [← h]; unfold buzzer_stop; simp [hm]

theorem buzzerReachable_muted (b : rmt_buzzer_t) (h : buzzerReachable b) :
    b.isMuted = true → b = buzzer_init 0 true := by
  induction h with
  | init clk isMuted =>
    intro hm
    simp only [buzzer_init] at hm
    subst hm
    rfl
  | step b b1 op _ _ h ih =>
    intro hm
    have hm0 : b.isMuted = true := by rw [← buzzerStep_isMuted b b1 op h]; exact hm
    rw [buzzerStep_muted b b1 op h hm0]
    exact ih hm0

/-- C18. For every scheduler state reached from `buzzer_init` by calls of the entry points
with songs of at least one note: a poll that finds the hardware busy issues no hardware
operation and leaves exactly the state of the two track checks, so the pending note or stop
request they left is still present; a poll that finds the hardware idle is defined and leaves
that state with no pending note and no stop request. -/
theorem busy_poll_keeps_pending_idle_poll_clears (b : rmt_buzzer_t) (cSfx cBgm : Int)
    (hb : buzzerReachable b) :
    buzzer_check_next_note b cSfx cBgm false = some (buzzerAfterTracks b cSfx cBgm, [])
      ∧ ∃ ops, buzzer_check_next_note b cSfx cBgm true
          = some ({ buzzerAfterTracks b cSfx cBgm with playNote := none, stopSong := false },
              ops) := by
  refine ⟨check_next_note_busy b cSfx cBgm, ?_⟩
  have hw := buzzerReachable_pending b hb
  obtain ⟨b1, ops, h1, hclear, hw1⟩ := check_next_note_idle b cSfx cBgm hw
  cases hm : b.isMuted with
  | false => exact ⟨ops, by rw [h1, hclear hm]⟩
  | true =>
    rw [check_next_note_muted b cSfx cBgm true hm]
    have hb0 := buzzerReachable_muted b hb hm
    refine ⟨[], ?_⟩
    rw [hb0]
    rfl

/-- Witness for C18: the scheduler after `buzzer_init` and one `buzzer_play_sfx`. -/
theorem busy_poll_keeps_pending_idle_poll_clears_witness :
    buzzerReachable sfxStarted
      ∧ (buzzer_check_next_note sfxStarted 5 5 false
            = some (buzzerAfterTracks sfxStarted 5 5, [])
        ∧ ∃ ops, buzzer_check_next_note sfxStarted 5 5 true
            = some ({ buzzerAfterTracks sfxStarted 5 5 with
                playNote := none, stopSong := false }, ops)) :=
  ⟨buzzerReachable.step (buzzer_init 1000000 false) sfxStarted
      (buzzerOp.play_sfx twoNoteSong 0) (buzzerReachable.init 1000000 false)
      (by show 1 ≤ twoNoteSong.numNotes; decide) (by decide),
    busy_poll_keeps_pending_idle_poll_clears sfxStarted 5 5
      (buzzerReachable.step (buzzer_init 1000000 false) sfxStarted
        (buzzerOp.play_sfx twoNoteSong 0) (buzzerReachable.init 1000000 false)
        (by show 1 ≤ twoNoteSong.numNotes; decide) (by decide))⟩


/-! ## Theorems: starting a song -/

/-- C19. For every unmuted scheduler state and every song with at least one note,
`buzzer_play_sfx(song)` at clock reading `t` changes only the sfx track, the pending note and
the stop request: the sfx track becomes (song, index 0, start time `t`), the pending note is
the song's first note and no stop request is left, whatever the two were before; the bgm track
is unchanged. -/
theorem play_sfx_always_becomes_pending (b : rmt_buzzer_t) (song : song_t) (t : Int)
    (hm : b.isMuted = false) (hn : 1 ≤ song.numNotes) :
    buzzer_play_sfx b song t
        = { b with sfx := ⟨some song, 0, t⟩, playNote := some ⟨song, 0⟩, stopSong := false }
      ∧ (buzzer_play_sfx b song t).sfx = ⟨some song, 0, t⟩
      ∧ (buzzer_play_sfx b song t).playNote.bind notePtr.deref = some (song.noteAt 0)
      ∧ (buzzer_play_sfx b song t).stopSong = false
      ∧ (buzzer_play_sfx b song t).bgm = b.bgm := by
  have h : buzzer_play_sfx b song t
      = { b with sfx := ⟨some song, 0, t⟩, playNote := some ⟨song, 0⟩, stopSong := false } := by
    unfold buzzer_play_sfx
    simp [hm]
  rw [h]
  exact ⟨rfl, rfl, noteAt_deref song 0 hn, rfl, rfl⟩

/-- Witness for C19: `loopSong` started as sfx at 700 us while `twoNoteSong` is pending. -/
theorem play_sfx_always_becomes_pending_witness :
    sfxStarted.isMuted = false ∧ 1 ≤ loopSong.numNotes
      ∧ (buzzer_play_sfx sfxStarted loopSong 700
          = { sfxStarted with
              sfx := ⟨some loopSong, 0, 700⟩, playNote := some ⟨loopSong, 0⟩, stopSong := false }
        ∧ (buzzer_play_sfx sfxStarted loopSong 700).sfx = ⟨some loopSong, 0, 700⟩
        ∧ (buzzer_play_sfx sfxStarted loopSong 700).playNote.bind notePtr.deref
            = some (loopSong.noteAt 0)
        ∧ (buzzer_play_sfx sfxStarted loopSong 700).stopSong = false
        ∧ (buzzer_play_sfx sfxStarted loopSong 700).bgm = sfxStarted.bgm) :=
  ⟨rfl, by decide, play_sfx_always_becomes_pending sfxStarted loopSong 700 rfl (by decide)⟩

/-- C20. For every unmuted scheduler state and every song with at least one note,
`buzzer_play_bgm(song)` at clock reading `t` leaves the bgm track at (song, index 0, start time
`t`) and the sfx track unchanged; when the sfx track holds no song the pending note becomes
the song's first note and the stop request is cleared, and when it holds a song nothing but
the bgm track changes, so the pending note and the stop request are as before. -/
theorem play_bgm_pending_only_without_sfx (b : rmt_buzzer_t) (song : song_t) (t : Int)
    (hm : b.isMuted = false) (hn : 1 ≤ song.numNotes) :
    (buzzer_play_bgm b song t).bgm = ⟨some song, 0, t⟩
      ∧ (buzzer_play_bgm b song t).sfx = b.sfx
      ∧ (b.sfx.song = none →
          buzzer_play_bgm b song t
              = { b with bgm := ⟨some song, 0, t⟩, playNote := some ⟨song, 0⟩, stopSong := false }
            ∧ (buzzer_play_bgm b song t).playNote.bind notePtr.deref = some (song.noteAt 0))
      ∧ (b.sfx.song ≠ none →
          buzzer_play_bgm b song t = { b with bgm := ⟨some song, 0, t⟩ }
            ∧ (buzzer_play_bgm b song t).playNote = b.playNote
            ∧ (buzzer_play_bgm b song t).stopSong = b.stopSong) := by
  by_cases hs : b.sfx.song = none
  · have h : buzzer_play_bgm b song t
        = { b with bgm := ⟨some song, 0, t⟩, playNote := some ⟨song, 0⟩, stopSong := false } := by
      unfold buzzer_play_bgm
      simp [hm, hs]
    rw [h]
    exact ⟨rfl, rfl, fun _ => ⟨rfl, noteAt_deref song 0 hn⟩, fun hne => absurd hs hne⟩
  · have h : buzzer_play_bgm b song t = { b with bgm := ⟨some song, 0, t⟩ } := by
      unfold buzzer_play_bgm
      simp [hm, hs]
    rw [h]
    exact ⟨rfl, rfl, fun he => absurd he hs, fun _ => ⟨rfl, rfl, rfl⟩⟩

/-- Witness for C20: `loopSong` started as bgm at 700 us while the sfx track holds
`twoNoteSong`. -/
theorem play_bgm_pending_only_without_sfx_witness :
    sfxStarted.isMuted = false ∧ 1 ≤ loopSong.numNotes
      ∧ ((buzzer_play_bgm sfxStarted loopSong 700).bgm = ⟨some loopSong, 0, 700⟩
        ∧ (buzzer_play_bgm sfxStarted loopSong 700).sfx = sfxStarted.sfx
        ∧ (sfxStarted.sfx.song = none →
            buzzer_play_bgm sfxStarted loopSong 700
                = { sfxStarted with
                    bgm := ⟨some loopSong, 0, 700⟩, playNote := some ⟨loopSong, 0⟩,
                    stopSong := false }
              ∧ (buzzer_play_bgm sfxStarted loopSong 700).playNote.bind notePtr.deref
                  = some (loopSong.noteAt 0))
        ∧ (sfxStarted.sfx.song ≠ none →
            buzzer_play_bgm sfxStarted loopSong 700
                = { sfxStarted with bgm := ⟨some loopSong, 0, 700⟩ }
              ∧ (buzzer_play_bgm sfxStarted loopSong 700).playNote = sfxStarted.playNote
              ∧ (buzzer_play_bgm sfxStarted loopSong 700).stopSong = sfxStarted.stopSong)) :=
  ⟨rfl, by decide, play_bgm_pending_only_without_sfx sfxStarted loopSong 700 rfl (by decide)⟩

/-! ## Theorems: the hardware write, muting and stop -/

/-- C21. When a poll of an unmuted scheduler finds the hardware idle and the note pending
after the two track checks is `n`, the poll clears the pending note and issues exactly one
hardware operation: `rmt_tx_stop` if the pitch of `n` is `SILENCE`, and otherwise the start of
a repeating wave whose high and low durations are both `(clockHz div frequencyHz) div 2`.  For
every `clockHz` and every `frequencyHz > 0` that number is `clockHz div (2 * frequencyHz)`, the
floor of `clockHz / (2 * frequencyHz)`. -/
theorem poll_writes_half_period (b : rmt_buzzer_t) (cSfx cBgm : Int) (p : notePtr)
    (n : musicalNote_t) (hm : b.isMuted = false)
    (hp : (buzzerAfterTracks b cSfx cBgm).playNote = some p) (hn : p.deref = some n) :
    (∃ ops, buzzer_check_next_note b cSfx cBgm true
          = some ({ buzzerAfterTracks b cSfx cBgm with playNote := none }, ops)
        ∧ (n.note = SILENCE → ops = [rmtOp.tx_stop])
        ∧ (n.note ≠ SILENCE →
            ops = [rmtOp.write_items (b.counter_clk_hz / n.note / 2)
                    (b.counter_clk_hz / n.note / 2)]))
      ∧ (∀ clockHz frequencyHz : Nat, 0 < frequencyHz →
          clockHz / frequencyHz / 2 = clockHz / (2 * frequencyHz)
            ∧ (2 * frequencyHz) * (clockHz / frequencyHz / 2) ≤ clockHz
            ∧ clockHz < (2 * frequencyHz) * (clockHz / frequencyHz / 2 + 1)) := by
  have hclk : (buzzerAfterTracks b cSfx cBgm).counter_clk_hz = b.counter_clk_hz := by
    unfold buzzerAfterTracks
    simp [hm]
  constructor
  · refine ⟨play_note b.counter_clk_hz n, ?_, ?_, ?_⟩
    · rw [check_next_note_unmuted b cSfx cBgm true hm]
      simp [hp, hn, hclk]
    · intro hs
      unfold play_note
      rw [if_pos hs]
    · intro hs
      unfold play_note rmt_item_duration
      rw [if_neg hs]
  · intro clockHz frequencyHz hf
    have h1 : clockHz / frequencyHz / 2 = clockHz / (2 * frequencyHz) := by
      rw [Nat.div_div_eq_div_mul, Nat.mul_comm]
    have hpos : 0 < 2 * frequencyHz := by omega
    refine ⟨h1, ?_, ?_⟩
    · rw [h1]; exact Nat.mul_div_le _ _
    · rw [h1]; exact Nat.lt_mul_div_succ _ hpos

/-- Witness for C21: the scheduler after one `buzzer_play_sfx(twoNoteSong)`, whose first
note has the pitch 440 Hz. -/
theorem poll_writes_half_period_witness :
    sfxStarted.isMuted = false
      ∧ (buzzerAfterTracks sfxStarted 5 5).playNote = some ⟨twoNoteSong, 0⟩
      ∧ notePtr.deref ⟨twoNoteSong, 0⟩ = some ⟨440, 100⟩
      ∧ ((∃ ops, buzzer_check_next_note sfxStarted 5 5 true
            = some ({ buzzerAfterTracks sfxStarted 5 5 with playNote := none }, ops)
          ∧ ((440 : Nat) = SILENCE → ops = [rmtOp.tx_stop])
          ∧ ((440 : Nat) ≠ SILENCE →
              ops = [rmtOp.write_items (sfxStarted.counter_clk_hz / 440 / 2)
                      (sfxStarted.counter_clk_hz / 440 / 2)]))
        ∧ (∀ clockHz frequencyHz : Nat, 0 < frequencyHz →
            clockHz / frequencyHz / 2 = clockHz / (2 * frequencyHz)
              ∧ (2 * frequencyHz) * (clockHz / frequencyHz / 2) ≤ clockHz
              ∧ clockHz < (2 * frequencyHz) * (clockHz / frequencyHz / 2 + 1))) :=
  ⟨rfl, by decide, by decide,
    poll_writes_half_period sfxStarted 5 5 ⟨twoNoteSong, 0⟩ ⟨440, 100⟩ rfl (by decide)
      (by decide)⟩

/-- C22. In a muted scheduler (the mute flag is written by `buzzer_init` only), each of
`buzzer_play_sfx`, `buzzer_play_bgm`, `buzzer_check_next_note` and `buzzer_stop` returns the
state unchanged, for every argument, clock reading and hardware status, and the two calls that
can touch the hardware issue no hardware operation; `buzzer_stop` returns without waiting. -/
theorem muted_operations_are_noops (b : rmt_buzzer_t) (hm : b.isMuted = true) :
    (∀ song now, buzzer_play_sfx b song now = b)
      ∧ (∀ song now, buzzer_play_bgm b song now = b)
      ∧ (∀ cSfx cBgm idle, buzzer_check_next_note b cSfx cBgm idle = some (b, []))
      ∧ buzzer_stop b = (b, [])
      ∧ (∀ idle, buzzer_stop_wait b idle = some (b, []))
      ∧ (∀ op b1, buzzerStep b op = some b1 → b1 = b) := by
  refine ⟨?_, ?_, ?_, ?_, ?_, ?_⟩
  · intro song now
    unfold buzzer_play_sfx
    rw [if_pos hm]
  · intro song now
    unfold buzzer_play_bgm
    rw [if_pos hm]
  · intro cSfx cBgm idle
    exact check_next_note_muted b cSfx cBgm idle hm
  · unfold buzzer_stop
    rw [if_pos hm]
  · intro idle
    cases idle with
    | nil => simp [buzzer_stop_wait, hm]
    | cons i rest => simp [buzzer_stop_wait, hm]
  · intro op b1 h
    exact buzzerStep_muted b b1 op h hm

/-- Witness for C22: the scheduler left by a muted `buzzer_init`. -/
theorem muted_operations_are_noops_witness :
    (buzzer_init 1000000 true).isMuted = true
      ∧ ((∀ song now, buzzer_play_sfx (buzzer_init 1000000 true) song now
            = buzzer_init 1000000 true)
        ∧ (∀ song now, buzzer_play_bgm (buzzer_init 1000000 true) song now
            = buzzer_init 1000000 true)
        ∧ (∀ cSfx cBgm idle, buzzer_check_next_note (buzzer_init 1000000 true) cSfx cBgm idle
            = some (buzzer_init 1000000 true, []))
        ∧ buzzer_stop (buzzer_init 1000000 true) = (buzzer_init 1000000 true, [])
        ∧ (∀ idle, buzzer_stop_wait (buzzer_init 1000000 true) idle
            = some (buzzer_init 1000000 true, []))
        ∧ (∀ op b1, buzzerStep (buzzer_init 1000000 true) op = some b1 →
            b1 = buzzer_init 1000000 true)) :=
  ⟨rfl, muted_operations_are_noops (buzzer_init 1000000 true) rfl⟩

theorem buzzer_stop_wait_idle (b : rmt_buzzer_t) (hm : b.isMuted = false) (idle : List Bool) :
    (true ∈ idle → buzzer_stop_wait b idle = some (buzzer_stop b))
      ∧ (∀ r, buzzer_stop_wait b idle = some r → r = buzzer_stop b ∧ true ∈ idle)
      ∧ (buzzer_stop_wait b idle = none ↔ ∀ i ∈ idle, i = false) := by
  have hs : buzzer_stop b
      = ({ b with bgm := ⟨none, 0, 0⟩, sfx := ⟨none, 0, 0⟩, playNote := none,
                  stopSong := false }, [rmtOp.tx_stop]) := by
    unfold buzzer_stop
    simp [hm]
  induction idle with
  | nil => simp [buzzer_stop_wait, hm]
  | cons i rest ih =>
    cases i with
    | true => simp [buzzer_stop_wait, hm, hs]
    | false =>
      simp only [buzzer_stop_wait, hm, Bool.false_eq_true, if_false]
      obtain ⟨ih1, ih2, ih3⟩ := ih
      refine ⟨?_, ?_, ?_⟩
      · intro h
        exact ih1 (by simpa using h)
      · intro r hr
        obtain ⟨h1, h2⟩ := ih2 r hr
        exact ⟨h1, List.mem_cons_of_mem _ h2⟩
      · rw [ih3]
        simp

/-- C23. For every unmuted scheduler state: `buzzer_stop` returns as soon as the hardware
reports idle and only then (while every report of `rmt_wait_tx_done` says busy the call has
not returned, and a call that has returned has seen an idle report), and whenever it returns
it has issued one `rmt_tx_stop` and left both tracks empty (no song, index 0, start time 0),
no pending note and no stop request; a poll of the state it leaves issues no hardware
operation and changes nothing, whatever the clock and the hardware status. -/
theorem stop_clears_everything (b : rmt_buzzer_t) (hm : b.isMuted = false) :
    (∀ idle : List Bool, true ∈ idle → buzzer_stop_wait b idle = some (buzzer_stop b))
      ∧ (∀ (idle : List Bool) r, buzzer_stop_wait b idle = some r →
          r = buzzer_stop b ∧ true ∈ idle)
      ∧ (∀ idle : List Bool, buzzer_stop_wait b idle = none ↔ ∀ i ∈ idle, i = false)
      ∧ (∀ n : Nat, buzzer_stop_wait b (List.replicate n false) = none)
      ∧ (buzzer_stop b).2 = [rmtOp.tx_stop]
      ∧ (buzzer_stop b).1
          = { b with bgm := emptyTrack, sfx := emptyTrack, playNote := none, stopSong := false }
      ∧ (buzzer_stop b).1.bgm = ⟨none, 0, 0⟩ ∧ (buzzer_stop b).1.sfx = ⟨none, 0, 0⟩
      ∧ (buzzer_stop b).1.playNote = none ∧ (buzzer_stop b).1.stopSong = false
      ∧ ∀ cSfx cBgm idle, buzzer_check_next_note (buzzer_stop b).1 cSfx cBgm idle
          = some ((buzzer_stop b).1, []) := by
  have hs : buzzer_stop b
      = ({ b with bgm := ⟨none, 0, 0⟩, sfx := ⟨none, 0, 0⟩, playNote := none,
                  stopSong := false }, [rmtOp.tx_stop]) := by
    unfold buzzer_stop
    simp [hm]
  refine ⟨fun idle h => (buzzer_stop_wait_idle b hm idle).1 h,
    fun idle r h => (buzzer_stop_wait_idle b hm idle).2.1 r h,
    fun idle => (buzzer_stop_wait_idle b hm idle).2.2,
    fun n => (buzzer_stop_wait_idle b hm _).2.2.mpr fun i hi => (List.mem_replicate.mp hi).2,
    ?_, ?_, ?_, ?_, ?_, ?_, ?_⟩
  · rw [hs]
  · rw [hs]; rfl
  · rw [hs]
  · rw [hs]
  · rw [hs]
  · rw [hs]
  · intro cSfx cBgm idle
    rw [hs]
    unfold buzzer_check_next_note buzzer_track_check_next_note
    simp [hm]

/-- Witness for C23: `busyBuzzer`, with the hardware idle at the third report; after the two
busy reports alone the call has not returned. -/
theorem stop_clears_everything_witness :
    busyBuzzer.isMuted = false
      ∧ buzzer_stop_wait busyBuzzer [false, false, true] = some (buzzer_stop busyBuzzer)
      ∧ buzzer_stop_wait busyBuzzer [false, false] = none
      ∧ ((∀ idle : List Bool, true ∈ idle →
            buzzer_stop_wait busyBuzzer idle = some (buzzer_stop busyBuzzer))
        ∧ (∀ (idle : List Bool) r, buzzer_stop_wait busyBuzzer idle = some r →
            r = buzzer_stop busyBuzzer ∧ true ∈ idle)
        ∧ (∀ idle : List Bool,
            buzzer_stop_wait busyBuzzer idle = none ↔ ∀ i ∈ idle, i = false)
        ∧ (∀ n : Nat, buzzer_stop_wait busyBuzzer (List.replicate n false) = none)
        ∧ (buzzer_stop busyBuzzer).2 = [rmtOp.tx_stop]
        ∧ (buzzer_stop busyBuzzer).1
            = { busyBuzzer with
                bgm := emptyTrack, sfx := emptyTrack, playNote := none, stopSong := false }
        ∧ (buzzer_stop busyBuzzer).1.bgm = ⟨none, 0, 0⟩
        ∧ (buzzer_stop busyBuzzer).1.sfx = ⟨none, 0, 0⟩
        ∧ (buzzer_stop busyBuzzer).1.playNote = none
        ∧ (buzzer_stop busyBuzzer).1.stopSong = false
        ∧ ∀ cSfx cBgm idle, buzzer_check_next_note (buzzer_stop busyBuzzer).1 cSfx cBgm idle
            = some ((buzzer_stop busyBuzzer).1, [])) :=
  ⟨rfl, by decide, by decide, stop_clears_everything busyBuzzer rfl⟩


/-! ## Theorems: the tracked bpm button -/

/-- C24. The increment button is pressed in `metronomeAt60` at clock reading 10,000,000 us:
`bpm` becomes 61, the button is tracked and both held times are zero, but the recorded press
time is 0, not 10,000,000.  The first following poll, at clock reading 10,050,000 us, therefore
sets both held times to 10,050,000 us instead of 50,000 us and, being past every threshold,
applies a change of 3 at once, leaving `bpm = 64`. -/
theorem bpm_button_down_records_zero_press_time :
    tunernomeButtonCallback metronomeAt60 ⟨buttonBit_t.UP, true⟩ 10000000 = some heldAt61
      ∧ heldAt61.bpm = 61 ∧ heldAt61.lastBpmButton = some buttonBit_t.UP
      ∧ heldAt61.bpmButtonAccumulatedUs = 0 ∧ heldAt61.bpmButtonCurChangeUs = 0
      ∧ heldAt61.bpmButtonStartUs = 0
      ∧ (bpmButtonAccumulate heldAt61 50000 10050000).bpmButtonAccumulatedUs = 10050000
      ∧ (bpmButtonAccumulate heldAt61 50000 10050000).bpmButtonCurChangeUs = 10050000
      ∧ (tunernomeMainLoop heldAt61 50000 10050000).map (fun r => r.state.bpm) = some 64 := by
  decide

theorem mainLoop_metronome_tempo (t : tunernome_t) (e now : Int)
    (hmode : t.mode = tnMode.TN_METRONOME) (hsig : 0 ≤ t.tSigIdx ∧ t.tSigIdx < 8) :
    ∃ (t1 : tunernome_t) (tick : Option song_t) (quit : Bool), sameTempo t t1
      ∧ tunernomeMainLoop t e now
          = (mainLoopBpmButton t1 e now).map fun t4 => ⟨t4, tick, quit⟩ := by
  have hx := mainLoopExit_fields t e now
  have hq : mainLoopExit t e now = ((mainLoopExit t e now).1, (mainLoopExit t e now).2) := rfl
  have hq2 : mainLoopSweep (mainLoopBlink (mainLoopExit t e now).1 e now) e
      = ((mainLoopSweep (mainLoopBlink (mainLoopExit t e now).1 e now) e).1,
         (mainLoopSweep (mainLoopBlink (mainLoopExit t e now).1 e now) e).2) := rfl
  have h0 : sameTempo t (mainLoopExit t e now).1 := by
    rw [hx]; exact ⟨⟨rfl, rfl, rfl, rfl, rfl, rfl, rfl⟩, rfl⟩
  have h1 : sameTempo t (mainLoopBlink (mainLoopExit t e now).1 e now) := by
    rw [mainLoopBlink_fields]; exact h0
  have h2 : sameTempo t (mainLoopSweep (mainLoopBlink (mainLoopExit t e now).1 e now) e).1 := by
    rw [mainLoopSweep_fields]; exact h1
  have hm0 : (mainLoopExit t e now).1.mode = tnMode.TN_METRONOME := by rw [h0.1.1, hmode]
  obtain ⟨sig0, hs0⟩ := mainLoopExit_tSigs_read t e now hsig
  unfold tunernomeMainLoop
  rw [hq]
  simp only [hm0, hs0]
  rw [hq2]
  simp only
  by_cases hb : (mainLoopSweep (mainLoopBlink (mainLoopExit t e now).1 e now) e).2 = true
  · rw [if_pos hb]
    obtain ⟨t3, song, h3⟩ := mainLoopTick_defined
      (mainLoopSweep (mainLoopBlink (mainLoopExit t e now).1 e now) e).1 now
      (by rw [h2.1.2.1]; exact hsig)
    have h4 := mainLoopTick_fields _ _ _ _ h3
    refine ⟨t3, some song, (mainLoopExit t e now).2, ?_, ?_⟩
    · rw [h4]; exact h2
    · rw [h3]
  · rw [if_neg hb]
    exact ⟨_, none, (mainLoopExit t e now).2, h2, rfl⟩

theorem modifyBpm_step (t : tunernome_t) (x : Int) (hb : 1 ≤ t.bpm ∧ t.bpm ≤ 400)
    (hx : -3 ≤ x ∧ x ≤ 3) :
    modifyBpm t x = some { t with
      bpm := max 1 (min 400 (t.bpm + x))
      usPerBeat := 60000000 / max 1 (min 400 (t.bpm + x)) } := by
  have h16 : toInt16 x = x := toInt16_of_range x (by omega) (by omega)
  have h32 : toInt32 (t.bpm + x) = t.bpm + x := toInt32_of_range _ (by omega) (by omega)
  have hc : CLAMP (t.bpm + x) 1 MAX_BPM = max 1 (min 400 (t.bpm + x)) :=
    CLAMP_eq_max_min _ 1 400 (by norm_num)
  have hr : 1 ≤ max 1 (min 400 (t.bpm + x)) ∧ max 1 (min 400 (t.bpm + x)) ≤ 400 := by
    constructor
    · exact le_max_left _ _
    · exact max_le (by norm_num) (min_le_left _ _)
  rw [modifyBpm_some, h16, h32, hc, (usPerBeat_bounds _ hr.1 hr.2).1]

theorem bpmButtonRepeat_tracked (t : tunernome_t) (btn : buttonBit_t)
    (hbtn : t.lastBpmButton = some btn)
    (hud : btn = buttonBit_t.UP ∨ btn = buttonBit_t.DOWN) (hb : 1 ≤ t.bpm ∧ t.bpm ≤ 400) :
    bpmButtonRepeat t =
      if t.bpmButtonAccumulatedUs ≥ 500000 ∧ t.bpmButtonCurChangeUs ≥ 50000 then
        some { t with
          bpm := max 1 (min 400 (t.bpm + bpmSign btn * bpmStepSize t.bpmButtonAccumulatedUs))
          usPerBeat := 60000000 /
            max 1 (min 400 (t.bpm + bpmSign btn * bpmStepSize t.bpmButtonAccumulatedUs))
          bpmButtonCurChangeUs := 0 }
      else some t := by
  have hF : BPM_CHANGE_FIRST_MS * 1000 = 500000 := by decide
  have hR : BPM_CHANGE_REPEAT_MS * 1000 = 50000 := by decide
  have hQ : BPM_CHANGE_FAST_MS * 1000 = 2000000 := by decide
  unfold bpmButtonRepeat
  rw [hF, hR, hQ]
  by_cases h1 : t.bpmButtonAccumulatedUs ≥ 500000
  · by_cases h2 : t.bpmButtonCurChangeUs ≥ 50000
    · rw [if_pos h1, if_pos h2, if_pos (And.intro h1 h2)]
      dsimp only
      have hs : -3 ≤ bpmStepSize t.bpmButtonAccumulatedUs
          ∧ bpmStepSize t.bpmButtonAccumulatedUs ≤ 3
          ∧ 0 ≤ bpmStepSize t.bpmButtonAccumulatedUs := by
        unfold bpmStepSize; split_ifs <;> omega
      have hsz : (if t.bpmButtonAccumulatedUs ≥ 2000000 then (3 : Int) else 1)
          = bpmStepSize t.bpmButtonAccumulatedUs := rfl
      rw [hsz]
      rcases hud with h | h
      · subst h
        have hsg : bpmSign buttonBit_t.UP = 1 := by decide
        have hmt : (match t.lastBpmButton with
            | some buttonBit_t.UP => modifyBpm t (bpmStepSize t.bpmButtonAccumulatedUs)
            | some buttonBit_t.DOWN => modifyBpm t (-bpmStepSize t.bpmButtonAccumulatedUs)
            | _ => some t) = modifyBpm t (bpmStepSize t.bpmButtonAccumulatedUs) := by
          rw [hbtn]
        rw [hmt, hsg, one_mul, modifyBpm_step t _ hb ⟨hs.1, hs.2.1⟩]
        rfl
      · subst h
        have hsg : bpmSign buttonBit_t.DOWN = -1 := by decide
        have hmt : (match t.lastBpmButton with
            | some buttonBit_t.UP => modifyBpm t (bpmStepSize t.bpmButtonAccumulatedUs)
            | some buttonBit_t.DOWN => modifyBpm t (-bpmStepSize t.bpmButtonAccumulatedUs)
            | _ => some t) = modifyBpm t (-bpmStepSize t.bpmButtonAccumulatedUs) := by
          rw [hbtn]
        rw [hmt, hsg, neg_one_mul, modifyBpm_step t _ hb ⟨by omega, by omega⟩]
        rfl
    · rw [if_pos h1, if_neg h2, if_neg (fun h => h2 h.2)]
  · rw [if_neg h1, if_neg (fun h => h1 h.1)]

/-- C25. In a metronome-mode main-loop call with the time-signature index inside the table,
`bpm` in [1, 400] and the increment or decrement button tracked, let total-held and phase-held
be the two held times after they have been accumulated.  The call is defined and keeps the
button tracked; if total-held >= 500,000 us and phase-held >= 50,000 us it applies one bpm
change of size 3 when total-held >= 2,000,000 us and 1 otherwise, with the sign of the tracked
button and clamped to [1, 400], recomputes `usPerBeat` and resets phase-held to 0; otherwise
`bpm` and `usPerBeat` are unchanged and phase-held keeps its accumulated value. -/
theorem bpm_repeat_thresholds (t : tunernome_t) (e now : Int) (btn : buttonBit_t)
    (hmode : t.mode = tnMode.TN_METRONOME) (hsig : 0 ≤ t.tSigIdx ∧ t.tSigIdx < 8)
    (hbtn : t.lastBpmButton = some btn)
    (hud : btn = buttonBit_t.UP ∨ btn = buttonBit_t.DOWN) (hb : 1 ≤ t.bpm ∧ t.bpm ≤ 400) :
    ∃ r, tunernomeMainLoop t e now = some r
      ∧ r.state.lastBpmButton = some btn
      ∧ r.state.bpmButtonAccumulatedUs = (bpmButtonAccumulate t e now).bpmButtonAccumulatedUs
      ∧ (((bpmButtonAccumulate t e now).bpmButtonAccumulatedUs ≥ 500000
            ∧ (bpmButtonAccumulate t e now).bpmButtonCurChangeUs ≥ 50000) →
          r.state.bpm = max 1 (min 400 (t.bpm + bpmSign btn
              * bpmStepSize (bpmButtonAccumulate t e now).bpmButtonAccumulatedUs))
            ∧ r.state.usPerBeat = 60000000 / r.state.bpm
            ∧ r.state.bpmButtonCurChangeUs = 0)
      ∧ (¬ ((bpmButtonAccumulate t e now).bpmButtonAccumulatedUs ≥ 500000
            ∧ (bpmButtonAccumulate t e now).bpmButtonCurChangeUs ≥ 50000) →
          r.state.bpm = t.bpm ∧ r.state.usPerBeat = t.usPerBeat
            ∧ r.state.bpmButtonCurChangeUs
                = (bpmButtonAccumulate t e now).bpmButtonCurChangeUs) := by
  obtain ⟨t1, tick, quit, ⟨⟨h1, h2, h3, h4, h5, h6, h7⟩, h8⟩, hrun⟩ :=
    mainLoop_metronome_tempo t e now hmode hsig
  have hacc : (bpmButtonAccumulate t1 e now).bpmButtonAccumulatedUs
      = (bpmButtonAccumulate t e now).bpmButtonAccumulatedUs := by
    unfold bpmButtonAccumulate
    rw [h5, h4, h6]
    split_ifs <;> rfl
  have hcur : (bpmButtonAccumulate t1 e now).bpmButtonCurChangeUs
      = (bpmButtonAccumulate t e now).bpmButtonCurChangeUs := by
    unfold bpmButtonAccumulate
    rw [h5, h4, h6]
    split_ifs <;> rfl
  have hf := bpmButtonAccumulate_fields t1 e now
  have hrep := bpmButtonRepeat_tracked (bpmButtonAccumulate t1 e now) btn
    (by rw [hf]; show t1.lastBpmButton = some btn; rw [h3, hbtn]) hud
    (by rw [hf]; show 1 ≤ t1.bpm ∧ t1.bpm ≤ 400; rw [h7]; exact hb)
  have hbpm1 : (bpmButtonAccumulate t1 e now).bpm = t.bpm := by
    rw [hf]; exact h7
  have hus1 : (bpmButtonAccumulate t1 e now).usPerBeat = t.usPerBeat := by
    rw [hf]; exact h8
  have hlb1 : (bpmButtonAccumulate t1 e now).lastBpmButton = some btn := by
    rw [hf]; show t1.lastBpmButton = some btn; rw [h3, hbtn]
  have hloop : mainLoopBpmButton t1 e now = bpmButtonRepeat (bpmButtonAccumulate t1 e now) := by
    unfold mainLoopBpmButton
    rw [if_pos (by rw [h3, hbtn]; simp)]
  rw [hrun, hloop, hrep]
  by_cases hc : (bpmButtonAccumulate t e now).bpmButtonAccumulatedUs ≥ 500000
      ∧ (bpmButtonAccumulate t e now).bpmButtonCurChangeUs ≥ 50000
  · rw [if_pos (by rw [hacc, hcur]; exact hc)]
    refine ⟨_, rfl, hlb1, hacc, fun _ => ⟨?_, rfl, rfl⟩, fun hn => absurd hc hn⟩
    show max 1 (min 400 ((bpmButtonAccumulate t1 e now).bpm + _)) = _
    rw [hbpm1, hacc]
  · rw [if_neg (by rw [hacc, hcur]; exact hc)]
    exact ⟨_, rfl, hlb1, hacc, fun h => absurd h hc, fun _ => ⟨hbpm1, hus1, hcur⟩⟩

/-- Witness for C25: the increment button tracked in `heldAt61`, first poll at 600,000 us. -/
theorem bpm_repeat_thresholds_witness :
    heldAt61.mode = tnMode.TN_METRONOME ∧ (0 ≤ heldAt61.tSigIdx ∧ heldAt61.tSigIdx < 8)
      ∧ heldAt61.lastBpmButton = some buttonBit_t.UP
      ∧ (1 ≤ heldAt61.bpm ∧ heldAt61.bpm ≤ 400)
      ∧ ∃ r, tunernomeMainLoop heldAt61 50000 600000 = some r
        ∧ r.state.lastBpmButton = some buttonBit_t.UP
        ∧ r.state.bpmButtonAccumulatedUs
            = (bpmButtonAccumulate heldAt61 50000 600000).bpmButtonAccumulatedUs
        ∧ (((bpmButtonAccumulate heldAt61 50000 600000).bpmButtonAccumulatedUs ≥ 500000
              ∧ (bpmButtonAccumulate heldAt61 50000 600000).bpmButtonCurChangeUs ≥ 50000) →
            r.state.bpm = max 1 (min 400 (heldAt61.bpm + bpmSign buttonBit_t.UP
                * bpmStepSize (bpmButtonAccumulate heldAt61 50000 600000).bpmButtonAccumulatedUs))
              ∧ r.state.usPerBeat = 60000000 / r.state.bpm
              ∧ r.state.bpmButtonCurChangeUs = 0)
        ∧ (¬ ((bpmButtonAccumulate heldAt61 50000 600000).bpmButtonAccumulatedUs ≥ 500000
              ∧ (bpmButtonAccumulate heldAt61 50000 600000).bpmButtonCurChangeUs ≥ 50000) →
            r.state.bpm = heldAt61.bpm ∧ r.state.usPerBeat = heldAt61.usPerBeat
              ∧ r.state.bpmButtonCurChangeUs
                  = (bpmButtonAccumulate heldAt61 50000 600000).bpmButtonCurChangeUs) :=
  ⟨rfl, by decide, rfl, by decide,
    bpm_repeat_thresholds heldAt61 50000 600000 buttonBit_t.UP rfl (by decide) rfl
      (Or.inl rfl) (by decide)⟩

/-- C26. In metronome mode a button-up of the increment or decrement button that is not
the tracked button leaves the whole state unchanged; a button-up of the tracked button clears
the tracked button and zeroes the press time and both held times, and changes nothing else.
Neither changes `bpm` or `usPerBeat`. -/
theorem button_up_disarms_only_on_match (t : tunernome_t) (btn : buttonBit_t) (now : Int)
    (hmode : t.mode = tnMode.TN_METRONOME)
    (hud : btn = buttonBit_t.UP ∨ btn = buttonBit_t.DOWN) :
    (t.lastBpmButton ≠ some btn → tunernomeButtonCallback t ⟨btn, false⟩ now = some t)
      ∧ (t.lastBpmButton = some btn →
          tunernomeButtonCallback t ⟨btn, false⟩ now
            = some { t with
                lastBpmButton := none
                bpmButtonStartUs := 0
                bpmButtonCurChangeUs := 0
                bpmButtonAccumulatedUs := 0 })
      ∧ ∃ t1, tunernomeButtonCallback t ⟨btn, false⟩ now = some t1
          ∧ t1.bpm = t.bpm ∧ t1.usPerBeat = t.usPerBeat := by
  have hcall : tunernomeButtonCallback t ⟨btn, false⟩ now =
      if some btn = t.lastBpmButton then
        some { t with
          lastBpmButton := none
          bpmButtonStartUs := 0
          bpmButtonCurChangeUs := 0
          bpmButtonAccumulatedUs := 0 }
      else some t := by
    unfold tunernomeButtonCallback
    rcases hud with h | h <;> subst h <;> simp [hmode]
  by_cases hl : t.lastBpmButton = some btn
  · rw [hcall, if_pos hl.symm]
    exact ⟨fun h => absurd hl h, fun _ => rfl, _, rfl, rfl, rfl⟩
  · rw [hcall, if_neg (fun h => hl h.symm)]
    exact ⟨fun _ => rfl, fun h => absurd h hl, _, rfl, rfl, rfl⟩

/-- Witness for C26: the increment button released while it is tracked in `heldAt61`. -/
theorem button_up_disarms_only_on_match_witness :
    heldAt61.mode = tnMode.TN_METRONOME
      ∧ ((heldAt61.lastBpmButton ≠ some buttonBit_t.UP →
            tunernomeButtonCallback heldAt61 ⟨buttonBit_t.UP, false⟩ 700000 = some heldAt61)
        ∧ (heldAt61.lastBpmButton = some buttonBit_t.UP →
            tunernomeButtonCallback heldAt61 ⟨buttonBit_t.UP, false⟩ 700000
              = some { heldAt61 with
                  lastBpmButton := none
                  bpmButtonStartUs := 0
                  bpmButtonCurChangeUs := 0
                  bpmButtonAccumulatedUs := 0 })
        ∧ ∃ t1, tunernomeButtonCallback heldAt61 ⟨buttonBit_t.UP, false⟩ 700000 = some t1
            ∧ t1.bpm = heldAt61.bpm ∧ t1.usPerBeat = heldAt61.usPerBeat) :=
  ⟨rfl, button_up_disarms_only_on_match heldAt61 buttonBit_t.UP 700000 rfl (Or.inl rfl)⟩


/-! ## Theorems: the time-signature index -/

/-- C27. Eight presses of the time-signature button in `metronomeAt60` leave the
time-signature index at 8, the length of the table `tSigs`, because the index is advanced
modulo `sizeof(tSigs) = 16`; the next tick reads `tSigs[8]`, outside the table, so the
main-loop call that emits it is undefined.  The text line of the metronome display reads the
same entry, so a main-loop call that emits no tick (1,000 us elapsed) is undefined as well. -/
theorem time_signature_index_leaves_table :
    tSigs.length = 8 ∧ sizeof_tSigs = 16
      ∧ tnRun metronomeAt60 (timeSignaturePresses 8 2000000)
          = some { metronomeAt60 with tSigIdx := 8 }
      ∧ tSigs[8]? = none
      ∧ tunernomeMainLoop { metronomeAt60 with tSigIdx := 8 } 1000000 3000000 = none
      ∧ mainLoopTick { metronomeAt60 with tSigIdx := 8 } 3000000 = none
      ∧ (mainLoopSweep { metronomeAt60 with tSigIdx := 8 } 1000).2 = false
      ∧ tunernomeMainLoop { metronomeAt60 with tSigIdx := 8 } 1000 3000000 = none := by
  decide


/-! ## Theorems: the sweep of the metronome arm -/

theorem mainLoopSweep_congr (s t : tunernome_t) (e : Int)
    (h1 : s.isClockwise = t.isClockwise) (h2 : s.tAccumulatedUs = t.tAccumulatedUs)
    (h3 : s.usPerBeat = t.usPerBeat) :
    (mainLoopSweep s e).1.tAccumulatedUs = (mainLoopSweep t e).1.tAccumulatedUs
      ∧ (mainLoopSweep s e).1.isClockwise = (mainLoopSweep t e).1.isClockwise
      ∧ (mainLoopSweep s e).2 = (mainLoopSweep t e).2 := by
  unfold mainLoopSweep
  dsimp only
  rw [h1, h2, h3]
  split_ifs <;> exact ⟨rfl, rfl, rfl⟩

theorem mainLoop_metronome_sweep (t : tunernome_t) (e now : Int)
    (hmode : t.mode = tnMode.TN_METRONOME) (hsig : 0 ≤ t.tSigIdx ∧ t.tSigIdx < 8)
    (hbtn : t.lastBpmButton = none) :
    ∃ r, tunernomeMainLoop t e now = some r
      ∧ sameSweep (mainLoopSweep t e).1 r.state
      ∧ r.tick.isSome = (mainLoopSweep t e).2 := by
  have hx := mainLoopExit_fields t e now
  have hq : mainLoopExit t e now = ((mainLoopExit t e now).1, (mainLoopExit t e now).2) := rfl
  have hq2 : mainLoopSweep (mainLoopBlink (mainLoopExit t e now).1 e now) e
      = ((mainLoopSweep (mainLoopBlink (mainLoopExit t e now).1 e now) e).1,
         (mainLoopSweep (mainLoopBlink (mainLoopExit t e now).1 e now) e).2) := rfl
  have h0 : sameSweep t (mainLoopExit t e now).1 := by
    rw [hx]; exact ⟨rfl, rfl, rfl, rfl, rfl, rfl, rfl⟩
  have h1 : sameSweep t (mainLoopBlink (mainLoopExit t e now).1 e now) := by
    rw [mainLoopBlink_fields]; exact h0
  obtain ⟨c1, c2, c3⟩ := mainLoopSweep_congr (mainLoopBlink (mainLoopExit t e now).1 e now) t e
    h1.2.2.2.2.2.2 h1.2.2.2.2.2.1 h1.2.2.2.2.1
  have h2 : sameSweep (mainLoopSweep t e).1
      (mainLoopSweep (mainLoopBlink (mainLoopExit t e now).1 e now) e).1 := by
    obtain ⟨a1, a2, a3, a4, a5, _, _⟩ := h1
    refine ⟨?_, ?_, ?_, ?_, ?_, c1, c2⟩
    · rw [mainLoopSweep_fields, mainLoopSweep_fields t]; exact a1
    · rw [mainLoopSweep_fields, mainLoopSweep_fields t]; exact a2
    · rw [mainLoopSweep_fields, mainLoopSweep_fields t]; exact a3
    · rw [mainLoopSweep_fields, mainLoopSweep_fields t]; exact a4
    · rw [mainLoopSweep_fields, mainLoopSweep_fields t]; exact a5
  have hmt : (mainLoopSweep t e).1.mode = t.mode := by rw [mainLoopSweep_fields]
  have hst : (mainLoopSweep t e).1.tSigIdx = t.tSigIdx := by rw [mainLoopSweep_fields]
  have hbt : (mainLoopSweep t e).1.lastBpmButton = t.lastBpmButton := by
    rw [mainLoopSweep_fields]
  have hm0 : (mainLoopExit t e now).1.mode = tnMode.TN_METRONOME := by rw [h0.1, hmode]
  obtain ⟨sig0, hs0⟩ := mainLoopExit_tSigs_read t e now hsig
  unfold tunernomeMainLoop
  rw [hq]
  simp only [hm0, hs0]
  rw [hq2]
  simp only
  by_cases hb : (mainLoopSweep (mainLoopBlink (mainLoopExit t e now).1 e now) e).2 = true
  · rw [if_pos hb]
    obtain ⟨t3, song, h3⟩ := mainLoopTick_defined
      (mainLoopSweep (mainLoopBlink (mainLoopExit t e now).1 e now) e).1 now
      (by rw [h2.2.1, hst]; exact hsig)
    have h4 := mainLoopTick_fields _ _ _ _ h3
    have h5 : sameSweep (mainLoopSweep t e).1 t3 := by rw [h4]; exact h2
    have h6 : mainLoopBpmButton t3 e now = some t3 := by
      unfold mainLoopBpmButton
      rw [if_neg (by rw [h5.2.2.1, hbt, hbtn]; simp)]
    rw [h3]
    simp only [h6, Option.map_some']
    exact ⟨_, rfl, h5, by rw [← c3, hb]; rfl⟩
  · rw [if_neg hb]
    have h6 : mainLoopBpmButton
        (mainLoopSweep (mainLoopBlink (mainLoopExit t e now).1 e now) e).1 e now
        = some (mainLoopSweep (mainLoopBlink (mainLoopExit t e now).1 e now) e).1 := by
      unfold mainLoopBpmButton
      rw [if_neg (by rw [h2.2.2.1, hbt, hbtn]; simp)]
    simp only [h6, Option.map_some']
    refine ⟨_, rfl, h2, ?_⟩
    rw [← c3]
    simp only [Bool.not_eq_true] at hb
    rw [hb]
    rfl

theorem sweep_arm_step (U : Int) (k : Nat) (o e : Int) (t : tunernome_t)
    (hU : 0 < U ∧ U ≤ 1073741824) (h : sweepPhase U k o t) (he : 0 ≤ e ∧ e ≤ U) :
    (o + e < U → (mainLoopSweep t e).2 = false
        ∧ (mainLoopSweep t e).1.isClockwise = decide (k % 2 = 0)
        ∧ (mainLoopSweep t e).1.tAccumulatedUs
            = (if (mainLoopSweep t e).1.isClockwise then o + e else U - (o + e)))
      ∧ (U ≤ o + e → (mainLoopSweep t e).2 = true
        ∧ (mainLoopSweep t e).1.isClockwise = decide ((k + 1) % 2 = 0)
        ∧ (mainLoopSweep t e).1.tAccumulatedUs
            = (if (mainLoopSweep t e).1.isClockwise then o + e - U else U - (o + e - U))) := by
  obtain ⟨_, _, _, hus, ho, hcw, hacc⟩ := h
  obtain ⟨hU0, hU1⟩ := hU
  obtain ⟨he0, he1⟩ := he
  obtain ⟨ho0, ho1⟩ := ho
  by_cases hk : k % 2 = 0
  · have hk1 : ¬ (k + 1) % 2 = 0 := by omega
    have hc : t.isClockwise = true := by rw [hcw]; simp [hk]
    rw [hc] at hacc
    simp only [if_true] at hacc
    have h32 : toInt32 (o + e) = o + e := toInt32_of_range _ (by omega) (by omega)
    unfold mainLoopSweep
    simp only [hc, if_true, hacc, hus, h32]
    constructor
    · intro hlt
      rw [if_neg (by omega)]
      simp [hk]
    · intro hge
      have h33 : toInt32 (U - (o + e - U)) = U - (o + e - U) :=
        toInt32_of_range _ (by omega) (by omega)
      rw [if_pos (by omega), h33]
      simp [hk1]
  · have hk1 : (k + 1) % 2 = 0 := by omega
    have hc : t.isClockwise = false := by rw [hcw]; simp [hk]
    rw [hc] at hacc
    simp only [Bool.false_eq_true, if_false] at hacc
    have h32 : toInt32 (U - o - e) = U - o - e := toInt32_of_range _ (by omega) (by omega)
    have h33 : toInt32 (-(U - o - e)) = -(U - o - e) :=
      toInt32_of_range _ (by omega) (by omega)
    unfold mainLoopSweep
    simp only [hc, Bool.false_eq_true, if_false, hacc, hus, h32]
    constructor
    · intro hlt
      rw [if_neg (by omega)]
      simp [hk]
      omega
    · intro hge
      rw [if_pos (by omega), h33]
      simp [hk1]
      omega

theorem sweep_poll_step (U : Int) (k : Nat) (o e now : Int) (t : tunernome_t)
    (hU : 0 < U ∧ U ≤ 1073741824) (h : sweepPhase U k o t) (he : 0 ≤ e ∧ e ≤ U) :
    ∃ r, tunernomeMainLoop t e now = some r
      ∧ ((o + e < U ∧ r.tick.isSome = false ∧ sweepPhase U k (o + e) r.state)
        ∨ (U ≤ o + e ∧ r.tick.isSome = true ∧ sweepPhase U (k + 1) (o + e - U) r.state)) := by
  have hstep := sweep_arm_step U k o e t hU h he
  obtain ⟨hmode, hsig, hbtn, hus, ho, hcw, hacc⟩ := h
  obtain ⟨r, hr, ⟨s1, s2, s3, s4, s5, s6, s7⟩, htick⟩ :=
    mainLoop_metronome_sweep t e now hmode hsig hbtn
  have f1 : (mainLoopSweep t e).1.mode = t.mode := by rw [mainLoopSweep_fields]
  have f2 : (mainLoopSweep t e).1.tSigIdx = t.tSigIdx := by rw [mainLoopSweep_fields]
  have f3 : (mainLoopSweep t e).1.lastBpmButton = t.lastBpmButton := by
    rw [mainLoopSweep_fields]
  have f5 : (mainLoopSweep t e).1.usPerBeat = t.usPerBeat := by rw [mainLoopSweep_fields]
  refine ⟨r, hr, ?_⟩
  by_cases hlt : o + e < U
  · obtain ⟨a1, a2, a3⟩ := hstep.1 hlt
    left
    refine ⟨hlt, by rw [htick, a1], ?_⟩
    refine ⟨by rw [s1, f1, hmode], by rw [s2, f2]; exact hsig, by rw [s3, f3, hbtn],
      by rw [s5, f5, hus], ⟨by omega, hlt⟩, by rw [s7, a2], ?_⟩
    rw [s6, s7, a3]
  · obtain ⟨a1, a2, a3⟩ := hstep.2 (by omega)
    right
    refine ⟨by omega, by rw [htick, a1], ?_⟩
    refine ⟨by rw [s1, f1, hmode], by rw [s2, f2]; exact hsig, by rw [s3, f3, hbtn],
      by rw [s5, f5, hus], ⟨by omega, by omega⟩, by rw [s7, a2], ?_⟩
    rw [s6, s7, a3]

theorem tickCount_cons (x : Option song_t) (outs : List (Option song_t)) :
    tickCount (x :: outs) = (if x.isSome then 1 else 0) + tickCount outs := by
  unfold tickCount
  cases x <;> simp [List.filter_cons]
  omega

theorem elapsedUs_cons (p : Int × Int) (polls : List (Int × Int)) :
    elapsedUs (p :: polls) = p.1 + elapsedUs polls := by
  simp [elapsedUs]

theorem pollMain_sweep (U : Int) (hU : 0 < U ∧ U ≤ 1073741824) (polls : List (Int × Int)) :
    ∀ (k : Nat) (o : Int) (t : tunernome_t), sweepPhase U k o t →
      (∀ p ∈ polls, 0 ≤ p.1 ∧ p.1 ≤ U) →
      ∃ t1 outs o1, pollMain t polls = some (t1, outs) ∧ outs.length = polls.length
        ∧ sweepPhase U (k + tickCount outs) o1 t1
        ∧ ((k + tickCount outs : Nat) : Int) * U + o1 = (k : Int) * U + o + elapsedUs polls
        ∧ ∀ n : Nat, ∃ o2 : Int, 0 ≤ o2 ∧ o2 < U
            ∧ ((k + tickCount (outs.take n) : Nat) : Int) * U + o2
                = (k : Int) * U + o + elapsedUs (polls.take n) := by
  induction polls with
  | nil =>
    intro k o t h _
    refine ⟨t, [], o, rfl, rfl, by simpa [tickCount] using h, by simp [tickCount, elapsedUs], ?_⟩
    intro n
    exact ⟨o, h.2.2.2.2.1.1, h.2.2.2.2.1.2, by simp [tickCount, elapsedUs]⟩
  | cons p ps ih =>
    intro k o t h hp
    obtain ⟨e, now⟩ := p
    have he : 0 ≤ e ∧ e ≤ U := hp (e, now) (List.mem_cons_self _ _)
    have hps : ∀ q ∈ ps, 0 ≤ q.1 ∧ q.1 ≤ U := fun q hq => hp q (List.mem_cons_of_mem _ hq)
    obtain ⟨r, hr, hcase⟩ := sweep_poll_step U k o e now t hU h he
    rcases hcase with ⟨hlt, htick, hph⟩ | ⟨hge, htick, hph⟩
    · obtain ⟨t1, outs, o1, hrun, hlen, hph1, hsum, hpre⟩ := ih k (o + e) r.state hph hps
      have hc : tickCount (r.tick :: outs) = tickCount outs := by
        rw [tickCount_cons, htick]; simp
      refine ⟨t1, r.tick :: outs, o1, ?_, by simp [hlen], by rw [hc]; exact hph1, ?_, ?_⟩
      · simp only [pollMain, hr, hrun]
      · rw [hc, hsum, elapsedUs_cons]; ring
      · intro n
        cases n with
        | zero =>
          exact ⟨o, h.2.2.2.2.1.1, h.2.2.2.2.1.2, by simp [tickCount, elapsedUs]⟩
        | succ m =>
          obtain ⟨o2, h0, h1, h2⟩ := hpre m
          refine ⟨o2, h0, h1, ?_⟩
          have hc2 : tickCount ((r.tick :: outs).take (m + 1)) = tickCount (outs.take m) := by
            rw [List.take_succ_cons, tickCount_cons, htick]; simp
          rw [hc2, h2, List.take_succ_cons, elapsedUs_cons]
          ring
    · obtain ⟨t1, outs, o1, hrun, hlen, hph1, hsum, hpre⟩ :=
        ih (k + 1) (o + e - U) r.state hph hps
      have hc : tickCount (r.tick :: outs) = 1 + tickCount outs := by
        rw [tickCount_cons, htick]; simp
      have hk : k + (1 + tickCount outs) = k + 1 + tickCount outs := by omega
      refine ⟨t1, r.tick :: outs, o1, ?_, by simp [hlen], by rw [hc, hk]; exact hph1, ?_, ?_⟩
      · simp only [pollMain, hr, hrun]
      · rw [hc, hk, hsum, elapsedUs_cons]; push_cast; ring
      · intro n
        cases n with
        | zero =>
          exact ⟨o, h.2.2.2.2.1.1, h.2.2.2.2.1.2, by simp [tickCount, elapsedUs]⟩
        | succ m =>
          obtain ⟨o2, h0, h1, h2⟩ := hpre m
          refine ⟨o2, h0, h1, ?_⟩
          have hc2 : tickCount ((r.tick :: outs).take (m + 1))
              = 1 + tickCount (outs.take m) := by
            rw [List.take_succ_cons, tickCount_cons, htick]; simp
          have hk2 : k + (1 + tickCount (outs.take m)) = k + 1 + tickCount (outs.take m) := by
            omega
          rw [hc2, hk2, h2, List.take_succ_cons, elapsedUs_cons]
          push_cast
          ring

theorem floor_of_decomposition (U S o : Int) (k : Nat) (hU : 0 < U) (ho : 0 ≤ o ∧ o < U)
    (h : (k : Int) * U + o = S) : S / U = k ∧ S % U = o := by
  subst h
  constructor
  · rw [Int.add_comm, Int.add_mul_ediv_right _ _ (by omega), Int.ediv_eq_zero_of_lt ho.1 ho.2]
    simp
  · rw [Int.add_comm, Int.add_mul_emod_self, Int.emod_eq_of_lt ho.1 ho.2]

theorem tickCount_take_succ (outs : List (Option song_t)) (n : Nat) :
    tickCount (outs.take n) ≤ tickCount (outs.take (n + 1))
      ∧ tickCount (outs.take (n + 1)) ≤ tickCount (outs.take n) + 1 := by
  induction outs generalizing n with
  | nil => simp [tickCount]
  | cons x xs ih =>
    cases n with
    | zero =>
      simp only [List.take_zero, List.take_succ_cons, tickCount_cons]
      simp [tickCount]
      split_ifs <;> omega
    | succ m =>
      simp only [List.take_succ_cons, tickCount_cons]
      have := ih m
      omega

/-- C28. In metronome mode with beat length `usPerBeat = U`, `0 < U <= 2^30` (every beat
length `60,000,000 div bpm` lies in this range), no bpm button tracked, the time-signature index
inside the table and the arm starting forward at `tAccumulatedUs = 0`: every run of main-loop
calls whose elapsed times lie in `[0, U]` is defined, and for every `n` the number of ticks
emitted by the first `n` calls is `floor(T_n / U)`, with `T_n` the sum of their elapsed times.
No call emits more than one tick, and after the run the arm sweeps forward exactly when the
number of ticks is even, at position `T mod U` going forward and `U - T mod U` going backward,
so no overshoot is lost at a direction change. -/
theorem metronome_is_drift_free (U : Int) (t : tunernome_t) (polls : List (Int × Int))
    (hU : 0 < U ∧ U ≤ 1073741824) (hmode : t.mode = tnMode.TN_METRONOME)
    (hsig : 0 ≤ t.tSigIdx ∧ t.tSigIdx < 8) (hbtn : t.lastBpmButton = none)
    (hus : t.usPerBeat = U) (hcw : t.isClockwise = true) (hacc : t.tAccumulatedUs = 0)
    (he : ∀ p ∈ polls, 0 ≤ p.1 ∧ p.1 ≤ U) :
    ∃ t1 outs, pollMain t polls = some (t1, outs) ∧ outs.length = polls.length
      ∧ (∀ n : Nat, (tickCount (outs.take n) : Int) = elapsedUs (polls.take n) / U)
      ∧ (∀ n : Nat, tickCount (outs.take (n + 1)) ≤ tickCount (outs.take n) + 1)
      ∧ (tickCount outs : Int) = elapsedUs polls / U
      ∧ t1.usPerBeat = U
      ∧ t1.isClockwise = decide (tickCount outs % 2 = 0)
      ∧ t1.tAccumulatedUs
          = (if t1.isClockwise then elapsedUs polls % U else U - elapsedUs polls % U) := by
  have h0 : sweepPhase U 0 0 t :=
    ⟨hmode, hsig, hbtn, hus, ⟨le_refl 0, hU.1⟩, by rw [hcw]; rfl, by rw [hcw, hacc]; rfl⟩
  obtain ⟨t1, outs, o1, hrun, hlen, hph, hsum, hpre⟩ := pollMain_sweep U hU polls 0 0 t h0 he
  obtain ⟨_, _, _, hus1, ho1, hcw1, hacc1⟩ := hph
  simp only [Nat.zero_add] at hcw1 hsum hpre
  have hfin := floor_of_decomposition U (elapsedUs polls) o1 (tickCount outs) hU.1 ho1
    (by rw [hsum]; simp)
  refine ⟨t1, outs, hrun, hlen, ?_, fun n => (tickCount_take_succ outs n).2, hfin.1.symm,
    hus1, hcw1, by rw [hacc1, hfin.2]⟩
  intro n
  obtain ⟨o2, a0, a1, a2⟩ := hpre n
  exact (floor_of_decomposition U _ o2 _ hU.1 ⟨a0, a1⟩ (by rw [a2]; simp)).1.symm

/-- Witness for C28: six calls of 500,000 us at 60 bpm, `U = 1,000,000`. -/
theorem metronome_is_drift_free_witness :
    ((0 : Int) < 1000000 ∧ (1000000 : Int) ≤ 1073741824)
      ∧ metronomeAt60.mode = tnMode.TN_METRONOME
      ∧ (0 ≤ metronomeAt60.tSigIdx ∧ metronomeAt60.tSigIdx < 8)
      ∧ metronomeAt60.lastBpmButton = none ∧ metronomeAt60.usPerBeat = 1000000
      ∧ metronomeAt60.isClockwise = true ∧ metronomeAt60.tAccumulatedUs = 0
      ∧ (∀ p ∈ samplePolls, 0 ≤ p.1 ∧ p.1 ≤ 1000000)
      ∧ ∃ t1 outs, pollMain metronomeAt60 samplePolls = some (t1, outs)
        ∧ outs.length = samplePolls.length
        ∧ (∀ n : Nat, (tickCount (outs.take n) : Int) = elapsedUs (samplePolls.take n) / 1000000)
        ∧ (∀ n : Nat, tickCount (outs.take (n + 1)) ≤ tickCount (outs.take n) + 1)
        ∧ (tickCount outs : Int) = elapsedUs samplePolls / 1000000
        ∧ t1.usPerBeat = 1000000
        ∧ t1.isClockwise = decide (tickCount outs % 2 = 0)
        ∧ t1.tAccumulatedUs
            = (if t1.isClockwise then elapsedUs samplePolls % 1000000
                else 1000000 - elapsedUs samplePolls % 1000000) :=
  ⟨by decide, rfl, by decide, rfl, rfl, rfl, rfl, by decide,
    metronome_is_drift_free 1000000 metronomeAt60 samplePolls (by decide) rfl (by decide) rfl
      rfl rfl rfl (by decide)⟩

/-- C29. From `metronomeAt60`, twenty main-loop calls of 50,000 us bring the arm to
`tAccumulatedUs = 1,000,000 = usPerBeat`, sweeping backward.  One press and release of the
increment button then sets `bpm = 61` and `usPerBeat = 983,606` without touching
`tAccumulatedUs`, and after the next main-loop call, 10,000 us later, `tAccumulatedUs` is
990,000, greater than `usPerBeat`. -/
theorem arm_position_exceeds_beat_after_bpm_change :
    (tnRun metronomeAt60 (holdInputs (clockReadings 0 50000 20))).map
        (fun t => (t.isClockwise, t.bpm, t.usPerBeat, t.tAccumulatedUs))
        = some (false, 60, 1000000, 1000000)
      ∧ (tnRun metronomeAt60 pressAfterFirstBeat).map
          (fun t => (t.mode, t.isClockwise, t.bpm, t.usPerBeat, t.tAccumulatedUs))
          = some (tnMode.TN_METRONOME, false, 61, 983606, 990000)
      ∧ ¬ ((990000 : Int) ≤ 983606) := by
  decide


/-! ## Theorems: the chromatic branch of the sample handler -/

/-- C30. One press of the decrement button in the tuner entered by `tunernomeEnterMode`
selects `LISTENING = 15`, a mode that takes the chromatic branch of `tunernomeSampleHandler`;
there the index `curTunerMode - SEMITONE_0` is 12, the length of the arrays `tonalDiff` and
`intensity`, so both reads are outside the arrays, while for `SEMITONE_11` the index is 11. -/
theorem listening_mode_reads_past_arrays :
    tunernomeButtonCallback enteredTunernome ⟨buttonBit_t.DOWN, true⟩ 0
        = some { enteredTunernome with curTunerMode := LISTENING }
      ∧ takesChromaticBranch LISTENING = true
      ∧ chromaticIndex LISTENING = 12 ∧ NUM_SEMITONES = 12
      ∧ sampleIntensities.length = NUM_SEMITONES
      ∧ readArray sampleIntensities (chromaticIndex LISTENING) = none
      ∧ chromaticBranchColor LISTENING sampleIntensities sampleIntensities = none
      ∧ chromaticIndex SEMITONE_11 = 11
      ∧ (chromaticBranchColor SEMITONE_11 sampleIntensities sampleIntensities).isSome = true := by
  decide

/-! ## Theorems: the folded bins of the chromatic tuner -/

theorem getSemiMagnitudeIndex_mod (B idx : Int) (hB : 0 < B ∧ B ≤ 16384)
    (hidx : -B ≤ idx ∧ idx ≤ 2 * B - 1) :
    getSemiMagnitudeIndex B idx = idx % B := by
  obtain ⟨hB0, hB1⟩ := hB
  obtain ⟨h0, h1⟩ := hidx
  have h16 : toInt16 idx = idx := toInt16_of_range idx (by omega) (by omega)
  unfold getSemiMagnitudeIndex
  dsimp only
  rw [h16]
  by_cases hn : idx < 0
  · have h2 : toInt16 (idx + B) = idx + B := toInt16_of_range _ (by omega) (by omega)
    rw [if_pos hn, h2, if_neg (by omega)]
    rw [← Int.add_emod_self, Int.emod_eq_of_lt (by omega) (by omega)]
  · rw [if_neg hn]
    by_cases hb : idx > B - 1
    · have h2 : toInt16 (idx - B) = idx - B := toInt16_of_range _ (by omega) (by omega)
      rw [if_pos hb, h2]
      have h3 : idx % B = (idx - B) % B := by
        have := Int.add_emod_self (a := idx - B) (b := B)
        rw [Int.sub_add_cancel] at this
        exact this
      rw [h3, Int.emod_eq_of_lt (by omega) (by omega)]
    · rw [if_neg hb, Int.emod_eq_of_lt (by omega) (by omega)]

/-- C31. With the bin count 24, for every chromatic channel `s` in 0..11 the three bins read
by the update, through `getSemiMagnitude` at `2s + 6` and through `getSemiDiffAround` at
`2s + 7` and `2s + 5`, are exactly these indices modulo 24, so each lies in `[0, 24)`.  The
single addition or subtraction of the bin count in `getSemiMagnitude` is reduction modulo 24
for every index in `[-24, 47]`, and reduction modulo `B` for every index in `[-B, 2B - 1]` for
every bin count `B` up to 16384. -/
theorem chromatic_bins_fold_modulo (s : Int) (hs : 0 ≤ s ∧ s ≤ 11) :
    semitoneBins 24 s = ((2 * s + 6) % 24, (2 * s + 7) % 24, (2 * s + 5) % 24)
      ∧ (0 ≤ (semitoneBins 24 s).1 ∧ (semitoneBins 24 s).1 < 24)
      ∧ (0 ≤ (semitoneBins 24 s).2.1 ∧ (semitoneBins 24 s).2.1 < 24)
      ∧ (0 ≤ (semitoneBins 24 s).2.2 ∧ (semitoneBins 24 s).2.2 < 24)
      ∧ (∀ idx : Int, -24 ≤ idx ∧ idx ≤ 2 * 24 - 1 →
          getSemiMagnitudeIndex 24 idx = idx % 24
            ∧ 0 ≤ getSemiMagnitudeIndex 24 idx ∧ getSemiMagnitudeIndex 24 idx < 24)
      ∧ (∀ B idx : Int, 0 < B ∧ B ≤ 16384 → -B ≤ idx ∧ idx ≤ 2 * B - 1 →
          getSemiMagnitudeIndex B idx = idx % B) := by
  obtain ⟨h0, h1⟩ := hs
  have h8 : toUInt8 (s * 2) = 2 * s := by unfold toUInt8; omega
  have hbins : semitoneBins 24 s
      = ((2 * s + 6) % 24, (2 * s + 7) % 24, (2 * s + 5) % 24) := by
    have hu : toUInt16 (2 * s + 6) = 2 * s + 6 := by unfold toUInt16; omega
    unfold semitoneBins getSemiDiffAroundIndices CHROMATIC_OFFSET
    dsimp only
    rw [h8, hu, getSemiMagnitudeIndex_mod 24 _ (by norm_num) (by omega),
      getSemiMagnitudeIndex_mod 24 _ (by norm_num) (by omega),
      getSemiMagnitudeIndex_mod 24 _ (by norm_num) (by omega)]
    have e1 : 2 * s + 6 + 1 = 2 * s + 7 := by ring
    have e2 : 2 * s + 6 - 1 = 2 * s + 5 := by ring
    rw [e1, e2]
  rw [hbins]
  refine ⟨rfl, ⟨by dsimp only; omega, by dsimp only; omega⟩,
    ⟨by dsimp only; omega, by dsimp only; omega⟩,
    ⟨by dsimp only; omega, by dsimp only; omega⟩, ?_, ?_⟩
  · intro idx hidx
    rw [getSemiMagnitudeIndex_mod 24 idx (by norm_num) hidx]
    exact ⟨rfl, by omega, by omega⟩
  · intro B idx hB hidx
    exact getSemiMagnitudeIndex_mod B idx hB hidx

/-- Witness for C31: the channel 11, whose bins 28, 29 and 27 fold to 4, 5 and 3. -/
theorem chromatic_bins_fold_modulo_witness :
    ((0 : Int) ≤ 11 ∧ (11 : Int) ≤ 11) ∧ semitoneBins 24 11 = (4, 5, 3)
      ∧ (semitoneBins 24 11 = ((2 * 11 + 6) % 24, (2 * 11 + 7) % 24, (2 * 11 + 5) % 24)
        ∧ (0 ≤ (semitoneBins 24 11).1 ∧ (semitoneBins 24 11).1 < 24)
        ∧ (0 ≤ (semitoneBins 24 11).2.1 ∧ (semitoneBins 24 11).2.1 < 24)
        ∧ (0 ≤ (semitoneBins 24 11).2.2 ∧ (semitoneBins 24 11).2.2 < 24)
        ∧ (∀ idx : Int, -24 ≤ idx ∧ idx ≤ 2 * 24 - 1 →
            getSemiMagnitudeIndex 24 idx = idx % 24
              ∧ 0 ≤ getSemiMagnitudeIndex 24 idx ∧ getSemiMagnitudeIndex 24 idx < 24)
        ∧ (∀ B idx : Int, 0 < B ∧ B ≤ 16384 → -B ≤ idx ∧ idx ≤ 2 * B - 1 →
            getSemiMagnitudeIndex B idx = idx % B)) :=
  ⟨by decide, by decide, chromatic_bins_fold_modulo 11 (by decide)⟩


/-! ## Theorems: one poll of a track -/

/-- C32. For a track holding a song with `N` notes at index `i < N`, one poll leaves the
track unchanged when the current note is not yet due; when it is due the track moves to index
`i + 1` if `i + 1 < N`, and if `i + 1 = N` to index 0, keeping the song when the loop flag is
set and giving it up (no song, index 0, start time 0) when it is not.  So the new index is `i`,
`i + 1` or 0, never more than one note ahead however much time has elapsed, and a due poll
after which the track still holds its song leaves index 0 only when the loop flag is set and
`i + 1 = N`. -/
theorem poll_advances_at_most_one_note (song : song_t) (i : Nat) (t c : Int) (isActive : Bool)
    (p : Option notePtr) (st : Bool) (hi : i < song.numNotes) :
    (¬ c - t ≥ noteDurationUs (song.noteAt i) →
        (buzzer_track_check_next_note ⟨some song, i, t⟩ isActive c p st).track
          = ⟨some song, i, t⟩)
      ∧ (c - t ≥ noteDurationUs (song.noteAt i) → i + 1 < song.numNotes →
        (buzzer_track_check_next_note ⟨some song, i, t⟩ isActive c p st).track
          = ⟨some song, i + 1, c⟩)
      ∧ (c - t ≥ noteDurationUs (song.noteAt i) → i + 1 = song.numNotes →
        (buzzer_track_check_next_note ⟨some song, i, t⟩ isActive c p st).track
          = (if song.shouldLoop then ⟨some song, 0, c⟩ else ⟨none, 0, 0⟩))
      ∧ ((buzzer_track_check_next_note ⟨some song, i, t⟩ isActive c p st).track.note_index = i
          ∨ (buzzer_track_check_next_note ⟨some song, i, t⟩ isActive c p st).track.note_index
              = i + 1
          ∨ (buzzer_track_check_next_note ⟨some song, i, t⟩ isActive c p st).track.note_index
              = 0)
      ∧ (c - t ≥ noteDurationUs (song.noteAt i) →
          (buzzer_track_check_next_note ⟨some song, i, t⟩ isActive c p st).track.song ≠ none →
          (buzzer_track_check_next_note ⟨some song, i, t⟩ isActive c p st).track.note_index
            = 0 →
          song.shouldLoop = true ∧ i + 1 = song.numNotes) := by
  by_cases hd : c - t ≥ noteDurationUs (song.noteAt i)
  · have hdue := track_check_due song i t c isActive p st hi hd
    rw [hdue]
    unfold advancedTrack nextIndex
    by_cases hl : i + 1 = song.numNotes
    · by_cases hs : song.shouldLoop = true
      · have h0 : 0 < song.numNotes := by omega
        simp [hd, hl, hs, h0]
      · simp [hd, hl, hs]
    · have hlt : i + 1 < song.numNotes := by omega
      simp [hd, hl, hlt]
  · have hnd : (buzzer_track_check_next_note ⟨some song, i, t⟩ isActive c p st).track
        = ⟨some song, i, t⟩ := by
      unfold buzzer_track_check_next_note
      simp only [hi, if_true]
      rw [if_neg hd]
    rw [hnd]
    simp [hd]

/-- Witness for C32: the last note of `twoNoteSong`, started at 100,000 us, polled at
250,000 us. -/
theorem poll_advances_at_most_one_note_witness :
    1 < twoNoteSong.numNotes
      ∧ ((¬ (250000 : Int) - 100000 ≥ noteDurationUs (twoNoteSong.noteAt 1) →
          (buzzer_track_check_next_note ⟨some twoNoteSong, 1, 100000⟩ true 250000 none
              false).track = ⟨some twoNoteSong, 1, 100000⟩)
        ∧ ((250000 : Int) - 100000 ≥ noteDurationUs (twoNoteSong.noteAt 1) →
          1 + 1 < twoNoteSong.numNotes →
          (buzzer_track_check_next_note ⟨some twoNoteSong, 1, 100000⟩ true 250000 none
              false).track = ⟨some twoNoteSong, 1 + 1, 250000⟩)
        ∧ ((250000 : Int) - 100000 ≥ noteDurationUs (twoNoteSong.noteAt 1) →
          1 + 1 = twoNoteSong.numNotes →
          (buzzer_track_check_next_note ⟨some twoNoteSong, 1, 100000⟩ true 250000 none
              false).track
            = (if twoNoteSong.shouldLoop then ⟨some twoNoteSong, 0, 250000⟩ else ⟨none, 0, 0⟩))
        ∧ ((buzzer_track_check_next_note ⟨some twoNoteSong, 1, 100000⟩ true 250000 none
              false).track.note_index = 1
            ∨ (buzzer_track_check_next_note ⟨some twoNoteSong, 1, 100000⟩ true 250000 none
                false).track.note_index = 1 + 1
            ∨ (buzzer_track_check_next_note ⟨some twoNoteSong, 1, 100000⟩ true 250000 none
                false).track.note_index = 0)
        ∧ ((250000 : Int) - 100000 ≥ noteDurationUs (twoNoteSong.noteAt 1) →
            (buzzer_track_check_next_note ⟨some twoNoteSong, 1, 100000⟩ true 250000 none
                false).track.song ≠ none →
            (buzzer_track_check_next_note ⟨some twoNoteSong, 1, 100000⟩ true 250000 none
                false).track.note_index = 0 →
            twoNoteSong.shouldLoop = true ∧ 1 + 1 = twoNoteSong.numNotes)) :=
  ⟨by decide,
    poll_advances_at_most_one_note twoNoteSong 1 100000 250000 true none false (by decide)⟩

/-- C33. For every track, clock reading and pending state, `buzzer_track_check_next_note`
returns true exactly when, after the call, the track holds a song and its note index is below
the song's note count.  A track whose current note is not yet due is left unchanged together
with the pending note and the stop request, and is reported active exactly when its index is
below its song's note count. -/
theorem track_check_reports_valid_track (tr : buzzerTrack_t) (isActive : Bool) (c : Int)
    (p : Option notePtr) (st : Bool) :
    ((buzzer_track_check_next_note tr isActive c p st).active = true ↔
        ∃ song, (buzzer_track_check_next_note tr isActive c p st).track.song = some song
          ∧ (buzzer_track_check_next_note tr isActive c p st).track.note_index < song.numNotes)
      ∧ (∀ song, tr.song = some song →
          ¬ c - tr.start_time ≥ noteDurationUs (song.noteAt tr.note_index) →
          (buzzer_track_check_next_note tr isActive c p st).track = tr
            ∧ (buzzer_track_check_next_note tr isActive c p st).playNote = p
            ∧ (buzzer_track_check_next_note tr isActive c p st).stopSong = st
            ∧ ((buzzer_track_check_next_note tr isActive c p st).active = true ↔
                tr.note_index < song.numNotes)) := by
  constructor
  · unfold buzzer_track_check_next_note
    cases hs : tr.song with
    | none => simp [hs]
    | some song =>
      dsimp only
      by_cases h1 : tr.note_index < song.numNotes
      · by_cases h2 : c - tr.start_time ≥ noteDurationUs (song.noteAt tr.note_index)
        · rw [if_pos h1, if_pos h2]
          generalize (if song.shouldLoop = true ∧ tr.note_index + 1 = song.numNotes then 0
            else tr.note_index + 1) = idx2
          by_cases h3 : idx2 < song.numNotes
          · rw [if_pos h3]
            cases isActive <;> simp [h3]
          · rw [if_neg h3]
            cases isActive <;> simp
        · rw [if_pos h1, if_neg h2]
          simp [hs, h1]
      · rw [if_neg h1]
        simp [hs, h1]
  · intro song hs hnd
    unfold buzzer_track_check_next_note
    rw [hs]
    dsimp only
    by_cases h1 : tr.note_index < song.numNotes
    · rw [if_pos h1, if_neg hnd]
      simp [h1]
    · rw [if_neg h1]
      simp [h1]

/-- Witness for C33: the last note of `twoNoteSong`, started at 100,000 us, polled at
250,000 us. -/
theorem track_check_reports_valid_track_witness :
    ((buzzer_track_check_next_note ⟨some twoNoteSong, 1, 100000⟩ true 250000 none false).active
          = true ↔
        ∃ song, (buzzer_track_check_next_note ⟨some twoNoteSong, 1, 100000⟩ true 250000 none
              false).track.song = some song
          ∧ (buzzer_track_check_next_note ⟨some twoNoteSong, 1, 100000⟩ true 250000 none
              false).track.note_index < song.numNotes)
      ∧ (∀ song, (⟨some twoNoteSong, 1, 100000⟩ : buzzerTrack_t).song = some song →
          ¬ (250000 : Int) - (⟨some twoNoteSong, 1, 100000⟩ : buzzerTrack_t).start_time
              ≥ noteDurationUs
                (song.noteAt (⟨some twoNoteSong, 1, 100000⟩ : buzzerTrack_t).note_index) →
          (buzzer_track_check_next_note ⟨some twoNoteSong, 1, 100000⟩ true 250000 none
              false).track = ⟨some twoNoteSong, 1, 100000⟩
            ∧ (buzzer_track_check_next_note ⟨some twoNoteSong, 1, 100000⟩ true 250000 none
                false).playNote = none
            ∧ (buzzer_track_check_next_note ⟨some twoNoteSong, 1, 100000⟩ true 250000 none
                false).stopSong = false
            ∧ ((buzzer_track_check_next_note ⟨some twoNoteSong, 1, 100000⟩ true 250000 none
                  false).active = true ↔
                (⟨some twoNoteSong, 1, 100000⟩ : buzzerTrack_t).note_index < song.numNotes)) :=
  track_check_reports_valid_track ⟨some twoNoteSong, 1, 100000⟩ true 250000 none false


/-! ## Theorems: invariants of the scheduler -/

theorem track_check_wellFormed (tr : buzzerTrack_t) (isActive : Bool) (c : Int)
    (p : Option notePtr) (st : Bool) (h : trackWellFormed tr) :
    trackWellFormed (buzzer_track_check_next_note tr isActive c p st).track := by
  unfold buzzer_track_check_next_note
  cases hs : tr.song with
  | none => exact h
  | some song =>
    dsimp only
    by_cases h1 : tr.note_index < song.numNotes
    · by_cases h2 : c - tr.start_time ≥ noteDurationUs (song.noteAt tr.note_index)
      · rw [if_pos h1, if_pos h2]
        generalize (if song.shouldLoop = true ∧ tr.note_index + 1 = song.numNotes then 0
          else tr.note_index + 1) = idx2
        by_cases h3 : idx2 < song.numNotes
        · rw [if_pos h3]
          cases isActive <;> exact Or.inr ⟨song, rfl, h3⟩
        · rw [if_neg h3]
          cases isActive <;> exact Or.inl rfl
      · rw [if_pos h1, if_neg h2]; exact h
    · rw [if_neg h1]; exact h

theorem buzzerStep_wellFormed (b b1 : rmt_buzzer_t) (op : buzzerOp) (hop : op.hasNotes)
    (h : buzzerStep b op = some b1) (hb : trackWellFormed b.sfx ∧ trackWellFormed b.bgm) :
    trackWellFormed b1.sfx ∧ trackWellFormed b1.bgm := by
  cases hm : b.isMuted with
  | true => rw [buzzerStep_muted b b1 op h hm]; exact hb
  | false =>
    cases op with
    | play_sfx song now =>
      simp only [buzzerStep, Option.some.injEq] at h
      subst h
      unfold buzzer_play_sfx
      simp only [hm, Bool.false_eq_true, if_false]
      exact ⟨Or.inr ⟨song, rfl, hop⟩, hb.2⟩
    | play_bgm song now =>
      simp only [buzzerStep, Option.some.injEq] at h
      subst h
      unfold buzzer_play_bgm
      simp only [hm, Bool.false_eq_true, if_false]
      split_ifs
      · exact ⟨hb.1, Or.inr ⟨song, rfl, hop⟩⟩
      · exact ⟨hb.1, Or.inr ⟨song, rfl, hop⟩⟩
    | check_next_note cSfx cBgm idle =>
      simp only [buzzerStep, Option.map_eq_some'] at h
      obtain ⟨⟨r1, ops⟩, hr, rfl⟩ := h
      have ha : trackWellFormed (buzzerAfterTracks b cSfx cBgm).sfx
          ∧ trackWellFormed (buzzerAfterTracks b cSfx cBgm).bgm := by
        unfold buzzerAfterTracks
        simp only [hm, Bool.false_eq_true, if_false]
        exact ⟨track_check_wellFormed _ _ _ _ _ hb.1, track_check_wellFormed _ _ _ _ _ hb.2⟩
      rw [check_next_note_unmuted b cSfx cBgm idle hm] at hr
      revert hr ha
      generalize buzzerAfterTracks b cSfx cBgm = a
      intro hr ha
      show trackWellFormed r1.sfx ∧ trackWellFormed r1.bgm
      rcases hp : a.playNote with _ | p
      · cases hs : a.stopSong <;> cases idle <;> simp [hp, hs] at hr <;>
          (rw [← hr.1]; exact ha)
      · cases hd : p.deref with
        | none =>
          cases idle
          · simp [hp] at hr; rw [← hr.1]; exact ha
          · simp [hp, hd] at hr
        | some n =>
          cases idle <;> simp [hp, hd] at hr <;> (rw [← hr.1]; exact ha)
    | stop =>
      simp only [buzzerStep, Option.some.injEq] at h
      subst h
      unfold buzzer_stop
      simp only [hm, Bool.false_eq_true, if_false]
      exact ⟨Or.inl rfl, Or.inl rfl⟩

/-- C34. After every run of calls of `buzzer_play_sfx`, `buzzer_play_bgm`,
`buzzer_check_next_note` and `buzzer_stop` from the state left by `buzzer_init`, with songs of
at least one note, each of the two tracks either is empty (no song, index 0, start time 0) or
holds a song with its note index strictly below the song's note count. -/
theorem tracks_stay_well_formed (clk : Nat) (isMuted : Bool) (ops : List buzzerOp)
    (b : rmt_buzzer_t) (hops : ∀ op ∈ ops, op.hasNotes)
    (h : buzzerRun (buzzer_init clk isMuted) ops = some b) :
    (b.sfx = ⟨none, 0, 0⟩ ∨ ∃ song, b.sfx.song = some song ∧ b.sfx.note_index < song.numNotes)
      ∧ (b.bgm = ⟨none, 0, 0⟩
          ∨ ∃ song, b.bgm.song = some song ∧ b.bgm.note_index < song.numNotes) := by
  have key : ∀ (l : List buzzerOp) (b0 b1 : rmt_buzzer_t), (∀ op ∈ l, op.hasNotes) →
      buzzerRun b0 l = some b1 → trackWellFormed b0.sfx ∧ trackWellFormed b0.bgm →
      trackWellFormed b1.sfx ∧ trackWellFormed b1.bgm := by
    intro l
    induction l with
    | nil =>
      intro b0 b1 _ h0 hb
      simp only [buzzerRun, Option.some.injEq] at h0
      rw [← h0]; exact hb
    | cons op l ih =>
      intro b0 b1 hl h0 hb
      simp only [buzzerRun] at h0
      cases hs : buzzerStep b0 op with
      | none => rw [hs] at h0; simp at h0
      | some b2 =>
        rw [hs] at h0
        exact ih b2 b1 (fun o ho => hl o (List.mem_cons_of_mem _ ho)) h0
          (buzzerStep_wellFormed b0 b2 op (hl op (List.mem_cons_self _ _)) hs hb)
  exact key ops (buzzer_init clk isMuted) b hops h ⟨Or.inl rfl, Or.inl rfl⟩

/-- Witness for C34: a sound effect started, polled and followed by background music. -/
theorem tracks_stay_well_formed_witness :
    (∀ op ∈ [buzzerOp.play_sfx twoNoteSong 0, buzzerOp.check_next_note 5 5 true,
        buzzerOp.play_bgm loopSong 10], op.hasNotes)
      ∧ buzzerRun (buzzer_init 1000000 false)
          [buzzerOp.play_sfx twoNoteSong 0, buzzerOp.check_next_note 5 5 true,
            buzzerOp.play_bgm loopSong 10]
          = some ⟨1000000, ⟨some loopSong, 0, 10⟩, ⟨some twoNoteSong, 0, 0⟩, none, false, false⟩
      ∧ (((⟨some twoNoteSong, 0, 0⟩ : buzzerTrack_t) = ⟨none, 0, 0⟩
            ∨ ∃ song, (⟨some twoNoteSong, 0, 0⟩ : buzzerTrack_t).song = some song
                ∧ (⟨some twoNoteSong, 0, 0⟩ : buzzerTrack_t).note_index < song.numNotes)
        ∧ ((⟨some loopSong, 0, 10⟩ : buzzerTrack_t) = ⟨none, 0, 0⟩
            ∨ ∃ song, (⟨some loopSong, 0, 10⟩ : buzzerTrack_t).song = some song
                ∧ (⟨some loopSong, 0, 10⟩ : buzzerTrack_t).note_index < song.numNotes)) :=
  ⟨by simp [buzzerOp.hasNotes, song_t.numNotes, twoNoteSong, loopSong], by decide,
    tracks_stay_well_formed 1000000 false
      [buzzerOp.play_sfx twoNoteSong 0, buzzerOp.check_next_note 5 5 true,
        buzzerOp.play_bgm loopSong 10]
      ⟨1000000, ⟨some loopSong, 0, 10⟩, ⟨some twoNoteSong, 0, 0⟩, none, false, false⟩
      (by simp [buzzerOp.hasNotes, song_t.numNotes, twoNoteSong, loopSong]) (by decide)⟩

theorem track_check_not_both (tr : buzzerTrack_t) (isActive : Bool) (c : Int)
    (p : Option notePtr) (st : Bool) (h : ¬ noteAndStop p st) :
    ¬ noteAndStop (buzzer_track_check_next_note tr isActive c p st).playNote
      (buzzer_track_check_next_note tr isActive c p st).stopSong := by
  unfold buzzer_track_check_next_note
  cases hs : tr.song with
  | none => exact h
  | some song =>
    dsimp only
    by_cases h1 : tr.note_index < song.numNotes
    · by_cases h2 : c - tr.start_time ≥ noteDurationUs (song.noteAt tr.note_index)
      · rw [if_pos h1, if_pos h2]
        generalize (if song.shouldLoop = true ∧ tr.note_index + 1 = song.numNotes then 0
          else tr.note_index + 1) = idx2
        by_cases h3 : idx2 < song.numNotes
        · rw [if_pos h3]
          cases isActive
          · exact h
          · simp [noteAndStop]
        · rw [if_neg h3]
          cases isActive
          · exact h
          · simp [noteAndStop]
      · rw [if_pos h1, if_neg h2]; exact h
    · rw [if_neg h1]; exact h

theorem buzzerStep_not_both (b b1 : rmt_buzzer_t) (op : buzzerOp)
    (h : buzzerStep b op = some b1) (hb : ¬ noteAndStop b.playNote b.stopSong) :
    ¬ noteAndStop b1.playNote b1.stopSong := by
  cases hm : b.isMuted with
  | true => rw [buzzerStep_muted b b1 op h hm]; exact hb
  | false =>
    cases op with
    | play_sfx song now =>
      simp only [buzzerStep, Option.some.injEq] at h
      subst h
      unfold buzzer_play_sfx
      simp [hm, noteAndStop]
    | play_bgm song now =>
      simp only [buzzerStep, Option.some.injEq] at h
      subst h
      unfold buzzer_play_bgm
      simp only [hm, Bool.false_eq_true, if_false]
      split_ifs
      · simp [noteAndStop]
      · exact hb
    | check_next_note cSfx cBgm idle =>
      simp only [buzzerStep, Option.map_eq_some'] at h
      obtain ⟨⟨r1, ops⟩, hr, rfl⟩ := h
      have ha : ¬ noteAndStop (buzzerAfterTracks b cSfx cBgm).playNote
          (buzzerAfterTracks b cSfx cBgm).stopSong := by
        unfold buzzerAfterTracks
        simp only [hm, Bool.false_eq_true, if_false]
        exact track_check_not_both _ _ _ _ _ (track_check_not_both _ _ _ _ _ hb)
      rw [check_next_note_unmuted b cSfx cBgm idle hm] at hr
      revert hr ha
      generalize buzzerAfterTracks b cSfx cBgm = a
      intro hr ha
      show ¬ noteAndStop r1.playNote r1.stopSong
      rcases hp : a.playNote with _ | p
      · cases hs : a.stopSong <;> cases idle <;> simp [hp, hs] at hr <;>
          (rw [← hr.1]; simp [noteAndStop, hp])
      · have hst : a.stopSong = false := by
          cases hs : a.stopSong
          · rfl
          · exact absurd ⟨by rw [hp]; rfl, hs⟩ ha
        cases hd : p.deref with
        | none =>
          cases idle
          · simp [hp] at hr; rw [← hr.1]; exact ha
          · simp [hp, hd] at hr
        | some n =>
          cases idle
          · simp [hp] at hr; rw [← hr.1]; exact ha
          · simp [hp, hd] at hr
            rw [← hr.1]
            simp [noteAndStop]
    | stop =>
      simp only [buzzerStep, Option.some.injEq] at h
      subst h
      unfold buzzer_stop
      simp [hm, noteAndStop]

/-- C35. After every run of calls of `buzzer_play_sfx`, `buzzer_play_bgm`,
`buzzer_check_next_note` (with idle or busy hardware) and `buzzer_stop` from the state left by
`buzzer_init`, with any songs, a pending note and a stop request are not both present. -/
theorem pending_note_and_stop_exclusive (clk : Nat) (isMuted : Bool) (ops : List buzzerOp)
    (b : rmt_buzzer_t) (h : buzzerRun (buzzer_init clk isMuted) ops = some b) :
    ¬ (b.playNote.isSome = true ∧ b.stopSong = true) := by
  have key : ∀ (l : List buzzerOp) (b0 b1 : rmt_buzzer_t), buzzerRun b0 l = some b1 →
      ¬ noteAndStop b0.playNote b0.stopSong → ¬ noteAndStop b1.playNote b1.stopSong := by
    intro l
    induction l with
    | nil =>
      intro b0 b1 h0 hb
      simp only [buzzerRun, Option.some.injEq] at h0
      rw [← h0]; exact hb
    | cons op l ih =>
      intro b0 b1 h0 hb
      simp only [buzzerRun] at h0
      cases hs : buzzerStep b0 op with
      | none => rw [hs] at h0; simp at h0
      | some b2 =>
        rw [hs] at h0
        exact ih b2 b1 h0 (buzzerStep_not_both b0 b2 op hs hb)
  exact key ops (buzzer_init clk isMuted) b h (by simp [noteAndStop, buzzer_init])

/-- Witness for C35: a sound effect started and polled with busy hardware after its first
note has run out. -/
theorem pending_note_and_stop_exclusive_witness :
    buzzerRun (buzzer_init 1000000 false)
        [buzzerOp.play_sfx twoNoteSong 0, buzzerOp.check_next_note 150000 150000 false]
        = some ⟨1000000, ⟨none, 0, 0⟩, ⟨some twoNoteSong, 1, 150000⟩, some ⟨twoNoteSong, 1⟩,
            false, false⟩
      ∧ ¬ ((some (⟨twoNoteSong, 1⟩ : notePtr)).isSome = true ∧ false = true) :=
  ⟨by decide,
    pending_note_and_stop_exclusive 1000000 false
      [buzzerOp.play_sfx twoNoteSong 0, buzzerOp.check_next_note 150000 150000 false]
      ⟨1000000, ⟨none, 0, 0⟩, ⟨some twoNoteSong, 1, 150000⟩, some ⟨twoNoteSong, 1⟩, false,
        false⟩
      (by decide)⟩


/-! ## Theorems: the end of a sound effect over background music -/

/-- C36. In an unmuted scheduler whose sfx track is due at the last note of a non-looping
song while the bgm track holds a song whose current note is not yet due: after the two track
checks the sfx track is empty, a stop is requested and no note is pending, whatever was pending
before, and the bgm track is unchanged.  With idle hardware the poll issues `rmt_tx_stop` and
clears the request; every later poll at which the bgm note is still not due issues nothing and
changes nothing; and the first idle poll at which it is due and a next bgm note exists starts
that next note. -/
theorem sfx_end_stops_output_over_bgm (b : rmt_buzzer_t) (s1 s2 : song_t) (i1 i2 : Nat)
    (t1 t2 cSfx cBgm : Int) (hm : b.isMuted = false)
    (hsfx : b.sfx = ⟨some s1, i1, t1⟩) (hloop : s1.shouldLoop = false)
    (hlast : i1 + 1 = s1.numNotes) (hd1 : cSfx - t1 ≥ noteDurationUs (s1.noteAt i1))
    (hbgm : b.bgm = ⟨some s2, i2, t2⟩) (hi2 : i2 < s2.numNotes)
    (hd2 : ¬ cBgm - t2 ≥ noteDurationUs (s2.noteAt i2)) :
    buzzerAfterTracks b cSfx cBgm
        = { b with sfx := ⟨none, 0, 0⟩, playNote := none, stopSong := true }
      ∧ buzzer_check_next_note b cSfx cBgm true
          = some ({ b with sfx := ⟨none, 0, 0⟩, playNote := none, stopSong := false },
              [rmtOp.tx_stop])
      ∧ (∀ (c3 c4 : Int) (idle : Bool), ¬ c4 - t2 ≥ noteDurationUs (s2.noteAt i2) →
          buzzer_check_next_note
              { b with sfx := ⟨none, 0, 0⟩, playNote := none, stopSong := false } c3 c4 idle
            = some ({ b with sfx := ⟨none, 0, 0⟩, playNote := none, stopSong := false }, []))
      ∧ (∀ c3 c4 : Int, c4 - t2 ≥ noteDurationUs (s2.noteAt i2) →
          nextIndex s2 i2 < s2.numNotes →
          buzzer_check_next_note
              { b with sfx := ⟨none, 0, 0⟩, playNote := none, stopSong := false } c3 c4 true
            = some ({ b with
                  sfx := ⟨none, 0, 0⟩, bgm := ⟨some s2, nextIndex s2 i2, c4⟩, playNote := none,
                  stopSong := false },
                play_note b.counter_clk_hz (s2.noteAt (nextIndex s2 i2)))) := by
  have h1 : ∀ p st, buzzer_track_check_next_note ⟨some s1, i1, t1⟩ true cSfx p st
      = ⟨⟨none, 0, 0⟩, none, true, false⟩ := by
    intro p st
    have hi1 : i1 < s1.numNotes := by omega
    unfold buzzer_track_check_next_note
    simp [hi1, hd1, hloop, hlast]
  have h2 : ∀ c4 isActive p st, ¬ c4 - t2 ≥ noteDurationUs (s2.noteAt i2) →
      buzzer_track_check_next_note ⟨some s2, i2, t2⟩ isActive c4 p st
        = ⟨⟨some s2, i2, t2⟩, p, st, true⟩ := by
    intro c4 isActive p st hnd
    unfold buzzer_track_check_next_note
    simp only [hi2, if_true]
    rw [if_neg hnd]
  have h3 : ∀ c4 p st, c4 - t2 ≥ noteDurationUs (s2.noteAt i2) →
      nextIndex s2 i2 < s2.numNotes →
      buzzer_track_check_next_note ⟨some s2, i2, t2⟩ true c4 p st
        = ⟨⟨some s2, nextIndex s2 i2, c4⟩, some ⟨s2, nextIndex s2 i2⟩, false, true⟩ := by
    intro c4 p st hd hn
    unfold nextIndex at hn ⊢
    unfold buzzer_track_check_next_note
    simp only [hi2, hd, if_true]
    rw [if_pos hn]
  have hat : buzzerAfterTracks b cSfx cBgm
      = { b with sfx := ⟨none, 0, 0⟩, playNote := none, stopSong := true } := by
    unfold buzzerAfterTracks
    simp only [hm, Bool.false_eq_true, if_false, hsfx, hbgm, h1, Bool.not_false,
      h2 cBgm true none true hd2]
  refine ⟨hat, ?_, ?_, ?_⟩
  · rw [check_next_note_unmuted b cSfx cBgm true hm, hat]
    simp
  · intro c3 c4 idle hnd
    unfold buzzer_check_next_note
    simp only [hm, Bool.false_eq_true, if_false, hbgm]
    rw [track_check_empty, h2 c4 _ none false hnd]
    simp
  · intro c3 c4 hd hn
    have hderef : notePtr.deref ⟨s2, nextIndex s2 i2⟩ = some (s2.noteAt (nextIndex s2 i2)) :=
      noteAt_deref s2 _ hn
    unfold buzzer_check_next_note
    simp only [hm, Bool.false_eq_true, if_false, hbgm]
    rw [track_check_empty]
    simp only [Bool.not_false]
    rw [h3 c4 none false hd hn]
    simp [hderef]

/-- Witness for C36: `sfxAtLastNote` polled at 200,000 us. -/
theorem sfx_end_stops_output_over_bgm_witness :
    sfxAtLastNote.isMuted = false ∧ sfxAtLastNote.sfx = ⟨some twoNoteSong, 1, 100000⟩
      ∧ twoNoteSong.shouldLoop = false ∧ 1 + 1 = twoNoteSong.numNotes
      ∧ (200000 : Int) - 100000 ≥ noteDurationUs (twoNoteSong.noteAt 1)
      ∧ sfxAtLastNote.bgm = ⟨some loopSong, 0, 180000⟩ ∧ 0 < loopSong.numNotes
      ∧ ¬ (200000 : Int) - 180000 ≥ noteDurationUs (loopSong.noteAt 0)
      ∧ (buzzerAfterTracks sfxAtLastNote 200000 200000
          = { sfxAtLastNote with sfx := ⟨none, 0, 0⟩, playNote := none, stopSong := true }
        ∧ buzzer_check_next_note sfxAtLastNote 200000 200000 true
            = some ({ sfxAtLastNote with
                  sfx := ⟨none, 0, 0⟩, playNote := none, stopSong := false },
                [rmtOp.tx_stop])
        ∧ (∀ (c3 c4 : Int) (idle : Bool), ¬ c4 - 180000 ≥ noteDurationUs (loopSong.noteAt 0) →
            buzzer_check_next_note
                { sfxAtLastNote with sfx := ⟨none, 0, 0⟩, playNote := none, stopSong := false }
                c3 c4 idle
              = some ({ sfxAtLastNote with
                    sfx := ⟨none, 0, 0⟩, playNote := none, stopSong := false }, []))
        ∧ (∀ c3 c4 : Int, c4 - 180000 ≥ noteDurationUs (loopSong.noteAt 0) →
            nextIndex loopSong 0 < loopSong.numNotes →
            buzzer_check_next_note
                { sfxAtLastNote with sfx := ⟨none, 0, 0⟩, playNote := none, stopSong := false }
                c3 c4 true
              = some ({ sfxAtLastNote with
                    sfx := ⟨none, 0, 0⟩, bgm := ⟨some loopSong, nextIndex loopSong 0, c4⟩,
                    playNote := none, stopSong := false },
                  play_note sfxAtLastNote.counter_clk_hz
                    (loopSong.noteAt (nextIndex loopSong 0))))) :=
  ⟨rfl, rfl, rfl, by decide, by decide, rfl, by decide, by decide,
    sfx_end_stops_output_over_bgm sfxAtLastNote twoNoteSong loopSong 1 0 100000 180000 200000
      200000 rfl rfl rfl (by decide) (by decide) rfl (by decide) (by decide)⟩


/-! ## Theorems: bounds and limits of the filters -/

theorem intensityFilt_bounded (Mmax m x : Int) (hM : Mmax ≤ 32767) (hm : 0 ≤ m ∧ m ≤ Mmax)
    (hx : 0 ≤ x ∧ x ≤ 32 * Mmax) :
    intensityFilt m x = m + x - x / 32
      ∧ 0 ≤ intensityFilt m x ∧ intensityFilt m x ≤ 32 * Mmax := by
  have hlo : 0 ≤ m + x - x / 32 := by omega
  have hhi : m + x - x / 32 ≤ 32 * Mmax := by omega
  have he : intensityFilt m x = m + x - x / 32 := by
    unfold intensityFilt toUInt32 asr
    norm_num
    rw [Int.emod_eq_of_lt hlo (by omega)]
  rw [he]
  exact ⟨rfl, hlo, hhi⟩

theorem intensityAfter_snoc (ms : List Int) (m : Int) :
    intensityAfter (ms ++ [m]) = intensityFilt m (intensityAfter ms) := by
  simp [intensityAfter, List.foldl_append]

theorem intensityAfter_bounded (Mmax : Int) (hM : Mmax ≤ 32767) (h0 : 0 ≤ Mmax)
    (ms : List Int) (hms : ∀ m ∈ ms, 0 ≤ m ∧ m ≤ Mmax) :
    0 ≤ intensityAfter ms ∧ intensityAfter ms ≤ 32 * Mmax := by
  induction ms using List.reverseRecOn with
  | nil => simp [intensityAfter]; omega
  | append_singleton ms m ih =>
    rw [intensityAfter_snoc]
    have hprev := ih (fun x hx => hms x (List.mem_append_left _ hx))
    exact (intensityFilt_bounded Mmax m _ hM (hms m (by simp)) hprev).2

/-- C37. For a zero-initialised intensity accumulator fed raw magnitudes in `[0, Mmax]` with
`Mmax <= 32767`, every update computes `m + filt - (filt >> 5)` without wrapping and leaves
`0 <= filt <= 32 * Mmax < 2^32`; `(filt >> 5) - 40` then lies in the signed 16-bit range, the
16-bit value stored by the code equals it, and the reported intensity is the clamp to
[0, 255] over the integers. -/
theorem intensity_accumulator_stays_bounded (Mmax : Int) (ms : List Int) (m : Int)
    (hM : Mmax ≤ 32767) (hms : ∀ x ∈ ms ++ [m], 0 ≤ x ∧ x ≤ Mmax) :
    intensityAfter (ms ++ [m])
        = m + intensityAfter ms - intensityAfter ms / 32
      ∧ (0 ≤ intensityAfter (ms ++ [m]) ∧ intensityAfter (ms ++ [m]) ≤ 32 * Mmax)
      ∧ intensityAfter (ms ++ [m]) < 4294967296
      ∧ (-32768 ≤ intensityAfter (ms ++ [m]) / 32 - 40
          ∧ intensityAfter (ms ++ [m]) / 32 - 40 ≤ 32767)
      ∧ toInt16 (toUInt32 (asr (intensityAfter (ms ++ [m])) SENSITIVITY - 40))
          = intensityAfter (ms ++ [m]) / 32 - 40
      ∧ intensityOf (intensityAfter (ms ++ [m])) = intensitySpec (intensityAfter (ms ++ [m])) := by
  have hm : 0 ≤ m ∧ m ≤ Mmax := hms m (by simp)
  have h0 : 0 ≤ Mmax := by omega
  have hprev := intensityAfter_bounded Mmax hM h0 ms
    (fun x hx => hms x (List.mem_append_left _ hx))
  obtain ⟨he, hlo, hhi⟩ := intensityFilt_bounded Mmax m _ hM hm hprev
  rw [intensityAfter_snoc]
  have h16 : toInt16 (toUInt32 (asr (intensityFilt m (intensityAfter ms)) SENSITIVITY - 40))
      = intensityFilt m (intensityAfter ms) / 32 - 40 := by
    unfold toInt16 toUInt32 asr SENSITIVITY
    norm_num
    omega
  refine ⟨he, ⟨hlo, hhi⟩, by omega, ⟨by omega, by omega⟩, h16, ?_⟩
  unfold intensityOf
  rw [h16, CLAMP_eq_max_min _ 0 255 (by norm_num)]
  rfl

/-- Witness for C37: the magnitudes 1000, 0, 500, 1000 with `Mmax = 1000`. -/
theorem intensity_accumulator_stays_bounded_witness :
    (1000 : Int) ≤ 32767 ∧ (∀ x ∈ [(1000 : Int), 0, 500] ++ [1000], 0 ≤ x ∧ x ≤ 1000)
      ∧ (intensityAfter ([1000, 0, 500] ++ [1000])
          = 1000 + intensityAfter [1000, 0, 500] - intensityAfter [1000, 0, 500] / 32
        ∧ (0 ≤ intensityAfter ([1000, 0, 500] ++ [1000])
            ∧ intensityAfter ([1000, 0, 500] ++ [1000]) ≤ 32 * 1000)
        ∧ intensityAfter ([1000, 0, 500] ++ [1000]) < 4294967296
        ∧ (-32768 ≤ intensityAfter ([1000, 0, 500] ++ [1000]) / 32 - 40
            ∧ intensityAfter ([1000, 0, 500] ++ [1000]) / 32 - 40 ≤ 32767)
        ∧ toInt16 (toUInt32 (asr (intensityAfter ([1000, 0, 500] ++ [1000])) SENSITIVITY - 40))
            = intensityAfter ([1000, 0, 500] ++ [1000]) / 32 - 40
        ∧ intensityOf (intensityAfter ([1000, 0, 500] ++ [1000]))
            = intensitySpec (intensityAfter ([1000, 0, 500] ++ [1000]))) :=
  ⟨by decide, by decide,
    intensity_accumulator_stays_bounded 1000 [1000, 0, 500] 1000 (by decide) (by decide)⟩

theorem diffFilt_descends (r x : Int) (hr : -32768 ≤ r ∧ r < 0)
    (hx : 32 * r + 31 < x ∧ x ≤ 0) :
    diffFilt r x = r + x - x / 32 ∧ 32 * r + 31 ≤ diffFilt r x ∧ diffFilt r x < x := by
  have he : diffFilt r x = r + x - x / 32 := by
    unfold diffFilt asr
    norm_num
    exact toInt32_of_range _ (by omega) (by omega)
  rw [he]
  exact ⟨rfl, by omega, by omega⟩

theorem diffFilt_fixed_low (r : Int) (hr : -32768 ≤ r ∧ r < 0) :
    diffFilt r (32 * r + 31) = 32 * r + 31 := by
  unfold diffFilt asr
  norm_num
  rw [toInt32_of_range _ (by omega) (by omega)]
  omega

theorem diffFilt_reaches_low (r : Int) (hr : -32768 ≤ r ∧ r < 0) (n : Nat) :
    ∀ x : Int, 32 * r + 31 ≤ x → x ≤ 0 → x - (32 * r + 31) ≤ n →
      ∃ k : Nat, (diffFilt r)^[k] x = 32 * r + 31 := by
  induction n with
  | zero =>
    intro x hlo _ hn
    exact ⟨0, by simp; omega⟩
  | succ n ih =>
    intro x hlo hx hn
    rcases eq_or_lt_of_le hlo with heq | hlt
    · exact ⟨0, by simpa using heq.symm⟩
    · obtain ⟨_, hge, hlt2⟩ := diffFilt_descends r x hr ⟨hlt, hx⟩
      obtain ⟨k, hk⟩ := ih (diffFilt r x) hge (by omega) (by push_cast at hn; omega)
      exact ⟨k + 1, by rw [Function.iterate_succ_apply]; exact hk⟩

theorem diffFilt_climbs (p x : Int) (hp : 0 < p ∧ p ≤ 32768) (hx : 0 ≤ x ∧ x < 32 * p) :
    x < diffFilt p x ∧ diffFilt p x ≤ 32 * p := by
  have he : diffFilt p x = p + x - x / 32 := by
    unfold diffFilt asr
    norm_num
    exact toInt32_of_range _ (by omega) (by omega)
  rw [he]
  exact ⟨by omega, by omega⟩

theorem diffFilt_fixed_high (p : Int) (hp : 0 < p ∧ p ≤ 32768) :
    diffFilt p (32 * p) = 32 * p := by
  unfold diffFilt asr
  norm_num
  rw [toInt32_of_range _ (by omega) (by omega)]

theorem diffFilt_reaches_high (p : Int) (hp : 0 < p ∧ p ≤ 32768) (n : Nat) :
    ∀ x : Int, 0 ≤ x → x ≤ 32 * p → 32 * p - x ≤ n →
      ∃ k : Nat, (diffFilt p)^[k] x = 32 * p := by
  induction n with
  | zero =>
    intro x _ hx hn
    exact ⟨0, by simp; omega⟩
  | succ n ih =>
    intro x hx0 hx hn
    rcases eq_or_lt_of_le hx with heq | hlt
    · exact ⟨0, by simpa using heq⟩
    · obtain ⟨hgt, hle⟩ := diffFilt_climbs p x hp ⟨hx0, hlt⟩
      obtain ⟨k, hk⟩ := ih (diffFilt p x) (by omega) hle (by push_cast at hn; omega)
      exact ⟨k + 1, by rw [Function.iterate_succ_apply]; exact hk⟩

theorem iterate_stays (f : Int → Int) (a : Int) (hf : f a = a) (j : Nat) : f^[j] a = a := by
  induction j with
  | zero => rfl
  | succ j ih => rw [Function.iterate_succ_apply, hf, ih]

/-- C38. For every constant raw difference `r` with `-32768 <= r < 0` fed to a
zero-initialised difference accumulator, the update `filt = (r + filt) - (filt >> 5)` reaches
`32 * r + 31` after finitely many updates and stays there, with `filt >> 5 = r`; for the
opposite input `-r` the accumulator reaches and keeps `32 * (-r)`, with `filt >> 5 = -r`.  The
two limits are not negatives of each other, while their shifted values are. -/
theorem negative_difference_settles_at_floor (r : Int) (hr : -32768 ≤ r ∧ r < 0) :
    (∃ n : Nat, ∀ k : Nat, n ≤ k →
        (diffFilt r)^[k] 0 = 32 * r + 31 ∧ asr ((diffFilt r)^[k] 0) SENSITIVITY = r)
      ∧ (∃ n : Nat, ∀ k : Nat, n ≤ k →
        (diffFilt (-r))^[k] 0 = 32 * (-r) ∧ asr ((diffFilt (-r))^[k] 0) SENSITIVITY = -r)
      ∧ 32 * r + 31 ≠ -(32 * (-r))
      ∧ asr (32 * r + 31) SENSITIVITY = -asr (32 * (-r)) SENSITIVITY := by
  have hshift1 : asr (32 * r + 31) SENSITIVITY = r := by
    unfold asr SENSITIVITY; norm_num; omega
  have hshift2 : asr (32 * (-r)) SENSITIVITY = -r := by
    unfold asr SENSITIVITY; norm_num
  refine ⟨?_, ?_, by omega, by rw [hshift1, hshift2]; ring⟩
  · obtain ⟨n, hn⟩ := diffFilt_reaches_low r hr (-(32 * r + 31)).toNat 0 (by omega) (le_refl _)
      (by rw [Int.toNat_of_nonneg (by omega)]; omega)
    refine ⟨n, fun k hk => ?_⟩
    obtain ⟨j, rfl⟩ := Nat.exists_eq_add_of_le hk
    have hk2 : (diffFilt r)^[n + j] 0 = 32 * r + 31 := by
      rw [Nat.add_comm, Function.iterate_add_apply, hn,
        iterate_stays _ _ (diffFilt_fixed_low r hr)]
    rw [hk2]
    exact ⟨rfl, hshift1⟩
  · have hp : 0 < -r ∧ -r ≤ 32768 := by omega
    obtain ⟨n, hn⟩ := diffFilt_reaches_high (-r) hp (32 * (-r)).toNat 0 (le_refl _) (by omega)
      (by rw [Int.toNat_of_nonneg (by omega)]; omega)
    refine ⟨n, fun k hk => ?_⟩
    obtain ⟨j, rfl⟩ := Nat.exists_eq_add_of_le hk
    have hk2 : (diffFilt (-r))^[n + j] 0 = 32 * (-r) := by
      rw [Nat.add_comm, Function.iterate_add_apply, hn,
        iterate_stays _ _ (diffFilt_fixed_high (-r) hp)]
    rw [hk2]
    exact ⟨rfl, hshift2⟩

/-- Witness for C38: the raw difference -1, with limits -1 and 32. -/
theorem negative_difference_settles_at_floor_witness :
    ((-32768 : Int) ≤ -1 ∧ (-1 : Int) < 0)
      ∧ diffFilt (-1) 0 = -1 ∧ diffFilt (-1) (-1) = -1 ∧ diffFilt 1 32 = 32
      ∧ ((∃ n : Nat, ∀ k : Nat, n ≤ k →
          (diffFilt (-1))^[k] 0 = 32 * (-1) + 31
            ∧ asr ((diffFilt (-1))^[k] 0) SENSITIVITY = -1)
        ∧ (∃ n : Nat, ∀ k : Nat, n ≤ k →
          (diffFilt (-(-1)))^[k] 0 = 32 * (-(-1))
            ∧ asr ((diffFilt (-(-1)))^[k] 0) SENSITIVITY = -(-1))
        ∧ (32 : Int) * (-1) + 31 ≠ -(32 * (-(-1)))
        ∧ asr (32 * (-1) + 31) SENSITIVITY = -asr (32 * (-(-1))) SENSITIVITY) :=
  ⟨by decide, by decide, by decide, by decide,
    negative_difference_settles_at_floor (-1) (by decide)⟩


/-! ## Theorems: microphone gain -/

theorem incMicGain_valid (g : Int) (hg : 0 ≤ g ∧ g ≤ 9) (okDefault ok : Bool) :
    incMicGain (some g) okDefault ok
      = (if ok then (some ((g + 1) % 10), true) else (some g, false)) := by
  have h1 : toUInt8 (Int.tmod (toInt32 (g + 1)) (MAX_MIC_GAIN + 1)) = (g + 1) % 10 := by
    have h32 : toInt32 (g + 1) = g + 1 := toInt32_of_range _ (by omega) (by omega)
    have ht : Int.tmod (g + 1) 10 = (g + 1) % 10 := Int.tmod_eq_emod (by omega) (by norm_num)
    have h10 : MAX_MIC_GAIN + 1 = 10 := by decide
    rw [h32, h10, ht]
    unfold toUInt8
    omega
  unfold incMicGain getMicGain readNvs32 writeNvs32
  simp only [h1]

theorem decMicGain_valid (g : Int) (hg : 0 ≤ g ∧ g ≤ 9) (okDefault ok : Bool) :
    decMicGain (some g) okDefault ok
      = (if ok then (some ((g + 9) % 10), true) else (some g, false)) := by
  have h8 : toUInt8 g = g := by unfold toUInt8; omega
  have h1 : (if toUInt8 g = 0 then MAX_MIC_GAIN else toUInt8 g - 1) = (g + 9) % 10 := by
    rw [h8]
    unfold MAX_MIC_GAIN
    split_ifs <;> omega
  unfold decMicGain getMicGain readNvs32 writeNvs32
  simp only [h1]

theorem micStep_valid (store : Option Int) (op : micOp) (h : micGainValid store) :
    micGainValid (micStep store op) := by
  have h5 : micGainValid (some 5) := by
    intro g hg
    simp only [Option.some.injEq] at hg
    omega
  cases store with
  | some g =>
    obtain ⟨h0, h9⟩ := h g rfl
    cases op with
    | inc okDefault ok =>
      simp only [micStep, incMicGain_valid g ⟨h0, h9⟩]
      cases ok
      · exact h
      · intro x hx
        simp only [if_true, Option.some.injEq] at hx
        omega
    | dec okDefault ok =>
      simp only [micStep, decMicGain_valid g ⟨h0, h9⟩]
      cases ok
      · exact h
      · intro x hx
        simp only [if_true, Option.some.injEq] at hx
        omega
    | amplitude okDefault => exact h
  | none =>
    cases op with
    | inc okDefault ok =>
      cases okDefault <;> cases ok <;> intro x hx <;>
        simp [micStep, incMicGain, getMicGain, readNvs32, writeNvs32] at hx
      all_goals (rw [← hx]; decide)
    | dec okDefault ok =>
      cases okDefault <;> cases ok <;> intro x hx <;>
        simp [micStep, decMicGain, getMicGain, readNvs32, writeNvs32] at hx
      all_goals (rw [← hx]; decide)
    | amplitude okDefault =>
      cases okDefault <;> intro x hx <;>
        simp [micStep, getMicAmplitude, getMicGain, readNvs32, writeNvs32] at hx
      all_goals (rw [← hx]; decide)

theorem micRun_valid (ops : List micOp) :
    ∀ store : Option Int, micGainValid store → micGainValid (micRun store ops) := by
  induction ops with
  | nil => intro store h; exact h
  | cons op ops ih =>
    intro store h
    exact ih (micStep store op) (micStep_valid store op h)

theorem getMicAmplitude_valid (store : Option Int) (okDefault : Bool)
    (h : micGainValid store) : ∃ a, (getMicAmplitude store okDefault).1 = some a := by
  cases store with
  | none => exact ⟨153, by unfold getMicAmplitude getMicGain readNvs32; rfl⟩
  | some g =>
    obtain ⟨h0, h9⟩ := h g rfl
    have hc : g = 0 ∨ g = 1 ∨ g = 2 ∨ g = 3 ∨ g = 4 ∨ g = 5 ∨ g = 6 ∨ g = 7 ∨ g = 8 ∨ g = 9 := by
      omega
    rcases hc with h | h | h | h | h | h | h | h | h | h <;> subst h <;> exact ⟨_, rfl⟩

/-- C39. For every stored gain `g` in 0..9, `incMicGain` hands `(g + 1) mod 10` and
`decMicGain` hands `(g + 9) mod 10` to the store, which holds it when it accepts the write and
keeps `g` when it does not; with accepted writes each undoes the other.  After any sequence of
calls of `incMicGain`, `decMicGain` and `getMicAmplitude`, whatever writes the store accepts,
starting from a store without the key (default 5) or holding 5, a stored gain is in 0..9 and
`getMicAmplitude` reads inside its table of 10 entries. -/
theorem mic_gain_cycles_inside_table (g : Int) (hg : 0 ≤ g ∧ g ≤ 9) :
    (∀ okDefault, incMicGain (some g) okDefault true = (some ((g + 1) % 10), true))
      ∧ (∀ okDefault, decMicGain (some g) okDefault true = (some ((g + 9) % 10), true))
      ∧ (∀ ok1 ok2, (decMicGain (incMicGain (some g) ok1 true).1 ok2 true).1 = some g)
      ∧ (∀ ok1 ok2, (incMicGain (decMicGain (some g) ok1 true).1 ok2 true).1 = some g)
      ∧ (∀ okDefault, incMicGain (some g) okDefault false = (some g, false)
          ∧ decMicGain (some g) okDefault false = (some g, false))
      ∧ (∀ (start : Option Int) (ops : List micOp), start = none ∨ start = some 5 →
          (∀ x, micRun start ops = some x → 0 ≤ x ∧ x ≤ 9)
            ∧ ∀ okDefault, ∃ a, (getMicAmplitude (micRun start ops) okDefault).1 = some a) := by
  have hi : ∀ okDefault, incMicGain (some g) okDefault true = (some ((g + 1) % 10), true) := by
    intro okDefault; rw [incMicGain_valid g hg]; rfl
  have hd : ∀ okDefault, decMicGain (some g) okDefault true = (some ((g + 9) % 10), true) := by
    intro okDefault; rw [decMicGain_valid g hg]; rfl
  refine ⟨hi, hd, ?_, ?_, ?_, ?_⟩
  · intro ok1 ok2
    rw [hi, decMicGain_valid _ ⟨by omega, by omega⟩]
    simp only [if_true, Option.some.injEq]
    omega
  · intro ok1 ok2
    rw [hd, incMicGain_valid _ ⟨by omega, by omega⟩]
    simp only [if_true, Option.some.injEq]
    omega
  · intro okDefault
    rw [incMicGain_valid g hg, decMicGain_valid g hg]
    exact ⟨rfl, rfl⟩
  · intro start ops hstart
    have hv : micGainValid start := by
      rcases hstart with h | h <;> subst h <;> intro x hx <;> simp at hx
      omega
    have hr := micRun_valid ops start hv
    exact ⟨fun x hx => hr x hx, fun okDefault => getMicAmplitude_valid _ okDefault hr⟩

/-- Witness for C39: the stored gain 9. -/
theorem mic_gain_cycles_inside_table_witness :
    ((0 : Int) ≤ 9 ∧ (9 : Int) ≤ 9) ∧ incMicGain (some 9) false true = (some 0, true)
      ∧ ((∀ okDefault, incMicGain (some 9) okDefault true = (some ((9 + 1) % 10), true))
        ∧ (∀ okDefault, decMicGain (some 9) okDefault true = (some ((9 + 9) % 10), true))
        ∧ (∀ ok1 ok2, (decMicGain (incMicGain (some 9) ok1 true).1 ok2 true).1 = some 9)
        ∧ (∀ ok1 ok2, (incMicGain (decMicGain (some 9) ok1 true).1 ok2 true).1 = some 9)
        ∧ (∀ okDefault, incMicGain (some 9) okDefault false = (some 9, false)
            ∧ decMicGain (some 9) okDefault false = (some 9, false))
        ∧ (∀ (start : Option Int) (ops : List micOp), start = none ∨ start = some 5 →
            (∀ x, micRun start ops = some x → 0 ≤ x ∧ x ≤ 9)
              ∧ ∀ okDefault, ∃ a, (getMicAmplitude (micRun start ops) okDefault).1 = some a)) :=
  ⟨by decide, by decide, mic_gain_cycles_inside_table 9 (by decide)⟩

end Swadge
